import Mathlib

/-!
# Verification of the diffusion / rigid-body simulator

Shallow embedding of `src/Simulations/DiffusionSimulator.cpp`.

* Real numbers (`Real`, `float`, `double`) are embedded as an arbitrary linearly ordered
  field `α` (exact arithmetic); every definition is computable and can be run at `ℚ`.
* C++ `int` is embedded as `Int` (no wrap-around: the grids have 40 x 40 cells).
* Code that can throw (`std::vector::at`, an allocation with a negative size) returns
  `Option`; `none` is the thrown exception.
* `for (int i = lo; i < hi; ++i)` is embedded as `forLoop lo hi`.
-/

set_option linter.unusedSectionVars false
set_option linter.unusedVariables false

namespace DiffusionSim

/-! ## Loops -/

/-- Runs `f 0`, `f 1`, ..., `f (n - 1)` in this order on the state, stopping at the first
failure. -/
def loopM {σ : Type} (f : Nat → σ → Option σ) : Nat → σ → Option σ
  | 0, s => some s
  | n + 1, s => (loopM f n s).bind (f n)

/-- Embedding of `for (int i = lo; i < hi; ++i) body`, the state being threaded through
the body. -/
def forLoop {σ : Type} (lo hi : Int) (body : Int → σ → Option σ) (s : σ) : Option σ :=
  loopM (fun k => body (lo + (k : Int))) (hi - lo).toNat s

/-! ## Grid -/

/-- The class `Grid`: `rows`, `cols` and the row-major `matrix`. -/
structure Grid (α : Type) where
  rows : Int
  cols : Int
  matrix : List α
  deriving DecidableEq, Repr

/-- The function `index(row, col, totalCols)`. -/
def index (row col totalCols : Int) : Int :=
  row * totalCols + col

/-- Embedding of `std::vector::at` called with an `int`: the argument is converted to
`size_t`, so a negative one is far beyond any size and throws like one that is too
large. -/
def vecAt {β : Type} (v : List β) (k : Int) : Option β :=
  if 0 ≤ k then v[k.toNat]? else none

/-- Embedding of `v.at(k) = x`. -/
def vecSet {β : Type} (v : List β) (k : Int) (x : β) : Option (List β) :=
  if 0 ≤ k ∧ k.toNat < v.length then some (v.set k.toNat x) else none

section
variable {α : Type} [LinearOrderedField α]

/-- The constructor `Grid(numRows, numCols)`: `matrix.assign(numRows * numCols, 0)`
throws when the product is negative (it is converted to `size_t`). -/
def Grid.mk2 (numRows numCols : Int) : Option (Grid α) :=
  if 0 ≤ numRows * numCols then
    some ⟨numRows, numCols, List.replicate (numRows * numCols).toNat 0⟩
  else none

/-- The method `Grid::get`. -/
def Grid.get (g : Grid α) (row col : Int) : Option α :=
  vecAt g.matrix (index row col g.cols)

/-- The method `Grid::set`. -/
def Grid.set (g : Grid α) (row col : Int) (value : α) : Option (Grid α) :=
  (vecSet g.matrix (index row col g.cols) value).map (fun m => { g with matrix := m })

/-- The constructor `Grid(numRows, numCols, initMatrix)`. -/
def Grid.mk3 (numRows numCols : Int) (initMatrix : List α) : Option (Grid α) := do
  let g ← (Grid.mk2 numRows numCols : Option (Grid α))
  forLoop 0 numRows (fun i g =>
    forLoop 0 numCols (fun j g => do
      let x ← vecAt initMatrix (index i j numCols)
      g.set i j x) g) g

/-- The operator `Grid::operator*(scalar)`. -/
def Grid.smul (g : Grid α) (scalar : α) : Option (Grid α) := do
  let result ← (Grid.mk2 g.rows g.cols : Option (Grid α))
  forLoop 0 g.rows (fun i result =>
    forLoop 0 g.cols (fun j result => do
      let x ← g.get i j
      result.set i j (x * scalar)) result) result

/-- The method `Grid::convolution`. -/
def Grid.convolution (g window : Grid α) : Option (Grid α) := do
  let out ← (Grid.mk2 (g.rows - window.rows + 1) (g.cols - window.cols + 1) : Option (Grid α))
  forLoop 0 out.rows (fun out_i out =>
    forLoop 0 out.cols (fun out_j out => do
      let value ← forLoop 0 window.rows (fun w_i value =>
        forLoop 0 window.cols (fun w_j value => do
          let a ← window.get w_i w_j
          let b ← g.get (out_i + w_i) (out_j + w_j)
          pure (value + a * b)) value) (0 : α)
      out.set out_i out_j value) out) out

end

/-! ## Vectors, quaternions and matrices of the framework -/

/-- Modelled from the spec: the type `Vec3` of the framework's vector header, which is not
part of the sources: three real components. -/
@[ext]
structure Vec3 (α : Type) where
  x : α
  y : α
  z : α
  deriving DecidableEq, Repr

/-- Modelled from the spec: the type `Quat` of the framework's quaternion header, which is
not part of the sources: components `x`, `y`, `z`, `w`. -/
@[ext]
structure Quat (α : Type) where
  x : α
  y : α
  z : α
  w : α
  deriving DecidableEq, Repr

/-- Modelled from the spec: the type `Mat4` of the framework's matrix header, which is not
part of the sources: a 4 x 4 matrix `value[row][col]`. -/
abbrev Mat4 (α : Type) := Matrix (Fin 4) (Fin 4) α

section
variable {α : Type} [LinearOrderedField α]

instance : Zero (Vec3 α) := ⟨⟨0, 0, 0⟩⟩
instance : Add (Vec3 α) := ⟨fun a b => ⟨a.x + b.x, a.y + b.y, a.z + b.z⟩⟩
instance : Sub (Vec3 α) := ⟨fun a b => ⟨a.x - b.x, a.y - b.y, a.z - b.z⟩⟩
instance : HMul α (Vec3 α) (Vec3 α) := ⟨fun c a => ⟨c * a.x, c * a.y, c * a.z⟩⟩
instance : HMul (Vec3 α) α (Vec3 α) := ⟨fun a c => ⟨a.x * c, a.y * c, a.z * c⟩⟩
instance : HDiv (Vec3 α) α (Vec3 α) := ⟨fun a c => ⟨a.x / c, a.y / c, a.z / c⟩⟩

/-- Modelled from the spec: the cross product `cross(a, b)` of the vector header. -/
def cross (a b : Vec3 α) : Vec3 α :=
  ⟨a.y * b.z - a.z * b.y, a.z * b.x - a.x * b.z, a.x * b.y - a.y * b.x⟩

/-- Modelled from the spec: the dot product `dot(a, b)` of the vector header. -/
def dot (a b : Vec3 α) : α :=
  a.x * b.x + a.y * b.y + a.z * b.z

/-- Modelled from the spec: `Mat4::initScaling(x, y, z)` of the matrix header: the
diagonal matrix of the three factors and 1. -/
def Mat4.initScaling (x y z : α) : Mat4 α :=
  Matrix.diagonal ![x, y, z, 1]

/-- Modelled from the spec: `Mat4::initTranslation(x, y, z)` of the matrix header: the
identity with the translation in the last row (row-vector convention, as in the product
`scaleMat * rotMat * translatMat`). -/
def Mat4.initTranslation (x y z : α) : Mat4 α :=
  fun i j => if i = 3 ∧ j = 0 then x else if i = 3 ∧ j = 1 then y
    else if i = 3 ∧ j = 2 then z else if i = j then 1 else 0

/-- Modelled from the spec: `Mat4::transformVector(v)` of the matrix header: the row
vector `(v, 1)` times the matrix. -/
def Mat4.transformVector (m : Mat4 α) (v : Vec3 α) : Vec3 α :=
  ⟨v.x * m 0 0 + v.y * m 1 0 + v.z * m 2 0 + m 3 0,
   v.x * m 0 1 + v.y * m 1 1 + v.z * m 2 1 + m 3 1,
   v.x * m 0 2 + v.y * m 1 2 + v.z * m 2 2 + m 3 2⟩

/-- The result type of `checkCollisionSAT` (declared in the framework's collision header):
the fields that the simulator reads. -/
structure CollisionInfo (α : Type) where
  isValid : Bool
  collisionPointWorld : Vec3 α
  normalWorld : Vec3 α

/-- The functions of the framework and of the C++ library that the simulator calls and
whose code is not part of the sources; they are parameters of the embedding. -/
structure Framework (α : Type) where
  /-- The box-box separating-axis test `checkCollisionSAT(obj2World_A, obj2World_B)`. -/
  checkCollisionSAT : Mat4 α → Mat4 α → CollisionInfo α
  /-- The rotation matrix `Quat::getRotMat()`. -/
  getRotMat : Quat α → Mat4 α
  /-- The square root `std::sqrt`. -/
  sqrt : α → α

/-! ## Constants -/

/-- The macro `SPATIAL_DELTA`. -/
def SPATIAL_DELTA : α := 10
/-- The macro `WAVE_SPEED`. -/
def WAVE_SPEED : α := 300
/-- The macro `CULLING_PROJECTION_RADIUS`. -/
def CULLING_PROJECTION_RADIUS : Int := 6
/-- The macro `WATER_ZERO_HEIGHT`. -/
def WATER_ZERO_HEIGHT : α := -(1 / 2)
/-- The macro `DAMPING`. -/
def DAMPING : α := 999 / 1000
/-- The macro `WATER_COLLISION_FACTOR`. -/
def WATER_COLLISION_FACTOR : α := 4 / 10
/-- The macro `WATER_COLLISION_DOWNSPEED`. -/
def WATER_COLLISION_DOWNSPEED : α := 1 / 2
/-- The macro `BOUNCYNESS`. -/
def BOUNCYNESS : α := 7 / 10

/-! ## Rigid bodies -/

/-- The class `ExternalForce`. -/
structure ExternalForce (α : Type) where
  force : Vec3 α
  position : Vec3 α

/-- The class `RigidBody`. -/
structure RigidBody (α : Type) where
  position_x : Vec3 α
  size : Vec3 α
  orientation_r : Quat α
  mass_m : α
  linearVelocity_v : Vec3 α
  angularVelocity_w : Vec3 α
  angularMomentum_L : Vec3 α
  Inverse_I_0 : Mat4 α
  externalForces : List (ExternalForce α)
  gridHit : Bool

/-- The method `RigidBody::getInverseInertiaTensorRotated`. -/
def RigidBody.getInverseInertiaTensorRotated (fw : Framework α) (b : RigidBody α) : Mat4 α :=
  let rotMat := fw.getRotMat b.orientation_r
  let rotMat_T := (fw.getRotMat b.orientation_r).transpose
  rotMat * b.Inverse_I_0 * rotMat_T

/-- The method `RigidBody::getObject2WorldMatrix`. -/
def RigidBody.getObject2WorldMatrix (fw : Framework α) (b : RigidBody α) : Mat4 α :=
  let scaleMat : Mat4 α := Mat4.initScaling b.size.x b.size.y b.size.z
  let translatMat : Mat4 α := Mat4.initTranslation b.position_x.x b.position_x.y b.position_x.z
  scaleMat * fw.getRotMat b.orientation_r * translatMat

/-- The method `RigidBody::getTotalVelocityAtLocalPositiion`. -/
def RigidBody.getTotalVelocityAtLocalPositiion (b : RigidBody α) (localPosition : Vec3 α) :
    Vec3 α :=
  b.linearVelocity_v + cross b.angularVelocity_w localPosition

/-- The body of `DiffusionSimulator::handleOneCollision` on the two bodies
`A = rigidBodies[indexA]` and `B = rigidBodies[indexB]`, which are distinct objects (the
only call passes `j < i`); the result is the state of the two bodies at the return. -/
def handleOneCollision (fw : Framework α) (A B : RigidBody α) : RigidBody α × RigidBody α :=
  let info := fw.checkCollisionSAT (A.getObject2WorldMatrix fw) (B.getObject2WorldMatrix fw)
  if !info.isValid then (A, B) else
  let A := { A with externalForces := [] }
  let B := { B with externalForces := [] }
  let n := info.normalWorld
  let x_a := info.collisionPointWorld - A.position_x
  let x_b := info.collisionPointWorld - B.position_x
  let v_rel := A.getTotalVelocityAtLocalPositiion x_a - B.getTotalVelocityAtLocalPositiion x_b
  let v_rel_dot_n := dot v_rel n
  if v_rel_dot_n > 0 then (A, B) else
  let intermediate :=
    cross ((A.getInverseInertiaTensorRotated fw).transformVector (cross x_a n)) x_a +
    cross ((B.getInverseInertiaTensorRotated fw).transformVector (cross x_b n)) x_b
  let J := (-(1 + BOUNCYNESS) * v_rel_dot_n) /
    ((1 / A.mass_m) + (1 / B.mass_m) + dot intermediate n)
  let Jn := J * n
  let A := { A with linearVelocity_v := A.linearVelocity_v + Jn / A.mass_m }
  let B := { B with linearVelocity_v := B.linearVelocity_v - Jn / B.mass_m }
  let A := { A with angularMomentum_L := A.angularMomentum_L + cross x_a Jn }
  let B := { B with angularMomentum_L := B.angularMomentum_L - cross x_b Jn }
  (A, B)

/-- The call `handleOneCollision(indexA, indexB)` on the vector of bodies: the two bodies
are read, resolved and written back. The indices are distinct and in range at the only
call site; the vector is left as it is otherwise. -/
def handleOneCollisionAt (fw : Framework α) (rigidBodies : List (RigidBody α))
    (indexA indexB : Nat) : List (RigidBody α) :=
  match rigidBodies[indexA]?, rigidBodies[indexB]? with
  | some A, some B =>
    if indexA = indexB then rigidBodies else
    ((rigidBodies.set indexA (handleOneCollision fw A B).1).set indexB
      (handleOneCollision fw A B).2)
  | _, _ => rigidBodies

/-- The function `vec_length`. -/
def vec_length (fw : Framework α) (v : Vec3 α) : α :=
  fw.sqrt (v.x * v.x + v.y * v.y + v.z * v.z)

/-! ## The simulator -/

/-- The class `GridPixel`: the cell coordinates `x` (row) and `y` (column), the cached
position and the cached object-to-world matrix. -/
structure GridPixel (α : Type) where
  x : Int
  y : Int
  pos : Vec3 α
  object2WorldMatrix : Mat4 α

/-- The method `GridPixel::getObject2WorldMatrix`. -/
def GridPixel.getObject2WorldMatrix (gp : GridPixel α) : Mat4 α :=
  gp.object2WorldMatrix

/-- The state of the class `DiffusionSimulator` that the simulation reads and writes. -/
structure DiffusionSimulator (α : Type) where
  rigidBodies : List (RigidBody α)
  T : Grid α
  T_t_minus_one : Grid α
  spatial_convolution_window : Grid α
  pixels : List (GridPixel α)
  grid_minX : α
  grid_maxX : α
  grid_minZ : α
  grid_maxZ : α

/-- The array `window` of the constructor `DiffusionSimulator::DiffusionSimulator`. -/
def window : List α := [0, 1, 0, 1, -4, 1, 0, 1, 0]

/-- The body of the inner loop of `diffuseTemperatureExplicit` for the cell `(i, j)`. -/
def diffuseCell (timeStep : α) (laplace : Grid α) (i j : Int) (sim : DiffusionSimulator α) :
    Option (DiffusionSimulator α) := do
  let l ← laplace.get (i - 1) (j - 1)
  let t ← sim.T.get i j
  let p ← sim.T_t_minus_one.get i j
  let u_ij_new := WAVE_SPEED * WAVE_SPEED * timeStep * timeStep * l + 2 * t - p
  let u_ij_new := u_ij_new * DAMPING
  let t ← sim.T.get i j
  let prev ← sim.T_t_minus_one.set i j t
  let cur ← sim.T.set i j u_ij_new
  pure { sim with T := cur, T_t_minus_one := prev }

/-- The method `DiffusionSimulator::diffuseTemperatureExplicit`. The bound
`T.rows - 1` of the outer loop is that of the grid at entry: `set` keeps `rows`. -/
def diffuseTemperatureExplicit (timeStep : α) (sim : DiffusionSimulator α) :
    Option (DiffusionSimulator α) := do
  let conv ← sim.T.convolution sim.spatial_convolution_window
  let laplace ← conv.smul (1 / (SPATIAL_DELTA * SPATIAL_DELTA))
  forLoop 1 (sim.T.rows - 1) (fun i sim =>
    forLoop 1 (sim.T.cols - 1) (fun j sim => diffuseCell timeStep laplace i j sim) sim) sim

/-- Runs `diffuseTemperatureExplicit` once per timestep of the list, in order. -/
def diffuseSteps : List α → DiffusionSimulator α → Option (DiffusionSimulator α)
  | [], sim => some sim
  | dt :: dts, sim => (diffuseTemperatureExplicit dt sim).bind (diffuseSteps dts)

end

/-! ## Collision handling of the whole scene -/

section
variable {α : Type} [LinearOrderedField α] [FloorRing α]

/-- Embedding of `for each (auto x in xs) body`, the state being threaded through the
body. -/
def forEach {β σ : Type} (xs : List β) (body : β → σ → Option σ) (s : σ) : Option σ :=
  match xs with
  | [] => some s
  | x :: rest => (body x s).bind (forEach rest body)

/-- The implicit conversion of a real value to `int`: truncation toward zero. -/
def toInt (x : α) : Int :=
  if 0 ≤ x then ⌊x⌋ else ⌈x⌉

/-- The method `DiffusionSimulator::getProjectedPixels`. -/
def getProjectedPixels (sim : DiffusionSimulator α) (position : Vec3 α) :
    Option (List (GridPixel α)) :=
  if position.x < sim.grid_minX ∨ position.x > sim.grid_maxX ∨ position.z < sim.grid_minZ ∨
      position.x > sim.grid_maxZ then
    some []
  else
    let index_row : Int :=
      toInt (((position.x - sim.grid_minX) / (sim.grid_maxX - sim.grid_minX)) * (sim.T.cols : α))
    let index_col : Int :=
      toInt (((position.z - sim.grid_minZ) / (sim.grid_maxZ - sim.grid_minZ)) * (sim.T.rows : α))
    let delta : Int := CULLING_PROJECTION_RADIUS / 2
    forLoop (max 0 (index_row - delta)) (min sim.T.rows (index_row + delta)) (fun i out =>
      forLoop (max 0 (index_col - delta)) (min sim.T.cols (index_col + delta)) (fun j out => do
        let gp ← vecAt sim.pixels (index i j sim.T.cols)
        pure (out ++ [gp])) out) []

/-- The first loop of `handleCollisions`: `handleOneCollision(i, j)` for every `j < i`. -/
def collideBodies (fw : Framework α) (rigidBodies : List (RigidBody α)) :
    Option (List (RigidBody α)) :=
  forLoop 0 rigidBodies.length (fun i rbs =>
    forLoop 0 i (fun j rbs => some (handleOneCollisionAt fw rbs i.toNat j.toNat)) rbs)
    rigidBodies

/-- The body of the loop over the projected pixels in `handleCollisions`, on the body `rb`
and the grid `T`. -/
def waterPixel (fw : Framework α) (gp : GridPixel α) (st : RigidBody α × Grid α) :
    Option (RigidBody α × Grid α) :=
  let rb := st.1
  let T := st.2
  let info := fw.checkCollisionSAT (rb.getObject2WorldMatrix fw) gp.getObject2WorldMatrix
  if info.isValid then do
    let rb := { rb with gridHit := true }
    let current ← T.get gp.x gp.y
    let v := vec_length fw rb.linearVelocity_v
    let impulse := rb.mass_m * v
    let T ← T.set gp.x gp.y (current + impulse * WATER_COLLISION_FACTOR)
    pure (rb, T)
  else
    some (rb, T)

/-- The body of the second loop of `handleCollisions` (collision with water) for one body
`rb`, on the grid `T`. -/
def waterBody (fw : Framework α) (sim : DiffusionSimulator α) (rb : RigidBody α)
    (T : Grid α) : Option (RigidBody α × Grid α) :=
  if rb.gridHit then some (rb, T)
  else do
    let gps ← getProjectedPixels { sim with T := T } rb.position_x
    let st ← forEach gps (waterPixel fw) (rb, T)
    let rb := st.1
    if rb.gridHit then
      pure ({ rb with linearVelocity_v :=
        { rb.linearVelocity_v with
          y := rb.linearVelocity_v.y
            - vec_length fw rb.linearVelocity_v * WATER_COLLISION_DOWNSPEED } }, st.2)
    else
      pure (rb, st.2)

/-- The second loop of `handleCollisions`: `waterBody` for every body in order. -/
def waterBodies (fw : Framework α) (sim : DiffusionSimulator α) :
    List (RigidBody α) → Grid α → Option (List (RigidBody α) × Grid α)
  | [], T => some ([], T)
  | rb :: rest, T =>
    (waterBody fw sim rb T).bind (fun st =>
      (waterBodies fw sim rest st.2).bind (fun st' => some (st.1 :: st'.1, st'.2)))

/-- The test `wall at 1 x` of the third loop of `handleCollisions`; the two nested `if`
are one conjunction. -/
def wallXPos (rb : RigidBody α) : RigidBody α :=
  if rb.position_x.x + rb.size.x * (1 / 2) > 1 ∧ rb.linearVelocity_v.x > 0 then
    { rb with linearVelocity_v := { rb.linearVelocity_v with x := -rb.linearVelocity_v.x } }
  else rb

/-- The test `wall at - 1 x` of the third loop of `handleCollisions`. -/
def wallXNeg (rb : RigidBody α) : RigidBody α :=
  if rb.position_x.x + rb.size.x * (1 / 2) < -1 ∧ rb.linearVelocity_v.x < 0 then
    { rb with linearVelocity_v := { rb.linearVelocity_v with x := -rb.linearVelocity_v.x } }
  else rb

/-- The test `wall at 1 z` of the third loop of `handleCollisions`. -/
def wallZPos (rb : RigidBody α) : RigidBody α :=
  if rb.position_x.z + rb.size.z * (1 / 2) > 1 ∧ rb.linearVelocity_v.z > 0 then
    { rb with linearVelocity_v := { rb.linearVelocity_v with z := -rb.linearVelocity_v.z } }
  else rb

/-- The test `wall at - 1 z` of the third loop of `handleCollisions`. -/
def wallZNeg (rb : RigidBody α) : RigidBody α :=
  if rb.position_x.z + rb.size.z * (1 / 2) < -1 ∧ rb.linearVelocity_v.z < 0 then
    { rb with linearVelocity_v := { rb.linearVelocity_v with z := -rb.linearVelocity_v.z } }
  else rb

/-- The test `wall at 1.5 y` of the third loop of `handleCollisions`. -/
def wallYPos (rb : RigidBody α) : RigidBody α :=
  if rb.position_x.y + rb.size.y * (1 / 2) > 3 / 2 ∧ rb.linearVelocity_v.y > 0 then
    { rb with linearVelocity_v := { rb.linearVelocity_v with y := -rb.linearVelocity_v.y } }
  else rb

/-- The five wall tests of the third loop of `handleCollisions` on one body, in the order
of the source. -/
def wallBounce (rb : RigidBody α) : RigidBody α :=
  wallYPos (wallZNeg (wallZPos (wallXNeg (wallXPos rb))))

/-- The body of the third loop of `handleCollisions` for the index `i`, on the vector of
bodies and `rb_indices_to_delete`. -/
def wallStep (i : Int) (st : List (RigidBody α) × List Int) :
    Option (List (RigidBody α) × List Int) := do
  let rb ← vecAt st.1 i
  let rb := wallBounce rb
  let rbs ← vecSet st.1 i rb
  if rb.gridHit ∧ rb.position_x.y + rb.size.y * (1 / 2) < WATER_ZERO_HEIGHT then
    pure (rbs, st.2 ++ [i])
  else
    pure (rbs, st.2)

/-- The last loop of `handleCollisions`: the collected indices are erased from the vector
of bodies, the last one first. -/
def eraseBodies (rigidBodies : List (RigidBody α)) (rb_indices_to_delete : List Int) :
    Option (List (RigidBody α)) :=
  loopM (fun k rbs => do
    let d ← vecAt rb_indices_to_delete ((rb_indices_to_delete.length : Int) - 1 - (k : Int))
    pure (rbs.eraseIdx d.toNat)) rb_indices_to_delete.length rigidBodies

/-- The method `DiffusionSimulator::handleCollisions` up to the last loop: the state of
every body of the vector, the collected indices and the grid. -/
def handleCollisionsUpdate (fw : Framework α) (sim : DiffusionSimulator α) :
    Option (List (RigidBody α) × List Int × Grid α) := do
  let rbs ← collideBodies fw sim.rigidBodies
  let st ← waterBodies fw sim rbs sim.T
  let st' ← forLoop 0 st.1.length wallStep (st.1, [])
  pure (st'.1, st'.2, st.2)

/-- The method `DiffusionSimulator::handleCollisions`. The last loop erases entries of the
vector only: a body that is erased keeps the state that `handleCollisionsUpdate` gives. -/
def handleCollisions (fw : Framework α) (sim : DiffusionSimulator α) :
    Option (DiffusionSimulator α) := do
  let st ← handleCollisionsUpdate fw sim
  let rbs ← eraseBodies st.1 st.2.1
  pure { sim with rigidBodies := rbs, T := st.2.2 }

end

/-! ## Specification vocabulary -/

section
variable {α : Type} [LinearOrderedField α]

/-- A grid with `R` rows and `C` columns whose vector holds one value per cell. -/
def Grid.Shape (g : Grid α) (R C : Int) : Prop :=
  g.rows = R ∧ g.cols = C ∧ 0 ≤ R ∧ 0 ≤ C ∧ (g.matrix.length : Int) = R * C

instance (g : Grid α) (R C : Int) : Decidable (g.Shape R C) := by
  unfold Grid.Shape; infer_instance

/-- The value of the cell `(row, col)`, and 0 where `get` throws. -/
def Grid.val (g : Grid α) (row col : Int) : α :=
  (g.get row col).getD 0

end

section
variable {α : Type} [LinearOrderedField α]

/-- The valid-mode convolution sum at the output cell `(i, j)`: the sum over the kernel
cells `(a, b)` of `window(a, b) * g(i + a, j + b)`. -/
def convSum (g window : Grid α) (i j : Int) : α :=
  ∑ a in Finset.range window.rows.toNat, ∑ b in Finset.range window.cols.toNat,
    window.val a b * g.val (i + a) (j + b)

end

section
variable {α : Type} [LinearOrderedField α]

/-- The value that one explicit step writes to an interior cell `(i, j)`, from the fields
`cur` and `prev` before the step:
`0.999 * (300^2 * dt^2 * (up + down + left + right - 4 * centre) / 10^2 + 2 * centre - prev)`. -/
def waveUpdate (dt : α) (cur prev : Grid α) (i j : Int) : α :=
  999 / 1000 * (300 ^ 2 * dt ^ 2 *
    (cur.val (i - 1) j + cur.val (i + 1) j + cur.val i (j - 1) + cur.val i (j + 1)
      - 4 * cur.val i j) / 10 ^ 2 + 2 * cur.val i j - prev.val i j)

/-- An example grid with 3 rows and 4 columns. -/
def exampleGrid : Grid ℚ := ⟨3, 4, [1, 2, 3, 4, 5, 6, 7, 8, 9, 10, 11, 12]⟩

/-- An example kernel with 2 rows and 2 columns. -/
def exampleKernel : Grid ℚ := ⟨2, 2, [1, 0, 0, 1]⟩

/-- The simulator state of the 5 x 5 scenario: no bodies, the field all zero but for 100
at the centre cell `(2, 2)`, the previous field all zero, the stencil of the constructor. -/
def sim5 : DiffusionSimulator ℚ :=
  { rigidBodies := []
    T := ⟨5, 5, [0, 0, 0, 0, 0, 0, 0, 0, 0, 0, 0, 0, 100, 0, 0, 0, 0, 0, 0, 0, 0, 0, 0, 0, 0]⟩
    T_t_minus_one := ⟨5, 5, List.replicate 25 0⟩
    spatial_convolution_window := ⟨3, 3, window⟩
    pixels := []
    grid_minX := 0
    grid_maxX := 0
    grid_minZ := 0
    grid_maxZ := 0 }

end

section
variable {α : Type} [LinearOrderedField α]

/-- A framework instance for examples: the collision test reports the given result for
every pair, rotation matrices are the identity, and the square root is not used. -/
def exampleFramework (info : CollisionInfo ℚ) : Framework ℚ :=
  { checkCollisionSAT := fun _ _ => info
    getRotMat := fun _ => 1
    sqrt := fun x => x }

/-- An example body: a unit-mass box of side 1/10 at `position_x` with linear velocity
`linearVelocity_v`, no rotation, no pending force, not flagged grid-hit. -/
def exampleBody (position_x linearVelocity_v : Vec3 ℚ) : RigidBody ℚ :=
  { position_x := position_x
    size := ⟨1 / 10, 1 / 10, 1 / 10⟩
    orientation_r := ⟨0, 0, 0, 1⟩
    mass_m := 1
    linearVelocity_v := linearVelocity_v
    angularVelocity_w := ⟨0, 0, 0⟩
    angularMomentum_L := ⟨0, 0, 0⟩
    Inverse_I_0 := Matrix.diagonal ![600, 600, 600, 1]
    externalForces := []
    gridHit := false }

end

section

/-- The collision result of the head-on example: overlap, contact point `(1/20, 0, 0)`,
normal `(-1, 0, 0)` from B to A. -/
def exampleInfo : CollisionInfo ℚ := ⟨true, ⟨1 / 20, 0, 0⟩, ⟨-1, 0, 0⟩⟩

/-- The body A of the head-on example: at the origin, moving with `(3, 0, 0)`. -/
def exampleA : RigidBody ℚ := exampleBody ⟨0, 0, 0⟩ ⟨3, 0, 0⟩

/-- The body B of the head-on example: at `(1/10, 0, 0)`, moving with `(-3, 0, 0)`. -/
def exampleB : RigidBody ℚ := exampleBody ⟨1 / 10, 0, 0⟩ ⟨-3, 0, 0⟩

end

section

/-- A framework instance for examples in which no collision test reports overlap. -/
def noContact : Framework ℚ := exampleFramework ⟨false, ⟨0, 0, 0⟩, ⟨0, 0, 0⟩⟩

/-- An example pixel of the cell `(i, j)`. -/
def examplePixel (i j : Int) : GridPixel ℚ := ⟨i, j, ⟨0, 0, 0⟩, 1⟩

/-- An example scene: a 2 x 2 grid with its four pixels and two bodies, the first with its
+X face at 1.04 beyond the wall `x = 1` and moving with `vx = 3`. -/
def exampleScene : DiffusionSimulator ℚ :=
  { rigidBodies := [exampleBody ⟨99 / 100, 0, 0⟩ ⟨3, 0, 0⟩, exampleBody ⟨0, 0, 0⟩ ⟨-2, 0, 0⟩]
    T := ⟨2, 2, [0, 0, 0, 0]⟩
    T_t_minus_one := ⟨2, 2, [0, 0, 0, 0]⟩
    spatial_convolution_window := ⟨3, 3, window⟩
    pixels := [examplePixel 0 0, examplePixel 0 1, examplePixel 1 0, examplePixel 1 1]
    grid_minX := -1
    grid_maxX := 1
    grid_minZ := -1
    grid_maxZ := 1 }

end

/-! ## Quaternions and the body constructor -/

section
variable {α : Type} [LinearOrderedField α]

instance : Add (Quat α) := ⟨fun a b => ⟨a.x + b.x, a.y + b.y, a.z + b.z, a.w + b.w⟩⟩
instance : HMul α (Quat α) (Quat α) := ⟨fun c a => ⟨c * a.x, c * a.y, c * a.z, c * a.w⟩⟩
instance : HDiv (Quat α) α (Quat α) := ⟨fun a c => ⟨a.x / c, a.y / c, a.z / c, a.w / c⟩⟩

/-- Modelled from the spec: the product of two quaternions of the quaternion header, which
is not part of the sources: the Hamilton product, `w` being the real part. -/
def Quat.mul (a b : Quat α) : Quat α :=
  ⟨a.w * b.x + a.x * b.w + a.y * b.z - a.z * b.y,
   a.w * b.y - a.x * b.z + a.y * b.w + a.z * b.x,
   a.w * b.z + a.x * b.y - a.y * b.x + a.z * b.w,
   a.w * b.w - a.x * b.x - a.y * b.y - a.z * b.z⟩

instance : Mul (Quat α) := ⟨Quat.mul⟩

/-- The sum of the squares of the four components of a quaternion. -/
def Quat.normSq (q : Quat α) : α :=
  q.x * q.x + q.y * q.y + q.z * q.z + q.w * q.w

/-- Modelled from the spec: `Quat::norm()` of the quaternion header: the square root of
the sum of the squares of the components. -/
def Quat.norm (fw : Framework α) (q : Quat α) : α :=
  fw.sqrt q.normSq

/-- Modelled from the spec: `Mat4::initFromArray(arr)` of the matrix header: the 16 values
row by row. -/
def Mat4.initFromArray (arr : List α) : Mat4 α :=
  fun i j => arr.getD (4 * i.val + j.val) 0

/-- Modelled from the spec: `Mat4::inverse()` of the matrix header: the inverse matrix,
computed as the adjugate divided by the determinant. -/
def Mat4.inverse (m : Mat4 α) : Mat4 α :=
  (m.det)⁻¹ • m.adjugate

/-- The three moments `I_11`, `I_22`, `I_33` that `RigidBody::initInverse_I_0` computes from
the size (width, height, depth) and the mass. -/
def inertiaMoments (size : Vec3 α) (mass_m : α) : α × α × α :=
  let width := size.x
  let height := size.y
  let depth := size.z
  let fak := mass_m / 12
  let I_11 := fak * (height ^ 2 + depth ^ 2)
  let I_22 := fak * (width ^ 2 + height ^ 2)
  let I_33 := fak * (width ^ 2 + depth ^ 2)
  (I_11, I_22, I_33)

/-- The method `RigidBody::initInverse_I_0`. -/
def RigidBody.initInverse_I_0 (b : RigidBody α) : RigidBody α :=
  let I := inertiaMoments b.size b.mass_m
  let arr : List α := [I.1, 0, 0, 0, 0, I.2.1, 0, 0, 0, 0, I.2.2, 0, 0, 0, 0, 1]
  { b with Inverse_I_0 := (Mat4.initFromArray arr).inverse }

/-- The constructor `RigidBody(position_x, orientation_r, size, mass_m)`. The members that
it does not assign are taken as zero vectors, an empty force list and `gridHit = false`
(their initialisers are in the class declaration, which is not part of the sources). -/
def RigidBody.new (position_x : Vec3 α) (orientation_r : Quat α) (size : Vec3 α)
    (mass_m : α) : RigidBody α :=
  RigidBody.initInverse_I_0
    { position_x := position_x
      size := size
      orientation_r := orientation_r
      mass_m := mass_m
      linearVelocity_v := 0
      angularVelocity_w := 0
      angularMomentum_L := 0
      Inverse_I_0 := 0
      externalForces := []
      gridHit := false }

/-! ## Rigid-body integration -/

/-- The method `ExternalForce::convertToTorque`. -/
def ExternalForce.convertToTorque (f : ExternalForce α) (centerOfMass : Vec3 α) : Vec3 α :=
  let localSpacePos := f.position - centerOfMass
  cross localSpacePos f.force

/-- The method `RigidBody::getAngularVelocityQuat`. -/
def RigidBody.getAngularVelocityQuat (b : RigidBody α) : Quat α :=
  ⟨b.angularVelocity_w.x, b.angularVelocity_w.y, b.angularVelocity_w.z, 0⟩

/-- The method `RigidBody::sumTotalForce_F`; the vector `out` starts as the zero vector. -/
def RigidBody.sumTotalForce_F (b : RigidBody α) : Vec3 α :=
  b.externalForces.foldl (fun out eForce => out + eForce.force) 0

/-- The method `RigidBody::sumTotalTorque_q`; the vector `out` starts as the zero vector. -/
def RigidBody.sumTotalTorque_q (b : RigidBody α) : Vec3 α :=
  b.externalForces.foldl (fun out eForce => out + eForce.convertToTorque b.position_x) 0

/-- The function `normalzeQuat`. -/
def normalzeQuat (fw : Framework α) (quaternion : Quat α) : Quat α :=
  let norm := quaternion.norm fw
  if norm > 0 then quaternion / norm else quaternion

/-- The linear part of the loop body of `simulateTimestep_RB`: position, then velocity. -/
def integrateLinear (timeStep : α) (body : RigidBody α) : RigidBody α :=
  let body := { body with position_x := body.position_x + timeStep * body.linearVelocity_v }
  let acceleration := body.sumTotalForce_F / body.mass_m
  { body with linearVelocity_v := body.linearVelocity_v + timeStep * acceleration }

/-- The orientation update of the loop body of `simulateTimestep_RB`. -/
def integrateOrientation (fw : Framework α) (timeStep : α) (body : RigidBody α) :
    RigidBody α :=
  let wr := body.getAngularVelocityQuat * body.orientation_r
  let body := { body with orientation_r := body.orientation_r + (timeStep / 2) * wr }
  { body with orientation_r := normalzeQuat fw body.orientation_r }

/-- The angular-momentum and angular-velocity updates of the loop body of
`simulateTimestep_RB`. -/
def integrateAngular (fw : Framework α) (timeStep : α) (body : RigidBody α) : RigidBody α :=
  let body :=
    { body with angularMomentum_L := body.angularMomentum_L + body.sumTotalTorque_q * timeStep }
  { body with angularVelocity_w :=
      (body.getInverseInertiaTensorRotated fw).transformVector body.angularMomentum_L }

/-- The loop body of `simulateTimestep_RB` for one body. -/
def integrateBody (fw : Framework α) (timeStep : α) (body : RigidBody α) : RigidBody α :=
  integrateAngular fw timeStep (integrateOrientation fw timeStep (integrateLinear timeStep body))

end

/-! ## The timestep -/

section
variable {α : Type} [LinearOrderedField α] [FloorRing α]

/-- The macro `GRID_DIM`. -/
def GRID_DIM : Int := 40
/-- The macro `GRID_SIZE`. -/
def GRID_SIZE : Int := 2

/-- The method `GridPixel::update`, on the grid that the pixel points to. The colour, which
only the renderer reads, is left out. -/
def GridPixel.update (grid : Grid α) (gp : GridPixel α) : Option (GridPixel α) := do
  let value ← grid.get gp.x gp.y
  let scaleHorizontal : α := 1 / (GRID_DIM : α) * (GRID_SIZE : α)
  let scaledValue := value / 100
  let pos : Vec3 α :=
    ⟨(gp.x : α) * scaleHorizontal - ((GRID_SIZE / 2 : Int) : α),
     scaledValue + WATER_ZERO_HEIGHT,
     (gp.y : α) * scaleHorizontal - ((GRID_SIZE / 2 : Int) : α)⟩
  let posMat : Mat4 α := Mat4.initTranslation pos.x pos.y pos.z
  let sizeMat : Mat4 α := Mat4.initScaling scaleHorizontal (|scaledValue| + 1 / 100)
    scaleHorizontal
  pure { gp with pos := pos, object2WorldMatrix := sizeMat * posMat }

/-- The loop of `DiffusionSimulator::updatePixels` over a list of pixels. -/
def updatePixelList (grid : Grid α) : List (GridPixel α) → Option (List (GridPixel α))
  | [] => some []
  | gp :: rest =>
    (gp.update grid).bind (fun gp' => (updatePixelList grid rest).map (fun l => gp' :: l))

/-- The method `DiffusionSimulator::updatePixels`. -/
def updatePixels (sim : DiffusionSimulator α) : Option (DiffusionSimulator α) :=
  (updatePixelList sim.T sim.pixels).map (fun ps => { sim with pixels := ps })

/-- The method `DiffusionSimulator::simulateTimestep_PDE`. -/
def simulateTimestep_PDE (timeStep : α) (sim : DiffusionSimulator α) :
    Option (DiffusionSimulator α) :=
  (diffuseTemperatureExplicit timeStep sim).bind updatePixels

/-- The loop of `simulateTimestep_RB` over the bodies, after `handleCollisions`. -/
def integrateBodies (fw : Framework α) (timeStep : α) (sim : DiffusionSimulator α) :
    DiffusionSimulator α :=
  { sim with rigidBodies := sim.rigidBodies.map (integrateBody fw timeStep) }

/-- The method `DiffusionSimulator::simulateTimestep_RB`. -/
def simulateTimestep_RB (fw : Framework α) (timeStep : α) (sim : DiffusionSimulator α) :
    Option (DiffusionSimulator α) :=
  (handleCollisions fw sim).map (integrateBodies fw timeStep)

/-- The method `DiffusionSimulator::simulateTimestep`. -/
def simulateTimestep (fw : Framework α) (timeStep : α) (sim : DiffusionSimulator α) :
    Option (DiffusionSimulator α) :=
  (simulateTimestep_PDE timeStep sim).bind (simulateTimestep_RB fw timeStep)

end

section
variable {α : Type} [LinearOrderedField α]

/-- The sum of a list of vectors. -/
def vecSum : List (Vec3 α) → Vec3 α
  | [] => 0
  | v :: vs => v + vecSum vs

/-- A unit-mass cube of side 1 at the origin, at rest but for the angular velocity `w`,
with the identity orientation `(0, 0, 0, 1)`. -/
def spinningBody (w : Vec3 α) : RigidBody α :=
  { RigidBody.new (0 : Vec3 α) ⟨0, 0, 0, 1⟩ ⟨1, 1, 1⟩ 1 with angularVelocity_w := w }

end

section
variable {α : Type} [LinearOrderedField α] [FloorRing α]

/-- The timestep in the order of the phases that the specification gives: collision
detection and resolution, then rigid-body integration, then the PDE step. -/
def phasesCollideIntegratePde (fw : Framework α) (timeStep : α) (sim : DiffusionSimulator α) :
    Option (DiffusionSimulator α) :=
  ((handleCollisions fw sim).map (integrateBodies fw timeStep)).bind
    (simulateTimestep_PDE timeStep)

/-- The timestep as the sequence of phases: the PDE step, then collision detection and
resolution, then rigid-body integration. -/
def phasesPdeCollideIntegrate (fw : Framework α) (timeStep : α) (sim : DiffusionSimulator α) :
    Option (DiffusionSimulator α) :=
  (simulateTimestep_PDE timeStep sim).bind (fun afterPde =>
    (handleCollisions fw afterPde).map (integrateBodies fw timeStep))

/-- Whether the SAT test of the body `rb` against the pixel `gp` reports overlap. -/
def waterHit (fw : Framework α) (rb : RigidBody α) (gp : GridPixel α) : Bool :=
  (fw.checkCollisionSAT (rb.getObject2WorldMatrix fw) gp.getObject2WorldMatrix).isValid

/-- Whether a body is collected for removal by the third loop of `handleCollisions`. -/
def markedForRemoval (rb : RigidBody α) : Bool :=
  decide (rb.gridHit = true ∧ rb.position_x.y + rb.size.y * (1 / 2) < WATER_ZERO_HEIGHT)

/-- The indices, counted from `offset`, of the bodies of a list that are collected for
removal, in increasing order. -/
def markedIndices : List (RigidBody α) → Int → List Int
  | [], _ => []
  | rb :: rest, offset =>
    (if markedForRemoval rb then [offset] else []) ++ markedIndices rest (offset + 1)

/-- An example scene: a 3 x 3 grid at rest with its nine pixels and one body above the
centre cell that falls with speed 1. -/
def splashScene : DiffusionSimulator ℚ :=
  { rigidBodies := [exampleBody ⟨0, 0, 0⟩ ⟨0, -1, 0⟩]
    T := ⟨3, 3, List.replicate 9 0⟩
    T_t_minus_one := ⟨3, 3, List.replicate 9 0⟩
    spatial_convolution_window := ⟨3, 3, window⟩
    pixels := [examplePixel 0 0, examplePixel 0 1, examplePixel 0 2, examplePixel 1 0,
      examplePixel 1 1, examplePixel 1 2, examplePixel 2 0, examplePixel 2 1,
      examplePixel 2 2]
    grid_minX := -1
    grid_maxX := 1
    grid_minZ := -1
    grid_maxZ := 1 }

end

section

/-- The example scene with both bodies already flagged grid-hit. -/
def flaggedScene : DiffusionSimulator ℚ :=
  { exampleScene with
    rigidBodies := exampleScene.rigidBodies.map (fun b => { b with gridHit := true }) }

end

/-! ## Setup of the pixels -/

section
variable {α : Type} [LinearOrderedField α]

/-- The method `Grid::getValueInterval`. The unchecked `matrix[0]` has no value on an empty
matrix: the embedding returns `none` there. -/
def Grid.getValueInterval (g : Grid α) : Option (α × α) := do
  let first ← g.matrix[0]?
  pure (g.matrix.foldl (fun (mm : α × α) (value : α) =>
    let min := if value < mm.1 then value else mm.1
    let max := if value > mm.2 then value else mm.2
    (min, max)) (first, first))

/-- The constructor `GridPixel(grid, x, y, normInterval)`: it stores the coordinates and
calls `update`, which assigns the position and the matrix without reading their old
values. The member `normInterval`, which no code reads, is left out. -/
def GridPixel.new (grid : Grid α) (x y : Int) : Option (GridPixel α) :=
  GridPixel.update grid ⟨x, y, 0, 0⟩

/-- The function `GridPixel::initPixelsFromGrid`. -/
def GridPixel.initPixelsFromGrid (grid : Grid α) : Option (List (GridPixel α)) := do
  let normInterval ← grid.getValueInterval
  forLoop 0 grid.rows (fun i pixels =>
    forLoop 0 grid.cols (fun j pixels => do
      let gp ← GridPixel.new grid i j
      pure (pixels ++ [gp])) pixels) []

/-- The method `DiffusionSimulator::initGridIntervals`. -/
def initGridIntervals (sim : DiffusionSimulator α) : Option (DiffusionSimulator α) := do
  let first ← vecAt sim.pixels 0
  let last ← vecAt sim.pixels ((sim.pixels.length : Int) - 1)
  pure { sim with
    grid_minX := first.pos.x
    grid_maxX := last.pos.x
    grid_minZ := first.pos.z
    grid_maxZ := last.pos.z }

/-- The method `DiffusionSimulator::initSetup_PDE`, for a grid of `dim x dim` cells (the
code passes `GRID_DIM`). -/
def initSetup_PDE (dim : Int) (sim : DiffusionSimulator α) : Option (DiffusionSimulator α) := do
  let T ← (Grid.mk2 dim dim : Option (Grid α))
  let T ← forLoop 0 T.rows (fun i T => forLoop 0 T.cols (fun j T => T.set i j 0) T) T
  let pixels ← GridPixel.initPixelsFromGrid T
  let sim ← initGridIntervals { sim with T := T, pixels := pixels }
  let prev ← (Grid.mk2 dim dim : Option (Grid α))
  pure { sim with T_t_minus_one := prev }

end

section

/-- An example scene: the scene `splashScene` after the setup of the grid of
`GRID_DIM x GRID_DIM` cells. -/
def setupScene : DiffusionSimulator ℚ :=
  (initSetup_PDE GRID_DIM splashScene).getD splashScene

end

/-! # Theorems -/

/-! ## Loops -/

theorem loopM_inv {σ : Type} (f : Nat → σ → Option σ) (P : Nat → σ → Prop) (n : Nat) (s : σ)
    (h0 : P 0 s)
    (hstep : ∀ k, k < n → ∀ t, P k t → ∃ t', f k t = some t' ∧ P (k + 1) t') :
    ∃ t, loopM f n s = some t ∧ P n t := by
  induction n with
  | zero => exact ⟨s, rfl, h0⟩
  | succ m ih =>
    obtain ⟨t, ht, hP⟩ := ih (fun k hk => hstep k (Nat.lt_succ_of_lt hk))
    obtain ⟨t', ht', hP'⟩ := hstep m (Nat.lt_succ_self m) t hP
    exact ⟨t', by simp [loopM, ht, ht'], hP'⟩

theorem forLoop_inv {σ : Type} (lo hi : Int) (body : Int → σ → Option σ)
    (P : Int → σ → Prop) (s : σ) (h0 : P lo s)
    (hstep : ∀ i, lo ≤ i → i < hi → ∀ t, P i t → ∃ t', body i t = some t' ∧ P (i + 1) t') :
    ∃ t, forLoop lo hi body s = some t ∧ P (lo + ((hi - lo).toNat : Int)) t := by
  unfold forLoop
  refine loopM_inv (fun k => body (lo + (k : Int))) (fun k t => P (lo + (k : Int)) t)
    (hi - lo).toNat s (by simpa using h0) ?_
  intro k hk t ht
  obtain ⟨t', h1, h2⟩ := hstep (lo + (k : Int)) (by omega) (by omega) t ht
  refine ⟨t', h1, ?_⟩
  have e : lo + ((k + 1 : Nat) : Int) = lo + (k : Int) + 1 := by push_cast; ring
  show P (lo + ((k + 1 : Nat) : Int)) t'
  rw [e]; exact h2

/-- Two nested `for` loops over the rectangle `[lo1, hi1) x [lo2, hi2)`: an invariant
`P D s` ("the cells of `D` are done") that every cell of the rectangle extends holds for
the whole rectangle at the end, and the loops do not fail. -/
theorem forLoop2_inv {σ : Type} (lo1 hi1 lo2 hi2 : Int) (body : Int → Int → σ → Option σ)
    (inner : Int → σ → Option σ)
    (P : Set (Int × Int) → σ → Prop) (s : σ) (h0 : P ∅ s)
    (hinner : ∀ i (D : Set (Int × Int)) t, P D t →
      inner i t = forLoop lo2 hi2 (fun j t => body i j t) t)
    (hstep : ∀ i j, lo1 ≤ i → i < hi1 → lo2 ≤ j → j < hi2 → ∀ (D : Set (Int × Int)) t,
      (i, j) ∉ D → P D t → ∃ t', body i j t = some t' ∧ P (insert (i, j) D) t') :
    ∃ t, forLoop lo1 hi1 inner s = some t ∧
      P {p | lo1 ≤ p.1 ∧ p.1 < hi1 ∧ lo2 ≤ p.2 ∧ p.2 < hi2} t := by
  have key := forLoop_inv lo1 hi1 inner
    (fun i t => P {p | lo1 ≤ p.1 ∧ p.1 < i ∧ lo2 ≤ p.2 ∧ p.2 < hi2} t) s
    (by
      have e : {p : Int × Int | lo1 ≤ p.1 ∧ p.1 < lo1 ∧ lo2 ≤ p.2 ∧ p.2 < hi2} = ∅ := by
        ext p; simp only [Set.mem_setOf_eq, Set.mem_empty_iff_false, iff_false]; omega
      simpa [e] using h0)
    (by
      intro i hi1' hi2' t ht
      have hin := forLoop_inv lo2 hi2 (fun j t => body i j t)
        (fun j t => P {p | (lo1 ≤ p.1 ∧ p.1 < i ∧ lo2 ≤ p.2 ∧ p.2 < hi2) ∨
          (p.1 = i ∧ lo2 ≤ p.2 ∧ p.2 < j)} t) t
        (by
          have e : {p : Int × Int | (lo1 ≤ p.1 ∧ p.1 < i ∧ lo2 ≤ p.2 ∧ p.2 < hi2) ∨
              (p.1 = i ∧ lo2 ≤ p.2 ∧ p.2 < lo2)} =
              {p | lo1 ≤ p.1 ∧ p.1 < i ∧ lo2 ≤ p.2 ∧ p.2 < hi2} := by
            ext p; simp only [Set.mem_setOf_eq]; omega
          simpa [e] using ht)
        (by
          intro j hj1 hj2 u hu
          obtain ⟨u', h1, h2⟩ := hstep i j hi1' hi2' hj1 hj2 _ u
            (by simp only [Set.mem_setOf_eq]; omega) hu
          refine ⟨u', h1, ?_⟩
          have e : insert (i, j) {p : Int × Int |
              (lo1 ≤ p.1 ∧ p.1 < i ∧ lo2 ≤ p.2 ∧ p.2 < hi2) ∨
              (p.1 = i ∧ lo2 ≤ p.2 ∧ p.2 < j)} =
              {p | (lo1 ≤ p.1 ∧ p.1 < i ∧ lo2 ≤ p.2 ∧ p.2 < hi2) ∨
                (p.1 = i ∧ lo2 ≤ p.2 ∧ p.2 < j + 1)} := by
            ext p
            obtain ⟨a, b⟩ := p
            simp only [Set.mem_insert_iff, Set.mem_setOf_eq, Prod.mk.injEq]
            omega
          rw [e] at h2; exact h2)
      obtain ⟨u, h1, h2⟩ := hin
      refine ⟨u, by rw [hinner i _ t ht]; exact h1, ?_⟩
      have e : {p : Int × Int | (lo1 ≤ p.1 ∧ p.1 < i ∧ lo2 ≤ p.2 ∧ p.2 < hi2) ∨
          (p.1 = i ∧ lo2 ≤ p.2 ∧ p.2 < lo2 + ((hi2 - lo2).toNat : Int))} =
          {p | lo1 ≤ p.1 ∧ p.1 < i + 1 ∧ lo2 ≤ p.2 ∧ p.2 < hi2} := by
        ext p; simp only [Set.mem_setOf_eq]; omega
      rw [e] at h2; exact h2)
  obtain ⟨t, h1, h2⟩ := key
  refine ⟨t, h1, ?_⟩
  have e : {p : Int × Int | lo1 ≤ p.1 ∧ p.1 < lo1 + ((hi1 - lo1).toNat : Int) ∧
      lo2 ≤ p.2 ∧ p.2 < hi2} = {p | lo1 ≤ p.1 ∧ p.1 < hi1 ∧ lo2 ≤ p.2 ∧ p.2 < hi2} := by
    ext p; simp only [Set.mem_setOf_eq]; omega
  rw [e] at h2; exact h2

/-! ## Grid cells -/

theorem index_bounds {i j R C : Int} (hi : 0 ≤ i) (hiR : i < R) (hj : 0 ≤ j) (hjC : j < C) :
    0 ≤ index i j C ∧ index i j C < R * C := by
  unfold index
  have hC : 0 ≤ C := by omega
  have h1 : 0 ≤ i * C := mul_nonneg hi hC
  have h2 : (i + 1) * C ≤ R * C := mul_le_mul_of_nonneg_right (by omega) hC
  constructor
  · omega
  · nlinarith

theorem index_inj {i j i' j' C : Int} (hj : 0 ≤ j) (hjC : j < C) (hj' : 0 ≤ j')
    (hjC' : j' < C) (h : index i j C = index i' j' C) : i = i' ∧ j = j' := by
  unfold index at h
  have hC : 0 < C := by omega
  have hi : i = i' := by
    rcases lt_trichotomy i i' with h1 | h1 | h1
    · exfalso
      have : (i + 1) * C ≤ i' * C := mul_le_mul_of_nonneg_right (by omega) hC.le
      nlinarith
    · exact h1
    · exfalso
      have : (i' + 1) * C ≤ i * C := mul_le_mul_of_nonneg_right (by omega) hC.le
      nlinarith
  subst hi
  exact ⟨rfl, by omega⟩

section
variable {α : Type} [LinearOrderedField α]

theorem Grid.get_eq_val {g : Grid α} {R C i j : Int} (hg : g.Shape R C)
    (hi : 0 ≤ i) (hiR : i < R) (hj : 0 ≤ j) (hjC : j < C) :
    g.get i j = some (g.val i j) := by
  obtain ⟨hr, hc, hR, hC, hlen⟩ := hg
  have hb := index_bounds hi hiR hj hjC
  have hlt : (index i j C).toNat < g.matrix.length := by omega
  simp [Grid.val, Grid.get, vecAt, hc, hb.1, List.getElem?_eq_getElem hlt]

theorem Grid.val_of_get {g : Grid α} {i j : Int} {v : α} (h : g.get i j = some v) :
    g.val i j = v := by
  simp [Grid.val, h]

theorem Grid.set_spec {g : Grid α} {R C i j : Int} (v : α) (hg : g.Shape R C)
    (hi : 0 ≤ i) (hiR : i < R) (hj : 0 ≤ j) (hjC : j < C) :
    ∃ g', g.set i j v = some g' ∧ g'.Shape R C ∧ g'.get i j = some v ∧
      ∀ i' j', 0 ≤ j' → j' < C → (i', j') ≠ (i, j) → g'.get i' j' = g.get i' j' := by
  obtain ⟨hr, hc, hR, hC, hlen⟩ := hg
  have hb := index_bounds hi hiR hj hjC
  have hlt : (index i j C).toNat < g.matrix.length := by omega
  refine ⟨{ g with matrix := g.matrix.set (index i j C).toNat v }, ?_, ?_, ?_, ?_⟩
  · simp [Grid.set, vecSet, hc, hb.1, hlt]
  · exact ⟨hr, hc, hR, hC, by simpa using hlen⟩
  · simp [Grid.get, vecAt, hc, hb.1, hlt]
  · intro i' j' hj' hjC' hne
    simp only [Grid.get, vecAt, hc]
    by_cases h0 : 0 ≤ index i' j' C
    · simp only [h0, if_true]
      apply List.getElem?_set_ne
      intro heq
      have : index i j C = index i' j' C := by omega
      obtain ⟨e1, e2⟩ := index_inj hj hjC hj' hjC' this
      exact hne (by rw [e1, e2])
    · simp [h0]

theorem Grid.mk2_spec {R C : Int} (hR : 0 ≤ R) (hC : 0 ≤ C) :
    ∃ g : Grid α, Grid.mk2 R C = some g ∧ g.Shape R C ∧
      ∀ i j, 0 ≤ i → i < R → 0 ≤ j → j < C → g.get i j = some 0 := by
  have hRC : 0 ≤ R * C := mul_nonneg hR hC
  refine ⟨⟨R, C, List.replicate (R * C).toNat 0⟩, by simp [Grid.mk2, hRC], ?_, ?_⟩
  · exact ⟨rfl, rfl, hR, hC, by simp [hRC]⟩
  · intro i j hi hiR hj hjC
    have hb := index_bounds hi hiR hj hjC
    have hlt : (index i j C).toNat < (R * C).toNat := by omega
    simp [Grid.get, vecAt, hb.1, List.getElem?_replicate, hlt]

end

/-! ## Filling a grid cell by cell -/

section
variable {α : Type} [LinearOrderedField α]

/-- Two nested loops that `set` every cell `(i, j)` of a rectangle to `G i j` do not fail,
keep the shape, leave `G` in the rectangle and keep every other cell. -/
theorem Grid.fill_spec (g0 : Grid α) (R C lo1 hi1 lo2 hi2 : Int)
    (body : Int → Int → Grid α → Option (Grid α)) (inner : Int → Grid α → Option (Grid α))
    (G : Int → Int → α)
    (hg0 : g0.Shape R C) (h1 : 0 ≤ lo1) (h2 : hi1 ≤ R) (h3 : 0 ≤ lo2) (h4 : hi2 ≤ C)
    (hinner : ∀ i (g : Grid α), g.Shape R C →
      inner i g = forLoop lo2 hi2 (fun j t => body i j t) g)
    (hbody : ∀ i j, lo1 ≤ i → i < hi1 → lo2 ≤ j → j < hi2 → ∀ g : Grid α, g.Shape R C →
      body i j g = g.set i j (G i j)) :
    ∃ g, forLoop lo1 hi1 inner g0 = some g ∧
      g.Shape R C ∧
      (∀ i j, lo1 ≤ i → i < hi1 → lo2 ≤ j → j < hi2 → g.get i j = some (G i j)) ∧
      (∀ i j, 0 ≤ j → j < C → ¬ (lo1 ≤ i ∧ i < hi1 ∧ lo2 ≤ j ∧ j < hi2) →
        g.get i j = g0.get i j) := by
  have key := forLoop2_inv lo1 hi1 lo2 hi2 body inner
    (fun D g => g.Shape R C ∧
      (∀ i j, 0 ≤ j → j < C → (i, j) ∈ D → g.get i j = some (G i j)) ∧
      (∀ i j, 0 ≤ j → j < C → (i, j) ∉ D → g.get i j = g0.get i j)) g0
    ⟨hg0, by simp, by simp⟩
    (fun i _ g hP => hinner i g hP.1)
    (by
      intro i j hi1' hi2' hj1 hj2 D g hD ⟨hs, hin, hout⟩
      obtain ⟨g', e1, e2, e3, e4⟩ := Grid.set_spec (R := R) (C := C) (i := i) (j := j) (G i j) hs
        (by omega) (by omega) (by omega) (by omega)
      refine ⟨g', by rw [hbody i j hi1' hi2' hj1 hj2 g hs, e1], e2, ?_, ?_⟩
      · intro i' j' hj' hjC' hmem
        by_cases hEq : (i', j') = (i, j)
        · obtain ⟨ea, eb⟩ := Prod.mk.inj hEq
          rw [ea, eb]; exact e3
        · rw [e4 i' j' hj' hjC' hEq]
          rcases hmem with hmem | hmem
          · exact absurd hmem hEq
          · exact hin i' j' hj' hjC' hmem
      · intro i' j' hj' hjC' hmem
        have hne : (i', j') ≠ (i, j) := fun h => hmem (Or.inl h)
        rw [e4 i' j' hj' hjC' hne]
        exact hout i' j' hj' hjC' (fun h => hmem (Or.inr h)))
  obtain ⟨g, e, hs, hin, hout⟩ := key
  refine ⟨g, e, hs, ?_, ?_⟩
  · intro i j a b c d
    exact hin i j (by omega) (by omega) ⟨a, b, c, d⟩
  · intro i j a b hn
    exact hout i j a b hn

theorem Grid.smul_spec {g : Grid α} {R C : Int} (scalar : α) (hg : g.Shape R C) :
    ∃ r, g.smul scalar = some r ∧ r.Shape R C ∧
      ∀ i j, 0 ≤ i → i < R → 0 ≤ j → j < C → r.get i j = some (g.val i j * scalar) := by
  obtain ⟨hr, hc, hR, hC, hlen⟩ := hg
  have hg : g.Shape R C := ⟨hr, hc, hR, hC, hlen⟩
  obtain ⟨r0, e0, hs0, -⟩ := Grid.mk2_spec (α := α) hR hC
  obtain ⟨r, e, hs, hin, -⟩ := Grid.fill_spec r0 R C 0 R 0 C
    (fun i j result => (g.get i j).bind (fun x => result.set i j (x * scalar)))
    (fun i result => forLoop 0 g.cols (fun j result =>
      (g.get i j).bind (fun x => result.set i j (x * scalar))) result)
    (fun i j => g.val i j * scalar) hs0 le_rfl le_rfl le_rfl le_rfl
    (by intro i r _; rw [hc])
    (by
      intro i j a b c d r _
      simp [Grid.get_eq_val hg a b c d])
  refine ⟨r, ?_, hs, hin⟩
  simp only [Grid.smul, hr, hc, e0, Option.bind_eq_bind, Option.some_bind]
  simp only [hc] at e
  exact e

theorem loopM_sum (t : Nat → α) (f : Nat → α → Option α) (n : Nat) (v0 : α)
    (hf : ∀ k, k < n → ∀ v, f k v = some (v + t k)) :
    loopM f n v0 = some (v0 + ∑ k in Finset.range n, t k) := by
  induction n with
  | zero => simp [loopM]
  | succ m ih =>
    rw [loopM, ih (fun k hk => hf k (Nat.lt_succ_of_lt hk)), Option.some_bind,
      hf m (Nat.lt_succ_self m), Finset.sum_range_succ, add_assoc]

theorem Grid.convolution_spec {g window : Grid α} {R C kr kc : Int} (hg : g.Shape R C)
    (hw : window.Shape kr kc) (hkr : kr ≤ R) (hkc : kc ≤ C) :
    ∃ out, g.convolution window = some out ∧ out.Shape (R - kr + 1) (C - kc + 1) ∧
      ∀ i j, 0 ≤ i → i < R - kr + 1 → 0 ≤ j → j < C - kc + 1 →
        out.get i j = some (convSum g window i j) := by
  obtain ⟨hr, hc, hR, hC, hlen⟩ := hg
  have hg : g.Shape R C := ⟨hr, hc, hR, hC, hlen⟩
  obtain ⟨wr, wc, hkr0, hkc0, wlen⟩ := hw
  have hw : window.Shape kr kc := ⟨wr, wc, hkr0, hkc0, wlen⟩
  obtain ⟨o0, e0, hs0, -⟩ := Grid.mk2_spec (α := α) (R := R - kr + 1) (C := C - kc + 1)
    (by omega) (by omega)
  have inner : ∀ i j, 0 ≤ i → i < R - kr + 1 → 0 ≤ j → j < C - kc + 1 →
      forLoop 0 window.rows (fun w_i value =>
        forLoop 0 window.cols (fun w_j value =>
          (window.get w_i w_j).bind (fun a =>
            (g.get (i + w_i) (j + w_j)).bind (fun b => some (value + a * b)))) value) (0 : α)
      = some (convSum g window i j) := by
    intro i j hi hiR hj hjC
    unfold forLoop convSum
    simp only [sub_zero, zero_add]
    rw [loopM_sum (fun a => ∑ b in Finset.range window.cols.toNat,
      window.val a b * g.val (i + a) (j + b)), zero_add]
    intro a ha v
    apply loopM_sum (fun b => window.val a b * g.val (i + a) (j + b))
    intro b hb v'
    rw [Grid.get_eq_val hw (by omega) (by omega) (by omega) (by omega),
      Grid.get_eq_val hg (by omega) (by omega) (by omega) (by omega)]
    rfl
  obtain ⟨out, e, hs, hin, -⟩ := Grid.fill_spec o0 (R - kr + 1) (C - kc + 1)
    0 (R - kr + 1) 0 (C - kc + 1)
    (fun out_i out_j out =>
      (forLoop 0 window.rows (fun w_i value =>
        forLoop 0 window.cols (fun w_j value =>
          (window.get w_i w_j).bind (fun a =>
            (g.get (out_i + w_i) (out_j + w_j)).bind (fun b => some (value + a * b)))) value)
        (0 : α)).bind (fun value => out.set out_i out_j value))
    (fun out_i out => forLoop 0 out.cols (fun out_j out =>
      (forLoop 0 window.rows (fun w_i value =>
        forLoop 0 window.cols (fun w_j value =>
          (window.get w_i w_j).bind (fun a =>
            (g.get (out_i + w_i) (out_j + w_j)).bind (fun b => some (value + a * b)))) value)
        (0 : α)).bind (fun value => out.set out_i out_j value)) out)
    (fun i j => convSum g window i j) hs0 le_rfl le_rfl le_rfl le_rfl
    (by intro i r hr; dsimp only; rw [hr.2.1])
    (by
      intro i j a b c d r _
      dsimp only
      rw [inner i j a b c d]; rfl)
  refine ⟨out, ?_, hs, hin⟩
  simp only [Grid.convolution, hr, hc, wr, wc, e0, Option.bind_eq_bind, Option.some_bind,
    hs0.1, Option.pure_def]
  simp only [wr, wc] at e
  exact e

end

/-! ## Convolution -/

section
variable {α : Type} [LinearOrderedField α]

/-- C1: for an `R x C` grid and a `kr x kc` kernel with `kr ≤ R` and `kc ≤ C`,
`Grid::convolution` returns a grid with `R - kr + 1` rows and `C - kc + 1` columns (one
value per cell), whose cell `(i, j)` is the sum over `a < kr`, `b < kc` of
`kernel(a, b) * grid(i + a, j + b)`: valid mode, no padding, kernel not flipped. -/
theorem convolution_valid_mode (g kernel : Grid α) (R C kr kc : ℕ)
    (hg : g.Shape R C) (hk : kernel.Shape kr kc) (hkr : kr ≤ R) (hkc : kc ≤ C) :
    ∃ out, g.convolution kernel = some out ∧
      out.rows = (R : Int) - kr + 1 ∧ out.cols = (C : Int) - kc + 1 ∧
      (out.matrix.length : Int) = ((R : Int) - kr + 1) * ((C : Int) - kc + 1) ∧
      ∀ i j : ℕ, (i : Int) < (R : Int) - kr + 1 → (j : Int) < (C : Int) - kc + 1 →
        out.get i j = some (∑ a in Finset.range kr, ∑ b in Finset.range kc,
          kernel.val a b * g.val ((i : Int) + a) ((j : Int) + b)) := by
  obtain ⟨out, e, hs, hcell⟩ := Grid.convolution_spec hg hk
    (by exact_mod_cast hkr) (by exact_mod_cast hkc)
  refine ⟨out, e, hs.1, hs.2.1, hs.2.2.2.2, ?_⟩
  intro i j hi hj
  rw [hcell i j (by omega) hi (by omega) hj]
  simp [convSum, hk.1, hk.2.1]

theorem convolution_valid_mode_witness :
    exampleGrid.Shape (3 : ℕ) (4 : ℕ) ∧ exampleKernel.Shape (2 : ℕ) (2 : ℕ) ∧
    ∃ out, exampleGrid.convolution exampleKernel = some out ∧
      out.rows = ((3 : ℕ) : Int) - (2 : ℕ) + 1 ∧ out.cols = ((4 : ℕ) : Int) - (2 : ℕ) + 1 ∧
      (out.matrix.length : Int) =
        (((3 : ℕ) : Int) - (2 : ℕ) + 1) * (((4 : ℕ) : Int) - (2 : ℕ) + 1) ∧
      ∀ i j : ℕ, (i : Int) < ((3 : ℕ) : Int) - (2 : ℕ) + 1 →
        (j : Int) < ((4 : ℕ) : Int) - (2 : ℕ) + 1 →
        out.get i j = some (∑ a in Finset.range 2, ∑ b in Finset.range 2,
          exampleKernel.val a b * exampleGrid.val ((i : Int) + a) ((j : Int) + b)) :=
  ⟨by decide, by decide,
    convolution_valid_mode exampleGrid exampleKernel 3 4 2 2 (by decide) (by decide)
      (by decide) (by decide)⟩

end

/-! ## The explicit diffusion step -/

section
variable {α : Type} [LinearOrderedField α]

/-- The constructor builds the stencil grid from the array `window`. -/
theorem mk3_window : Grid.mk3 3 3 (window : List α) = some ⟨3, 3, window⟩ := by
  rfl

theorem convSum_window (g : Grid α) (i j : Int) :
    convSum g (⟨3, 3, window⟩ : Grid α) i j =
      g.val i (j + 1) + g.val (i + 1) j + g.val (i + 1) (j + 2) + g.val (i + 2) (j + 1)
        - 4 * g.val (i + 1) (j + 1) := by
  have e : ∀ a b : Int, (⟨3, 3, window⟩ : Grid α).val a b =
      ((vecAt (window : List α) (a * 3 + b)).getD 0) := fun a b => rfl
  have h3 : ((3 : Int)).toNat = 2 + 1 := rfl
  simp only [convSum, h3, Finset.sum_range_succ, Finset.sum_range_zero, e]
  simp [vecAt, window]
  ring

theorem window_shape : (⟨3, 3, window⟩ : Grid α).Shape 3 3 :=
  ⟨rfl, rfl, by norm_num, by norm_num, by simp [window]⟩

/-- One explicit step on two `R x C` fields (`3 ≤ R`, `3 ≤ C`) with the stencil of the
constructor: it does not fail, keeps the shapes and everything but the two fields, writes
`waveUpdate` and the old current value to every interior cell, and keeps the rest. -/
theorem diffuse_spec (dt : α) (sim : DiffusionSimulator α) (R C : Int)
    (hT : sim.T.Shape R C) (hP : sim.T_t_minus_one.Shape R C) (hR : 3 ≤ R) (hC : 3 ≤ C)
    (hw : sim.spatial_convolution_window = ⟨3, 3, window⟩) :
    ∃ sim', diffuseTemperatureExplicit dt sim = some sim' ∧
      sim' = { sim with T := sim'.T, T_t_minus_one := sim'.T_t_minus_one } ∧
      sim'.T.Shape R C ∧ sim'.T_t_minus_one.Shape R C ∧
      (∀ i j, 1 ≤ i → i < R - 1 → 1 ≤ j → j < C - 1 →
        sim'.T.get i j = some (waveUpdate dt sim.T sim.T_t_minus_one i j) ∧
        sim'.T_t_minus_one.get i j = some (sim.T.val i j)) ∧
      (∀ i j, 0 ≤ j → j < C → ¬ (1 ≤ i ∧ i < R - 1 ∧ 1 ≤ j ∧ j < C - 1) →
        sim'.T.get i j = sim.T.get i j ∧
        sim'.T_t_minus_one.get i j = sim.T_t_minus_one.get i j) := by
  obtain ⟨conv, econv, hconv, vconv⟩ := Grid.convolution_spec hT (window_shape (α := α))
    (by omega) (by omega)
  obtain ⟨laplace, elap, hlap, vlap⟩ :=
    Grid.smul_spec (1 / (SPATIAL_DELTA * SPATIAL_DELTA) : α) hconv
  have hnew : ∀ i j, 1 ≤ i → i < R - 1 → 1 ≤ j → j < C - 1 →
      (WAVE_SPEED * WAVE_SPEED * dt * dt * laplace.val (i - 1) (j - 1) + 2 * sim.T.val i j
        - sim.T_t_minus_one.val i j) * DAMPING = waveUpdate dt sim.T sim.T_t_minus_one i j := by
    intro i j h1 h2 h3 h4
    have e1 := vlap (i - 1) (j - 1) (by omega) (by omega) (by omega) (by omega)
    have e2 := vconv (i - 1) (j - 1) (by omega) (by omega) (by omega) (by omega)
    rw [Grid.val_of_get e1, Grid.val_of_get e2, convSum_window]
    have a1 : i - 1 + 1 = i := by ring
    have a2 : i - 1 + 2 = i + 1 := by ring
    have a3 : j - 1 + 1 = j := by ring
    have a4 : j - 1 + 2 = j + 1 := by ring
    rw [a1, a2, a3, a4]
    simp only [waveUpdate, WAVE_SPEED, SPATIAL_DELTA, DAMPING]
    ring
  have key := forLoop2_inv 1 (R - 1) 1 (C - 1) (diffuseCell dt laplace)
    (fun i s => forLoop 1 (s.T.cols - 1) (fun j s => diffuseCell dt laplace i j s) s)
    (fun D s => s = { sim with T := s.T, T_t_minus_one := s.T_t_minus_one } ∧
      s.T.Shape R C ∧ s.T_t_minus_one.Shape R C ∧
      (∀ i j, 0 ≤ j → j < C → (i, j) ∈ D →
        s.T.get i j = some (waveUpdate dt sim.T sim.T_t_minus_one i j) ∧
        s.T_t_minus_one.get i j = some (sim.T.val i j)) ∧
      (∀ i j, 0 ≤ j → j < C → (i, j) ∉ D →
        s.T.get i j = sim.T.get i j ∧
        s.T_t_minus_one.get i j = sim.T_t_minus_one.get i j)) sim
    ⟨rfl, hT, hP, by simp, by simp⟩
    (by intro i D t ht; dsimp only; rw [ht.2.1.2.1])
    (by
      intro i j h1 h2 h3 h4 D t hD ⟨hfr, hsT, hsP, hin, hout⟩
      obtain ⟨oT, oP⟩ := hout i j (by omega) (by omega) hD
      have gl := Grid.get_eq_val hlap (i := i - 1) (j := j - 1) (by omega) (by omega)
        (by omega) (by omega)
      have gT := Grid.get_eq_val hT (i := i) (j := j) (by omega) (by omega) (by omega)
        (by omega)
      have gP := Grid.get_eq_val hP (i := i) (j := j) (by omega) (by omega) (by omega)
        (by omega)
      obtain ⟨prev, p1, p2, p3, p4⟩ := Grid.set_spec (R := R) (C := C) (i := i) (j := j)
        (sim.T.val i j) hsP (by omega) (by omega) (by omega) (by omega)
      obtain ⟨cur, c1, c2, c3, c4⟩ := Grid.set_spec (R := R) (C := C) (i := i) (j := j)
        (waveUpdate dt sim.T sim.T_t_minus_one i j) hsT (by omega) (by omega) (by omega)
        (by omega)
      refine ⟨{ t with T := cur, T_t_minus_one := prev }, ?_, ?_, c2, p2, ?_, ?_⟩
      · simp only [diffuseCell, gl, oT, oP, gT, gP, Option.bind_eq_bind, Option.some_bind,
          hnew i j h1 h2 h3 h4, p1, c1, Option.pure_def]
      · rw [hfr]
      · intro i' j' hj' hjC' hmem
        by_cases hEq : (i', j') = (i, j)
        · obtain ⟨ea, eb⟩ := Prod.mk.inj hEq
          rw [ea, eb]; exact ⟨c3, p3⟩
        · show cur.get i' j' = _ ∧ prev.get i' j' = _
          rw [c4 i' j' hj' hjC' hEq, p4 i' j' hj' hjC' hEq]
          rcases hmem with hmem | hmem
          · exact absurd hmem hEq
          · exact hin i' j' hj' hjC' hmem
      · intro i' j' hj' hjC' hmem
        have hne : (i', j') ≠ (i, j) := fun h => hmem (Or.inl h)
        show cur.get i' j' = _ ∧ prev.get i' j' = _
        rw [c4 i' j' hj' hjC' hne, p4 i' j' hj' hjC' hne]
        exact hout i' j' hj' hjC' (fun h => hmem (Or.inr h)))
  obtain ⟨sim', e, hfr, hsT, hsP, hin, hout⟩ := key
  refine ⟨sim', ?_, hfr, hsT, hsP, ?_, ?_⟩
  · simp only [diffuseTemperatureExplicit, hw, econv, elap, Option.bind_eq_bind,
      Option.some_bind, hT.1]
    exact e
  · intro i j a b c d
    exact hin i j (by omega) (by omega) ⟨a, b, c, d⟩
  · intro i j a b hn
    exact hout i j a b hn

theorem diffuseSteps_spec (dts : List α) (sim : DiffusionSimulator α) (R C : Int)
    (hT : sim.T.Shape R C) (hP : sim.T_t_minus_one.Shape R C) (hR : 3 ≤ R) (hC : 3 ≤ C)
    (hw : sim.spatial_convolution_window = ⟨3, 3, window⟩) :
    ∃ sim', diffuseSteps dts sim = some sim' ∧
      sim'.T.Shape R C ∧ sim'.T_t_minus_one.Shape R C ∧
      ∀ i j, 0 ≤ j → j < C → ¬ (1 ≤ i ∧ i < R - 1 ∧ 1 ≤ j ∧ j < C - 1) →
        sim'.T.get i j = sim.T.get i j ∧
        sim'.T_t_minus_one.get i j = sim.T_t_minus_one.get i j := by
  induction dts generalizing sim with
  | nil => exact ⟨sim, rfl, hT, hP, fun _ _ _ _ _ => ⟨rfl, rfl⟩⟩
  | cons dt dts ih =>
    obtain ⟨s1, e1, hfr, hT1, hP1, -, hout1⟩ := diffuse_spec dt sim R C hT hP hR hC hw
    have hw1 : s1.spatial_convolution_window = ⟨3, 3, window⟩ := by rw [hfr]; exact hw
    obtain ⟨s2, e2, hT2, hP2, hout2⟩ := ih s1 hT1 hP1 hw1
    refine ⟨s2, by simp [diffuseSteps, e1, e2], hT2, hP2, ?_⟩
    intro i j a b hn
    obtain ⟨x1, x2⟩ := hout1 i j a b hn
    obtain ⟨y1, y2⟩ := hout2 i j a b hn
    exact ⟨y1.trans x1, y2.trans x2⟩

/-- C2: on two same-shape fields with at least 3 rows and 3 columns, one
`diffuseTemperatureExplicit(dt)` returns, and every interior cell `(i, j)` then holds
`0.999 * (300^2 * dt^2 * (T(i-1,j) + T(i+1,j) + T(i,j-1) + T(i,j+1) - 4*T(i,j)) / 10^2
+ 2*T(i,j) - P(i,j))` in the current field and `T(i,j)` in the previous field, all values
on the right being those before the step. -/
theorem diffuse_interior_update (dt : α) (sim : DiffusionSimulator α) (R C : Int)
    (hT : sim.T.Shape R C) (hP : sim.T_t_minus_one.Shape R C) (hR : 3 ≤ R) (hC : 3 ≤ C)
    (hw : Grid.mk3 3 3 window = some sim.spatial_convolution_window) :
    ∃ sim', diffuseTemperatureExplicit dt sim = some sim' ∧
      ∀ i j, 0 < i → i < R - 1 → 0 < j → j < C - 1 →
        sim'.T.get i j = some (999 / 1000 * (300 ^ 2 * dt ^ 2 *
          (sim.T.val (i - 1) j + sim.T.val (i + 1) j + sim.T.val i (j - 1)
            + sim.T.val i (j + 1) - 4 * sim.T.val i j) / 10 ^ 2
          + 2 * sim.T.val i j - sim.T_t_minus_one.val i j)) ∧
        sim'.T_t_minus_one.get i j = some (sim.T.val i j) := by
  have hw' : sim.spatial_convolution_window = ⟨3, 3, window⟩ :=
    (Option.some.inj (mk3_window.symm.trans hw)).symm
  obtain ⟨sim', e, -, -, -, hin, -⟩ := diffuse_spec dt sim R C hT hP hR hC hw'
  exact ⟨sim', e, fun i j a b c d => hin i j (by omega) b (by omega) d⟩

theorem diffuse_interior_update_witness :
    sim5.T.Shape 5 5 ∧ sim5.T_t_minus_one.Shape 5 5 ∧
    Grid.mk3 3 3 window = some sim5.spatial_convolution_window ∧
    ∃ sim', diffuseTemperatureExplicit (1 / 60) sim5 = some sim' ∧
      ∀ i j, 0 < i → i < (5 : Int) - 1 → 0 < j → j < (5 : Int) - 1 →
        sim'.T.get i j = some (999 / 1000 * (300 ^ 2 * (1 / 60 : ℚ) ^ 2 *
          (sim5.T.val (i - 1) j + sim5.T.val (i + 1) j + sim5.T.val i (j - 1)
            + sim5.T.val i (j + 1) - 4 * sim5.T.val i j) / 10 ^ 2
          + 2 * sim5.T.val i j - sim5.T_t_minus_one.val i j)) ∧
        sim'.T_t_minus_one.get i j = some (sim5.T.val i j) :=
  ⟨by decide, by decide, mk3_window,
    diffuse_interior_update (1 / 60) sim5 5 5 (by decide) (by decide) (by decide)
      (by decide) mk3_window⟩

/-- C3: on two same-shape fields with at least 3 rows and 3 columns, running
`diffuseTemperatureExplicit` once per timestep of any finite list returns, and every
border cell (row 0, row `R - 1`, column 0 or column `C - 1`) of the current field and of
the previous field then holds the value it had before the first step. -/
theorem diffuse_border_fixed (dts : List α) (sim : DiffusionSimulator α) (R C : Int)
    (hT : sim.T.Shape R C) (hP : sim.T_t_minus_one.Shape R C) (hR : 3 ≤ R) (hC : 3 ≤ C)
    (hw : Grid.mk3 3 3 window = some sim.spatial_convolution_window) :
    ∃ sim', diffuseSteps dts sim = some sim' ∧
      ∀ i j, 0 ≤ i → i < R → 0 ≤ j → j < C →
        (i = 0 ∨ i = R - 1 ∨ j = 0 ∨ j = C - 1) →
        sim'.T.get i j = some (sim.T.val i j) ∧
        sim'.T_t_minus_one.get i j = some (sim.T_t_minus_one.val i j) := by
  have hw' : sim.spatial_convolution_window = ⟨3, 3, window⟩ :=
    (Option.some.inj (mk3_window.symm.trans hw)).symm
  obtain ⟨sim', e, -, -, hout⟩ := diffuseSteps_spec dts sim R C hT hP hR hC hw'
  refine ⟨sim', e, ?_⟩
  intro i j a b c d hb
  obtain ⟨x1, x2⟩ := hout i j c d (by omega)
  rw [x1, x2]
  exact ⟨Grid.get_eq_val hT a b c d, Grid.get_eq_val hP a b c d⟩

theorem diffuse_border_fixed_witness :
    sim5.T.Shape 5 5 ∧ sim5.T_t_minus_one.Shape 5 5 ∧
    Grid.mk3 3 3 window = some sim5.spatial_convolution_window ∧
    ∃ sim', diffuseSteps [1 / 60, 1 / 30, 1] sim5 = some sim' ∧
      ∀ i j, 0 ≤ i → i < (5 : Int) → 0 ≤ j → j < (5 : Int) →
        (i = 0 ∨ i = (5 : Int) - 1 ∨ j = 0 ∨ j = (5 : Int) - 1) →
        sim'.T.get i j = some (sim5.T.val i j) ∧
        sim'.T_t_minus_one.get i j = some (sim5.T_t_minus_one.val i j) :=
  ⟨by decide, by decide, mk3_window,
    diffuse_border_fixed [1 / 60, 1 / 30, 1] sim5 5 5 (by decide) (by decide) (by decide)
      (by decide) mk3_window⟩

/-- One step of the 5 x 5 scenario: the four direct neighbours of the centre receive
`0.999 * 25 = 999 / 40`. -/
theorem sim5_step :
    ∃ sim', diffuseTemperatureExplicit (1 / 60) sim5 = some sim' ∧
      sim'.T.get 1 2 = some (999 / 40) ∧ sim'.T.get 3 2 = some (999 / 40) ∧
      sim'.T.get 2 1 = some (999 / 40) ∧ sim'.T.get 2 3 = some (999 / 40) := by
  obtain ⟨sim', e, -, -, -, hin, -⟩ := diffuse_spec (1 / 60) sim5 5 5 (by decide) (by decide)
    (by decide) (by decide) rfl
  have hv : ∀ i j : Int, 0 ≤ i → i < 5 → 0 ≤ j → j < 5 →
      sim5.T.val i j = if i = 2 ∧ j = 2 then 100 else 0 := by
    intro i j h1 h2 h3 h4
    interval_cases i <;> interval_cases j <;> rfl
  have hp : ∀ i j : Int, 0 ≤ i → i < 5 → 0 ≤ j → j < 5 →
      sim5.T_t_minus_one.val i j = 0 := by
    intro i j h1 h2 h3 h4
    interval_cases i <;> interval_cases j <;> rfl
  refine ⟨sim', e, ?_, ?_, ?_, ?_⟩
  · rw [(hin 1 2 (by decide) (by decide) (by decide) (by decide)).1]
    norm_num [waveUpdate, hv, hp]
  · rw [(hin 3 2 (by decide) (by decide) (by decide) (by decide)).1]
    norm_num [waveUpdate, hv, hp]
  · rw [(hin 2 1 (by decide) (by decide) (by decide) (by decide)).1]
    norm_num [waveUpdate, hv, hp]
  · rw [(hin 2 3 (by decide) (by decide) (by decide) (by decide)).1]
    norm_num [waveUpdate, hv, hp]

/-- C4, as stated, fails: in the 5 x 5 scenario (centre 100, everything else 0, previous
field 0, `dt = 1/60`) one `diffuseTemperatureExplicit` returns and none of the four direct
neighbours of the centre is 0 afterwards. -/
theorem scenario5_neighbours_not_zero :
    ∃ sim', diffuseTemperatureExplicit (1 / 60) sim5 = some sim' ∧
      sim'.T.get 1 2 ≠ some 0 ∧ sim'.T.get 3 2 ≠ some 0 ∧
      sim'.T.get 2 1 ≠ some 0 ∧ sim'.T.get 2 3 ≠ some 0 := by
  obtain ⟨sim', e, h1, h2, h3, h4⟩ := sim5_step
  refine ⟨sim', e, ?_, ?_, ?_, ?_⟩ <;> simp [h1, h2, h3, h4]

/-- C4, amended: in the 5 x 5 scenario (centre 100, everything else 0, previous field 0,
speed 300, `dt = 1/60`, spatial delta 10, damping 0.999) one `diffuseTemperatureExplicit`
leaves each of the four direct neighbours `(1,2)`, `(3,2)`, `(2,1)`, `(2,3)` of the centre
equal to `0.999 * 25 = 24.975`. -/
theorem scenario5_neighbours :
    ∃ sim', diffuseTemperatureExplicit (1 / 60) sim5 = some sim' ∧
      sim'.T.get 1 2 = some (24975 / 1000) ∧ sim'.T.get 3 2 = some (24975 / 1000) ∧
      sim'.T.get 2 1 = some (24975 / 1000) ∧ sim'.T.get 2 3 = some (24975 / 1000) := by
  obtain ⟨s, e, h1, h2, h3, h4⟩ := sim5_step
  have q : (24975 / 1000 : ℚ) = 999 / 40 := by norm_num
  rw [q]
  exact ⟨s, e, h1, h2, h3, h4⟩

/-! ## Bounds checks of `get` and `set` -/

theorem vecAt_eq_none_iff {β : Type} (v : List β) (k : Int) :
    vecAt v k = none ↔ (k < 0 ∨ (v.length : Int) ≤ k) := by
  unfold vecAt
  by_cases h : 0 ≤ k
  · simp only [h, if_true, List.getElem?_eq_none_iff]; omega
  · simp only [h, if_false, true_iff]; omega

theorem vecSet_eq_none_iff {β : Type} (v : List β) (k : Int) (x : β) :
    vecSet v k x = none ↔ (k < 0 ∨ (v.length : Int) ≤ k) := by
  unfold vecSet
  by_cases h : 0 ≤ k ∧ k.toNat < v.length
  · simp only [h, and_self, if_true]
    constructor
    · intro h'; cases h'
    · omega
  · simp only [h, if_false, true_iff]; omega

/-- C5, as stated, fails: on the 3 x 4 example grid the column index 4 violates
`col < cols`, yet `get(0, 4)` returns the value 5 of the cell `(1, 0)` and `set(0, 4, 99)`
overwrites that cell; likewise the negative column of `get(1, -1)` returns the value 4 of
the cell `(0, 3)`. -/
theorem grid_access_column_aliases :
    exampleGrid.Shape 3 4 ∧ exampleGrid.get 1 0 = some 5 ∧ exampleGrid.get 0 3 = some 4 ∧
      exampleGrid.get 0 4 = some 5 ∧ exampleGrid.get 1 (-1) = some 4 ∧
      exampleGrid.set 0 4 99 = some ⟨3, 4, [1, 2, 3, 4, 99, 6, 7, 8, 9, 10, 11, 12]⟩ := by
  refine ⟨by decide, rfl, rfl, rfl, rfl, rfl⟩

/-- C5, amended: on a grid with `R x C` cells, `get(row, col)` and `set(row, col, v)` fail
exactly when the flat index `row * C + col` is outside `0 ≤ · < R * C`; so they fail for
every `row ≥ R` with `col ≥ 0` and for every `row < 0` with `col < C`. -/
theorem grid_access_flat_bounds (g : Grid α) (R C row col : Int) (v : α)
    (hg : g.Shape R C) :
    (g.get row col = none ↔ (row * C + col < 0 ∨ R * C ≤ row * C + col)) ∧
    (g.set row col v = none ↔ (row * C + col < 0 ∨ R * C ≤ row * C + col)) ∧
    ((R ≤ row ∧ 0 ≤ col) ∨ (row < 0 ∧ col < C) →
      g.get row col = none ∧ g.set row col v = none) := by
  obtain ⟨hr, hc, hR, hC, hlen⟩ := hg
  have h1 : g.get row col = none ↔ (row * C + col < 0 ∨ R * C ≤ row * C + col) := by
    rw [Grid.get, vecAt_eq_none_iff, hc, hlen]; rfl
  have h2 : g.set row col v = none ↔ (row * C + col < 0 ∨ R * C ≤ row * C + col) := by
    rw [Grid.set, Option.map_eq_none', vecSet_eq_none_iff, hc, hlen]; rfl
  refine ⟨h1, h2, ?_⟩
  intro h
  have h3 : row * C + col < 0 ∨ R * C ≤ row * C + col := by
    rcases h with ⟨a, b⟩ | ⟨a, b⟩
    · right
      have : R * C ≤ row * C := mul_le_mul_of_nonneg_right a hC
      omega
    · left
      have : (row + 1) * C ≤ 0 * C := mul_le_mul_of_nonneg_right (by omega) hC
      nlinarith
  exact ⟨h1.mpr h3, h2.mpr h3⟩

theorem grid_access_flat_bounds_witness :
    exampleGrid.Shape 3 4 ∧
    (exampleGrid.get 3 0 = none ↔ ((3 : Int) * 4 + 0 < 0 ∨ (3 : Int) * 4 ≤ 3 * 4 + 0)) ∧
    (exampleGrid.set 3 0 7 = none ↔ ((3 : Int) * 4 + 0 < 0 ∨ (3 : Int) * 4 ≤ 3 * 4 + 0)) ∧
    (((3 : Int) ≤ 3 ∧ (0 : Int) ≤ 0) ∨ ((3 : Int) < 0 ∧ (0 : Int) < 4) →
      exampleGrid.get 3 0 = none ∧ exampleGrid.set 3 0 7 = none) :=
  ⟨by decide, grid_access_flat_bounds exampleGrid 3 4 3 0 7 (by decide)⟩

end

/-! ## Collision response of two bodies -/

section
variable {α : Type} [LinearOrderedField α]

@[simp] theorem Vec3.add_x (a b : Vec3 α) : (a + b).x = a.x + b.x := rfl
@[simp] theorem Vec3.add_y (a b : Vec3 α) : (a + b).y = a.y + b.y := rfl
@[simp] theorem Vec3.add_z (a b : Vec3 α) : (a + b).z = a.z + b.z := rfl
@[simp] theorem Vec3.sub_x (a b : Vec3 α) : (a - b).x = a.x - b.x := rfl
@[simp] theorem Vec3.sub_y (a b : Vec3 α) : (a - b).y = a.y - b.y := rfl
@[simp] theorem Vec3.sub_z (a b : Vec3 α) : (a - b).z = a.z - b.z := rfl
@[simp] theorem Vec3.smul_x (k : α) (a : Vec3 α) : (k * a).x = k * a.x := rfl
@[simp] theorem Vec3.smul_y (k : α) (a : Vec3 α) : (k * a).y = k * a.y := rfl
@[simp] theorem Vec3.smul_z (k : α) (a : Vec3 α) : (k * a).z = k * a.z := rfl
@[simp] theorem Vec3.mul_x (a : Vec3 α) (k : α) : (a * k).x = a.x * k := rfl
@[simp] theorem Vec3.mul_y (a : Vec3 α) (k : α) : (a * k).y = a.y * k := rfl
@[simp] theorem Vec3.mul_z (a : Vec3 α) (k : α) : (a * k).z = a.z * k := rfl
@[simp] theorem Vec3.div_x (a : Vec3 α) (k : α) : (a / k).x = a.x / k := rfl
@[simp] theorem Vec3.div_y (a : Vec3 α) (k : α) : (a / k).y = a.y / k := rfl
@[simp] theorem Vec3.div_z (a : Vec3 α) (k : α) : (a / k).z = a.z / k := rfl

theorem handleOneCollision_invalid (fw : Framework α) (A B : RigidBody α)
    (h : (fw.checkCollisionSAT (A.getObject2WorldMatrix fw)
      (B.getObject2WorldMatrix fw)).isValid = false) :
    handleOneCollision fw A B = (A, B) := by
  simp [handleOneCollision, h]

theorem handleOneCollision_separating (fw : Framework α) (A B : RigidBody α) (n c : Vec3 α)
    (hsat : fw.checkCollisionSAT (A.getObject2WorldMatrix fw) (B.getObject2WorldMatrix fw)
      = ⟨true, c, n⟩)
    (hrel : dot (A.getTotalVelocityAtLocalPositiion (c - A.position_x)
      - B.getTotalVelocityAtLocalPositiion (c - B.position_x)) n > 0) :
    handleOneCollision fw A B =
      ({ A with externalForces := [] }, { B with externalForces := [] }) := by
  have hrel' : 0 < dot (A.linearVelocity_v + cross A.angularVelocity_w (c - A.position_x)
      - (B.linearVelocity_v + cross B.angularVelocity_w (c - B.position_x))) n := hrel
  simp [handleOneCollision, hsat, RigidBody.getTotalVelocityAtLocalPositiion, hrel']

theorem handleOneCollision_impulse_eq (fw : Framework α) (A B : RigidBody α) (n c : Vec3 α)
    (hsat : fw.checkCollisionSAT (A.getObject2WorldMatrix fw) (B.getObject2WorldMatrix fw)
      = ⟨true, c, n⟩)
    (hrel : dot (A.getTotalVelocityAtLocalPositiion (c - A.position_x)
      - B.getTotalVelocityAtLocalPositiion (c - B.position_x)) n ≤ 0) :
    handleOneCollision fw A B =
      ({ A with
          externalForces := []
          linearVelocity_v := A.linearVelocity_v +
            ((-(1 + 7 / 10) * dot (A.getTotalVelocityAtLocalPositiion (c - A.position_x)
              - B.getTotalVelocityAtLocalPositiion (c - B.position_x)) n /
              (1 / A.mass_m + 1 / B.mass_m + dot
                (cross ((A.getInverseInertiaTensorRotated fw).transformVector
                    (cross (c - A.position_x) n)) (c - A.position_x)
                  + cross ((B.getInverseInertiaTensorRotated fw).transformVector
                    (cross (c - B.position_x) n)) (c - B.position_x)) n)) * n) / A.mass_m
          angularMomentum_L := A.angularMomentum_L + cross (c - A.position_x)
            ((-(1 + 7 / 10) * dot (A.getTotalVelocityAtLocalPositiion (c - A.position_x)
              - B.getTotalVelocityAtLocalPositiion (c - B.position_x)) n /
              (1 / A.mass_m + 1 / B.mass_m + dot
                (cross ((A.getInverseInertiaTensorRotated fw).transformVector
                    (cross (c - A.position_x) n)) (c - A.position_x)
                  + cross ((B.getInverseInertiaTensorRotated fw).transformVector
                    (cross (c - B.position_x) n)) (c - B.position_x)) n)) * n) },
       { B with
          externalForces := []
          linearVelocity_v := B.linearVelocity_v -
            ((-(1 + 7 / 10) * dot (A.getTotalVelocityAtLocalPositiion (c - A.position_x)
              - B.getTotalVelocityAtLocalPositiion (c - B.position_x)) n /
              (1 / A.mass_m + 1 / B.mass_m + dot
                (cross ((A.getInverseInertiaTensorRotated fw).transformVector
                    (cross (c - A.position_x) n)) (c - A.position_x)
                  + cross ((B.getInverseInertiaTensorRotated fw).transformVector
                    (cross (c - B.position_x) n)) (c - B.position_x)) n)) * n) / B.mass_m
          angularMomentum_L := B.angularMomentum_L - cross (c - B.position_x)
            ((-(1 + 7 / 10) * dot (A.getTotalVelocityAtLocalPositiion (c - A.position_x)
              - B.getTotalVelocityAtLocalPositiion (c - B.position_x)) n /
              (1 / A.mass_m + 1 / B.mass_m + dot
                (cross ((A.getInverseInertiaTensorRotated fw).transformVector
                    (cross (c - A.position_x) n)) (c - A.position_x)
                  + cross ((B.getInverseInertiaTensorRotated fw).transformVector
                    (cross (c - B.position_x) n)) (c - B.position_x)) n)) * n) }) := by
  have hrel' : ¬ 0 < dot (A.linearVelocity_v + cross A.angularVelocity_w (c - A.position_x)
      - (B.linearVelocity_v + cross B.angularVelocity_w (c - B.position_x))) n :=
    not_lt.mpr hrel
  simp only [handleOneCollision, hsat, RigidBody.getTotalVelocityAtLocalPositiion,
    RigidBody.getInverseInertiaTensorRotated, BOUNCYNESS, gt_iff_lt, hrel', if_false,
    Bool.not_true, Bool.false_eq_true]

theorem handleOneCollision_impulse_exists (fw : Framework α) (A B : RigidBody α)
    (n c : Vec3 α)
    (hsat : fw.checkCollisionSAT (A.getObject2WorldMatrix fw) (B.getObject2WorldMatrix fw)
      = ⟨true, c, n⟩)
    (hrel : dot (A.getTotalVelocityAtLocalPositiion (c - A.position_x)
      - B.getTotalVelocityAtLocalPositiion (c - B.position_x)) n ≤ 0) :
    ∃ J : α, handleOneCollision fw A B =
      ({ A with
          externalForces := []
          linearVelocity_v := A.linearVelocity_v + (J * n) / A.mass_m
          angularMomentum_L := A.angularMomentum_L + cross (c - A.position_x) (J * n) },
       { B with
          externalForces := []
          linearVelocity_v := B.linearVelocity_v - (J * n) / B.mass_m
          angularMomentum_L := B.angularMomentum_L - cross (c - B.position_x) (J * n) }) :=
  ⟨_, handleOneCollision_impulse_eq fw A B n c hsat hrel⟩

/-- C6: when the SAT test reports overlap with normal `n` and contact point `c`, and the
relative contact-point velocity along `n` is not positive, `handleOneCollision` uses
`J = -(1 + 0.7) * (v_rel·n) / (1/mA + 1/mB + dot(K, n))` with
`K = cross(IA⁻¹(cross(x_a, n)), x_a) + cross(IB⁻¹(cross(x_b, n)), x_b)`, `x_a = c - posA`,
`x_b = c - posB`, and the two bodies end with `vA + J*n/mA`, `vB - J*n/mB`,
`LA + cross(x_a, J*n)`, `LB - cross(x_b, J*n)`, positions, orientations and angular
velocities being unchanged. -/
theorem collision_impulse_formula (fw : Framework α) (A B : RigidBody α) (n c : Vec3 α)
    (hsat : fw.checkCollisionSAT (A.getObject2WorldMatrix fw) (B.getObject2WorldMatrix fw)
      = ⟨true, c, n⟩)
    (hrel : dot (A.getTotalVelocityAtLocalPositiion (c - A.position_x)
      - B.getTotalVelocityAtLocalPositiion (c - B.position_x)) n ≤ 0) :
    ∃ K J,
      K = cross ((A.getInverseInertiaTensorRotated fw).transformVector
            (cross (c - A.position_x) n)) (c - A.position_x)
          + cross ((B.getInverseInertiaTensorRotated fw).transformVector
            (cross (c - B.position_x) n)) (c - B.position_x) ∧
      J = -(1 + 7 / 10) * dot (A.getTotalVelocityAtLocalPositiion (c - A.position_x)
            - B.getTotalVelocityAtLocalPositiion (c - B.position_x)) n /
          (1 / A.mass_m + 1 / B.mass_m + dot K n) ∧
      (handleOneCollision fw A B).1.linearVelocity_v = A.linearVelocity_v + (J * n) / A.mass_m ∧
      (handleOneCollision fw A B).2.linearVelocity_v = B.linearVelocity_v - (J * n) / B.mass_m ∧
      (handleOneCollision fw A B).1.angularMomentum_L =
        A.angularMomentum_L + cross (c - A.position_x) (J * n) ∧
      (handleOneCollision fw A B).2.angularMomentum_L =
        B.angularMomentum_L - cross (c - B.position_x) (J * n) ∧
      (handleOneCollision fw A B).1.position_x = A.position_x ∧
      (handleOneCollision fw A B).2.position_x = B.position_x ∧
      (handleOneCollision fw A B).1.orientation_r = A.orientation_r ∧
      (handleOneCollision fw A B).2.orientation_r = B.orientation_r ∧
      (handleOneCollision fw A B).1.angularVelocity_w = A.angularVelocity_w ∧
      (handleOneCollision fw A B).2.angularVelocity_w = B.angularVelocity_w := by
  rw [handleOneCollision_impulse_eq fw A B n c hsat hrel]
  exact ⟨_, _, rfl, rfl, rfl, rfl, rfl, rfl, rfl, rfl, rfl, rfl, rfl, rfl⟩

/-- C7: when the SAT test reports a contact (normal `n`, contact point `c`) and the
relative contact-point velocity satisfies `v_rel·n > 0`, `handleOneCollision` leaves the
linear velocity and the angular momentum of both bodies unchanged. -/
theorem separating_bodies_unchanged (fw : Framework α) (A B : RigidBody α) (n c : Vec3 α)
    (hsat : fw.checkCollisionSAT (A.getObject2WorldMatrix fw) (B.getObject2WorldMatrix fw)
      = ⟨true, c, n⟩)
    (hrel : dot (A.getTotalVelocityAtLocalPositiion (c - A.position_x)
      - B.getTotalVelocityAtLocalPositiion (c - B.position_x)) n > 0) :
    (handleOneCollision fw A B).1.linearVelocity_v = A.linearVelocity_v ∧
    (handleOneCollision fw A B).1.angularMomentum_L = A.angularMomentum_L ∧
    (handleOneCollision fw A B).2.linearVelocity_v = B.linearVelocity_v ∧
    (handleOneCollision fw A B).2.angularMomentum_L = B.angularMomentum_L := by
  rw [handleOneCollision_separating fw A B n c hsat hrel]
  exact ⟨rfl, rfl, rfl, rfl⟩

/-- C8: for two bodies of non-zero mass (equal or not, with or without pending forces) and
every SAT result, the total linear momentum `mA*vA + mB*vB` after `handleOneCollision`
equals the total linear momentum before it. -/
theorem linear_momentum_conserved (fw : Framework α) (A B : RigidBody α)
    (hA : A.mass_m ≠ 0) (hB : B.mass_m ≠ 0) :
    (handleOneCollision fw A B).1.mass_m * (handleOneCollision fw A B).1.linearVelocity_v
      + (handleOneCollision fw A B).2.mass_m * (handleOneCollision fw A B).2.linearVelocity_v
    = A.mass_m * A.linearVelocity_v + B.mass_m * B.linearVelocity_v := by
  rcases hinfo : fw.checkCollisionSAT (A.getObject2WorldMatrix fw)
    (B.getObject2WorldMatrix fw) with ⟨valid, c, n⟩
  cases valid with
  | false => rw [handleOneCollision_invalid fw A B (by rw [hinfo])]
  | true =>
    by_cases hrel : dot (A.getTotalVelocityAtLocalPositiion (c - A.position_x)
        - B.getTotalVelocityAtLocalPositiion (c - B.position_x)) n > 0
    · rw [handleOneCollision_separating fw A B n c hinfo hrel]
    · obtain ⟨J, hJ⟩ := handleOneCollision_impulse_exists fw A B n c hinfo (not_lt.mp hrel)
      rw [hJ]
      ext <;> simp <;> field_simp <;> ring

theorem collision_impulse_formula_witness :
    (exampleFramework exampleInfo).checkCollisionSAT
        (exampleA.getObject2WorldMatrix (exampleFramework exampleInfo))
        (exampleB.getObject2WorldMatrix (exampleFramework exampleInfo))
      = ⟨true, exampleInfo.collisionPointWorld, exampleInfo.normalWorld⟩ ∧
    dot (exampleA.getTotalVelocityAtLocalPositiion
        (exampleInfo.collisionPointWorld - exampleA.position_x)
      - exampleB.getTotalVelocityAtLocalPositiion
        (exampleInfo.collisionPointWorld - exampleB.position_x)) exampleInfo.normalWorld ≤ 0 ∧
    (∃ K J,
      K = cross ((exampleA.getInverseInertiaTensorRotated (exampleFramework exampleInfo)).transformVector
            (cross (exampleInfo.collisionPointWorld - exampleA.position_x) exampleInfo.normalWorld)) (exampleInfo.collisionPointWorld - exampleA.position_x)
          + cross ((exampleB.getInverseInertiaTensorRotated (exampleFramework exampleInfo)).transformVector
            (cross (exampleInfo.collisionPointWorld - exampleB.position_x) exampleInfo.normalWorld)) (exampleInfo.collisionPointWorld - exampleB.position_x) ∧
      J = -(1 + 7 / 10) * dot (exampleA.getTotalVelocityAtLocalPositiion (exampleInfo.collisionPointWorld - exampleA.position_x)
            - exampleB.getTotalVelocityAtLocalPositiion (exampleInfo.collisionPointWorld - exampleB.position_x)) exampleInfo.normalWorld /
          (1 / exampleA.mass_m + 1 / exampleB.mass_m + dot K exampleInfo.normalWorld) ∧
      (handleOneCollision (exampleFramework exampleInfo) exampleA exampleB).1.linearVelocity_v = exampleA.linearVelocity_v + (J * exampleInfo.normalWorld) / exampleA.mass_m ∧
      (handleOneCollision (exampleFramework exampleInfo) exampleA exampleB).2.linearVelocity_v = exampleB.linearVelocity_v - (J * exampleInfo.normalWorld) / exampleB.mass_m ∧
      (handleOneCollision (exampleFramework exampleInfo) exampleA exampleB).1.angularMomentum_L =
        exampleA.angularMomentum_L + cross (exampleInfo.collisionPointWorld - exampleA.position_x) (J * exampleInfo.normalWorld) ∧
      (handleOneCollision (exampleFramework exampleInfo) exampleA exampleB).2.angularMomentum_L =
        exampleB.angularMomentum_L - cross (exampleInfo.collisionPointWorld - exampleB.position_x) (J * exampleInfo.normalWorld) ∧
      (handleOneCollision (exampleFramework exampleInfo) exampleA exampleB).1.position_x = exampleA.position_x ∧
      (handleOneCollision (exampleFramework exampleInfo) exampleA exampleB).2.position_x = exampleB.position_x ∧
      (handleOneCollision (exampleFramework exampleInfo) exampleA exampleB).1.orientation_r = exampleA.orientation_r ∧
      (handleOneCollision (exampleFramework exampleInfo) exampleA exampleB).2.orientation_r = exampleB.orientation_r ∧
      (handleOneCollision (exampleFramework exampleInfo) exampleA exampleB).1.angularVelocity_w = exampleA.angularVelocity_w ∧
      (handleOneCollision (exampleFramework exampleInfo) exampleA exampleB).2.angularVelocity_w = exampleB.angularVelocity_w) :=
  ⟨rfl, by norm_num [dot, cross, RigidBody.getTotalVelocityAtLocalPositiion, exampleA,
      exampleB, exampleBody, exampleInfo],
    collision_impulse_formula (exampleFramework exampleInfo) exampleA exampleB
      exampleInfo.normalWorld exampleInfo.collisionPointWorld rfl
      (by norm_num [dot, cross, RigidBody.getTotalVelocityAtLocalPositiion, exampleA,
        exampleB, exampleBody, exampleInfo])⟩

theorem separating_bodies_unchanged_witness :
    (exampleFramework exampleInfo).checkCollisionSAT
        (exampleB.getObject2WorldMatrix (exampleFramework exampleInfo))
        (exampleA.getObject2WorldMatrix (exampleFramework exampleInfo))
      = ⟨true, exampleInfo.collisionPointWorld, exampleInfo.normalWorld⟩ ∧
    dot (exampleB.getTotalVelocityAtLocalPositiion
        (exampleInfo.collisionPointWorld - exampleB.position_x)
      - exampleA.getTotalVelocityAtLocalPositiion
        (exampleInfo.collisionPointWorld - exampleA.position_x)) exampleInfo.normalWorld > 0 ∧
    ((handleOneCollision (exampleFramework exampleInfo) exampleB exampleA).1.linearVelocity_v = exampleB.linearVelocity_v ∧
    (handleOneCollision (exampleFramework exampleInfo) exampleB exampleA).1.angularMomentum_L = exampleB.angularMomentum_L ∧
    (handleOneCollision (exampleFramework exampleInfo) exampleB exampleA).2.linearVelocity_v = exampleA.linearVelocity_v ∧
    (handleOneCollision (exampleFramework exampleInfo) exampleB exampleA).2.angularMomentum_L = exampleA.angularMomentum_L) :=
  ⟨rfl, by norm_num [dot, cross, RigidBody.getTotalVelocityAtLocalPositiion, exampleA,
      exampleB, exampleBody, exampleInfo],
    separating_bodies_unchanged (exampleFramework exampleInfo) exampleB exampleA
      exampleInfo.normalWorld exampleInfo.collisionPointWorld rfl
      (by norm_num [dot, cross, RigidBody.getTotalVelocityAtLocalPositiion, exampleA,
        exampleB, exampleBody, exampleInfo])⟩

theorem linear_momentum_conserved_witness :
    exampleA.mass_m ≠ 0 ∧ exampleB.mass_m ≠ 0 ∧
    ((handleOneCollision (exampleFramework exampleInfo) exampleA exampleB).1.mass_m * (handleOneCollision (exampleFramework exampleInfo) exampleA exampleB).1.linearVelocity_v
      + (handleOneCollision (exampleFramework exampleInfo) exampleA exampleB).2.mass_m * (handleOneCollision (exampleFramework exampleInfo) exampleA exampleB).2.linearVelocity_v
    = exampleA.mass_m * exampleA.linearVelocity_v + exampleB.mass_m * exampleB.linearVelocity_v) :=
  ⟨by norm_num [exampleA, exampleBody], by norm_num [exampleB, exampleBody],
    linear_momentum_conserved (exampleFramework exampleInfo) exampleA exampleB
      (by norm_num [exampleA, exampleBody]) (by norm_num [exampleB, exampleBody])⟩

/-- C9: two unit-mass boxes with zero angular velocity, A on the -X side moving with
`(+v, 0, 0)` and B on the +X side moving with `(-v, 0, 0)`, `v > 0`, whose centres lie on
a line parallel to X that contains the contact point, with SAT normal `(-1, 0, 0)`, have
after one `handleOneCollision` the linear velocities `(-0.7*v, 0, 0)` and `(+0.7*v, 0, 0)`. -/
theorem head_on_collision (fw : Framework α) (A B : RigidBody α) (v : α) (c : Vec3 α)
    (hv : 0 < v) (hmA : A.mass_m = 1) (hmB : B.mass_m = 1)
    (hwA : A.angularVelocity_w = ⟨0, 0, 0⟩) (hwB : B.angularVelocity_w = ⟨0, 0, 0⟩)
    (hvA : A.linearVelocity_v = ⟨v, 0, 0⟩) (hvB : B.linearVelocity_v = ⟨-v, 0, 0⟩)
    (hside : A.position_x.x < B.position_x.x)
    (hy : A.position_x.y = B.position_x.y) (hz : A.position_x.z = B.position_x.z)
    (hcy : c.y = A.position_x.y) (hcz : c.z = A.position_x.z)
    (hsat : fw.checkCollisionSAT (A.getObject2WorldMatrix fw) (B.getObject2WorldMatrix fw)
      = ⟨true, c, ⟨-1, 0, 0⟩⟩) :
    (handleOneCollision fw A B).1.linearVelocity_v = ⟨-(7 / 10 * v), 0, 0⟩ ∧
    (handleOneCollision fw A B).2.linearVelocity_v = ⟨7 / 10 * v, 0, 0⟩ := by
  have hrel : dot (A.getTotalVelocityAtLocalPositiion (c - A.position_x)
      - B.getTotalVelocityAtLocalPositiion (c - B.position_x)) ⟨-1, 0, 0⟩ = -(2 * v) := by
    simp [dot, cross, RigidBody.getTotalVelocityAtLocalPositiion, hwA, hwB, hvA, hvB]
    ring
  have hK : dot
      (cross ((A.getInverseInertiaTensorRotated fw).transformVector
          (cross (c - A.position_x) ⟨-1, 0, 0⟩)) (c - A.position_x)
        + cross ((B.getInverseInertiaTensorRotated fw).transformVector
          (cross (c - B.position_x) ⟨-1, 0, 0⟩)) (c - B.position_x))
      (⟨-1, 0, 0⟩ : Vec3 α) = 0 := by
    simp [dot, cross, Mat4.transformVector, hcy, hcz, hy, hz]
  rw [handleOneCollision_impulse_eq fw A B ⟨-1, 0, 0⟩ c hsat (by rw [hrel]; linarith)]
  simp only [hrel, hK, hmA, hmB, hvA, hvB]
  constructor <;> ext <;> simp <;> ring

theorem head_on_collision_witness :
    (0 : ℚ) < 3 ∧ exampleA.mass_m = 1 ∧ exampleB.mass_m = 1 ∧
    exampleA.angularVelocity_w = ⟨0, 0, 0⟩ ∧ exampleB.angularVelocity_w = ⟨0, 0, 0⟩ ∧
    exampleA.linearVelocity_v = ⟨3, 0, 0⟩ ∧ exampleB.linearVelocity_v = ⟨-3, 0, 0⟩ ∧
    exampleA.position_x.x < exampleB.position_x.x ∧
    exampleA.position_x.y = exampleB.position_x.y ∧
    exampleA.position_x.z = exampleB.position_x.z ∧
    exampleInfo.collisionPointWorld.y = exampleA.position_x.y ∧
    exampleInfo.collisionPointWorld.z = exampleA.position_x.z ∧
    (exampleFramework exampleInfo).checkCollisionSAT
        (exampleA.getObject2WorldMatrix (exampleFramework exampleInfo))
        (exampleB.getObject2WorldMatrix (exampleFramework exampleInfo))
      = ⟨true, exampleInfo.collisionPointWorld, ⟨-1, 0, 0⟩⟩ ∧
    (handleOneCollision (exampleFramework exampleInfo) exampleA exampleB).1.linearVelocity_v
      = ⟨-(7 / 10 * 3), 0, 0⟩ ∧
    (handleOneCollision (exampleFramework exampleInfo) exampleA exampleB).2.linearVelocity_v
      = ⟨7 / 10 * 3, 0, 0⟩ :=
  ⟨by norm_num, rfl, rfl, rfl, rfl, rfl, rfl,
    by norm_num [exampleA, exampleB, exampleBody], rfl, rfl, rfl, rfl, rfl,
    head_on_collision (exampleFramework exampleInfo) exampleA exampleB 3
      exampleInfo.collisionPointWorld (by norm_num) rfl rfl rfl rfl rfl rfl
      (by norm_num [exampleA, exampleB, exampleBody]) rfl rfl rfl rfl rfl⟩

end

/-! ## Collision handling of the whole scene -/

theorem forLoop_preserve {σ : Type} (lo hi : Int) (body : Int → σ → Option σ)
    (Inv : σ → Prop) (s : σ) (h0 : Inv s)
    (hstep : ∀ i, lo ≤ i → i < hi → ∀ t, Inv t → ∃ t', body i t = some t' ∧ Inv t') :
    ∃ t, forLoop lo hi body s = some t ∧ Inv t :=
  forLoop_inv lo hi body (fun _ t => Inv t) s h0 hstep

section
variable {α : Type} [LinearOrderedField α] [FloorRing α]

theorem handleOneCollision_geometry (fw : Framework α) (A B : RigidBody α) :
    (handleOneCollision fw A B).1.getObject2WorldMatrix fw = A.getObject2WorldMatrix fw ∧
    (handleOneCollision fw A B).2.getObject2WorldMatrix fw = B.getObject2WorldMatrix fw := by
  rcases hinfo : fw.checkCollisionSAT (A.getObject2WorldMatrix fw)
    (B.getObject2WorldMatrix fw) with ⟨valid, c, n⟩
  cases valid with
  | false =>
    rw [handleOneCollision_invalid fw A B (by rw [hinfo])]
    exact ⟨rfl, rfl⟩
  | true =>
    by_cases hrel : dot (A.getTotalVelocityAtLocalPositiion (c - A.position_x)
        - B.getTotalVelocityAtLocalPositiion (c - B.position_x)) n > 0
    · rw [handleOneCollision_separating fw A B n c hinfo hrel]
      exact ⟨rfl, rfl⟩
    · rw [handleOneCollision_impulse_eq fw A B n c hinfo (not_lt.mp hrel)]
      exact ⟨rfl, rfl⟩

/-- The invariant of the first loop of `handleCollisions` for a body `rb` at the index `k`
that is in no contact: the vector keeps its length, `rb` is unchanged, and every body
keeps its object-to-world matrix. -/
theorem handleOneCollisionAt_inv (fw : Framework α) (rbs l : List (RigidBody α)) (k : Nat)
    (rb : RigidBody α) (i j : Nat) (hij : i ≠ j)
    (hno : ∀ (j : Nat) (b : RigidBody α), j ≠ k → rbs[j]? = some b →
      (fw.checkCollisionSAT (rb.getObject2WorldMatrix fw)
        (b.getObject2WorldMatrix fw)).isValid = false ∧
      (fw.checkCollisionSAT (b.getObject2WorldMatrix fw)
        (rb.getObject2WorldMatrix fw)).isValid = false)
    (hlen : l.length = rbs.length) (hk : l[k]? = some rb)
    (hgeo : ∀ (j : Nat) (b : RigidBody α), l[j]? = some b → ∃ b0, rbs[j]? = some b0 ∧
      b.getObject2WorldMatrix fw = b0.getObject2WorldMatrix fw) :
    (handleOneCollisionAt fw l i j).length = rbs.length ∧
    (handleOneCollisionAt fw l i j)[k]? = some rb ∧
    ∀ (j' : Nat) (b : RigidBody α), (handleOneCollisionAt fw l i j)[j']? = some b → ∃ b0, rbs[j']? = some b0 ∧
      b.getObject2WorldMatrix fw = b0.getObject2WorldMatrix fw := by
  unfold handleOneCollisionAt
  rcases hA : l[i]? with _ | A
  · exact ⟨hlen, hk, hgeo⟩
  rcases hB : l[j]? with _ | B
  · exact ⟨hlen, hk, hgeo⟩
  simp only [hij, if_false]
  obtain ⟨A0, hA0, gA⟩ := hgeo i A hA
  obtain ⟨B0, hB0, gB⟩ := hgeo j B hB
  obtain ⟨g1, g2⟩ := handleOneCollision_geometry fw A B
  have hi : i < l.length := by
    by_contra h
    rw [List.getElem?_eq_none (by omega)] at hA
    cases hA
  have hj : j < l.length := by
    by_contra h
    rw [List.getElem?_eq_none (by omega)] at hB
    cases hB
  refine ⟨by simpa using hlen, ?_, ?_⟩
  · by_cases hkj : j = k
    · subst hkj
      have hBrb : B = rb := Option.some.inj (hB.symm.trans hk)
      subst hBrb
      have hinv := (hno i A0 hij hA0).2
      rw [← gA] at hinv
      rw [handleOneCollision_invalid fw A B hinv]
      rw [List.getElem?_set_self (by simpa using hj)]
    · rw [List.getElem?_set_ne hkj]
      by_cases hki : i = k
      · subst hki
        have hArb : A = rb := Option.some.inj (hA.symm.trans hk)
        subst hArb
        have hinv := (hno j B0 (Ne.symm hij) hB0).1
        rw [← gB] at hinv
        rw [handleOneCollision_invalid fw A B hinv]
        rw [List.getElem?_set_self hi]
      · rw [List.getElem?_set_ne hki]
        exact hk
  · intro j' b hb
    by_cases hj' : j = j'
    · subst hj'
      rw [List.getElem?_set_self (by simpa using hj)] at hb
      have := Option.some.inj hb
      subst this
      exact ⟨B0, hB0, g2.trans gB⟩
    · rw [List.getElem?_set_ne hj'] at hb
      by_cases hi' : i = j'
      · subst hi'
        rw [List.getElem?_set_self hi] at hb
        have := Option.some.inj hb
        subst this
        exact ⟨A0, hA0, g1.trans gA⟩
      · rw [List.getElem?_set_ne hi'] at hb
        exact hgeo j' b hb

theorem collideBodies_spec (fw : Framework α) (rbs : List (RigidBody α)) (k : Nat)
    (rb : RigidBody α) (hk : rbs[k]? = some rb)
    (hno : ∀ (j : Nat) (b : RigidBody α), j ≠ k → rbs[j]? = some b →
      (fw.checkCollisionSAT (rb.getObject2WorldMatrix fw)
        (b.getObject2WorldMatrix fw)).isValid = false ∧
      (fw.checkCollisionSAT (b.getObject2WorldMatrix fw)
        (rb.getObject2WorldMatrix fw)).isValid = false) :
    ∃ l, collideBodies fw rbs = some l ∧ l.length = rbs.length ∧ l[k]? = some rb := by
  have key := forLoop_preserve 0 (rbs.length : Int)
    (fun i l => forLoop 0 i (fun j l =>
      some (handleOneCollisionAt fw l i.toNat j.toNat)) l)
    (fun l => l.length = rbs.length ∧ l[k]? = some rb ∧
      ∀ (j : Nat) (b : RigidBody α), l[j]? = some b → ∃ b0, rbs[j]? = some b0 ∧
        b.getObject2WorldMatrix fw = b0.getObject2WorldMatrix fw) rbs
    ⟨rfl, hk, fun j b hb => ⟨b, hb, rfl⟩⟩
    (by
      intro i hi0 hin l hl
      exact forLoop_preserve 0 i (fun j l =>
        some (handleOneCollisionAt fw l i.toNat j.toNat))
        (fun l => l.length = rbs.length ∧ l[k]? = some rb ∧
          ∀ (j : Nat) (b : RigidBody α), l[j]? = some b → ∃ b0, rbs[j]? = some b0 ∧
            b.getObject2WorldMatrix fw = b0.getObject2WorldMatrix fw) l hl
        (by
          intro j hj0 hji t ⟨t1, t2, t3⟩
          exact ⟨_, rfl, handleOneCollisionAt_inv fw rbs t k rb i.toNat j.toNat
            (by omega) hno t1 t2 t3⟩))
  obtain ⟨l, e, h1, h2, -⟩ := key
  exact ⟨l, e, h1, h2⟩

theorem vecAt_mem {β : Type} {v : List β} {k : Int} {x : β} (h : vecAt v k = some x) :
    x ∈ v := by
  unfold vecAt at h
  split at h
  · exact List.getElem?_mem h
  · cases h

theorem vecAt_some {β : Type} (v : List β) (k : Int) (h0 : 0 ≤ k) (h1 : k < v.length) :
    ∃ x, vecAt v k = some x := by
  have hlt : k.toNat < v.length := by omega
  exact ⟨v[k.toNat], by simp [vecAt, h0, List.getElem?_eq_getElem hlt]⟩

theorem getProjectedPixels_congr (sim : DiffusionSimulator α) (T : Grid α) (p : Vec3 α)
    (hr : T.rows = sim.T.rows) (hc : T.cols = sim.T.cols) :
    getProjectedPixels { sim with T := T } p = getProjectedPixels sim p := by
  simp only [getProjectedPixels, hr, hc]

/-- With one pixel per cell, `getProjectedPixels` does not fail and returns pixels of the
simulator only. -/
theorem getProjectedPixels_spec (sim : DiffusionSimulator α) (R C : Int) (p : Vec3 α)
    (hT : sim.T.Shape R C) (hlen : (sim.pixels.length : Int) = R * C) :
    ∃ gps, getProjectedPixels sim p = some gps ∧ ∀ gp ∈ gps, gp ∈ sim.pixels := by
  unfold getProjectedPixels
  split
  · exact ⟨[], rfl, by simp⟩
  · refine forLoop_preserve _ _ _ (fun out => ∀ gp ∈ out, gp ∈ sim.pixels) [] (by simp) ?_
    intro i hi0 hi1 out hout
    refine forLoop_preserve _ _ _ (fun out => ∀ gp ∈ out, gp ∈ sim.pixels) out hout ?_
    intro j hj0 hj1 out' hout'
    have a1 : 0 ≤ i := le_trans (le_max_left _ _) hi0
    have a2 : i < R := by
      have := lt_of_lt_of_le hi1 (min_le_left _ _)
      rw [hT.1] at this; exact this
    have a3 : 0 ≤ j := le_trans (le_max_left _ _) hj0
    have a4 : j < C := by
      have := lt_of_lt_of_le hj1 (min_le_left _ _)
      rw [hT.2.1] at this; exact this
    have hb := index_bounds a1 a2 a3 a4
    obtain ⟨gp, hgp⟩ := vecAt_some sim.pixels (index i j C) hb.1 (by omega)
    refine ⟨out' ++ [gp], by simp [hT.2.1, hgp], ?_⟩
    intro g hg
    rcases List.mem_append.mp hg with h | h
    · exact hout' g h
    · rw [List.mem_singleton.mp h]; exact vecAt_mem hgp

theorem waterPixel_spec (fw : Framework α) (gp : GridPixel α) (rb : RigidBody α)
    (T : Grid α) (R C : Int) (hT : T.Shape R C)
    (hgp : 0 ≤ gp.x ∧ gp.x < R ∧ 0 ≤ gp.y ∧ gp.y < C) :
    ∃ st, waterPixel fw gp (rb, T) = some st ∧ st.2.Shape R C := by
  unfold waterPixel
  by_cases h : (fw.checkCollisionSAT (rb.getObject2WorldMatrix fw)
      gp.getObject2WorldMatrix).isValid = true
  · obtain ⟨T', e1, e2, -, -⟩ := Grid.set_spec (R := R) (C := C) (i := gp.x) (j := gp.y)
      (T.val gp.x gp.y + rb.mass_m * vec_length fw rb.linearVelocity_v *
        WATER_COLLISION_FACTOR) hT hgp.1 hgp.2.1 hgp.2.2.1 hgp.2.2.2
    refine ⟨({ rb with gridHit := true }, T'), ?_, e2⟩
    simp [h, Grid.get_eq_val hT hgp.1 hgp.2.1 hgp.2.2.1 hgp.2.2.2, e1]
  · exact ⟨(rb, T), by simp [h], hT⟩

theorem waterPixel_nohit (fw : Framework α) (gp : GridPixel α) (st : RigidBody α × Grid α)
    (h : (fw.checkCollisionSAT (st.1.getObject2WorldMatrix fw)
      gp.getObject2WorldMatrix).isValid = false) :
    waterPixel fw gp st = some st := by
  simp [waterPixel, h]

theorem forEach_waterPixel_spec (fw : Framework α) (gps : List (GridPixel α)) (R C : Int)
    (hgps : ∀ gp ∈ gps, 0 ≤ gp.x ∧ gp.x < R ∧ 0 ≤ gp.y ∧ gp.y < C)
    (st : RigidBody α × Grid α) (hT : st.2.Shape R C) :
    ∃ st', forEach gps (waterPixel fw) st = some st' ∧ st'.2.Shape R C := by
  induction gps generalizing st with
  | nil => exact ⟨st, rfl, hT⟩
  | cons gp rest ih =>
    obtain ⟨s1, e1, h1⟩ := waterPixel_spec fw gp st.1 st.2 R C hT
      (hgps gp (List.mem_cons_self _ _))
    obtain ⟨s2, e2, h2⟩ := ih (fun g hg => hgps g (List.mem_cons_of_mem _ hg)) s1 h1
    exact ⟨s2, by simp [forEach, e1, e2], h2⟩

theorem forEach_waterPixel_nohit (fw : Framework α) (gps : List (GridPixel α))
    (st : RigidBody α × Grid α)
    (h : ∀ gp ∈ gps, (fw.checkCollisionSAT (st.1.getObject2WorldMatrix fw)
      gp.getObject2WorldMatrix).isValid = false) :
    forEach gps (waterPixel fw) st = some st := by
  induction gps with
  | nil => rfl
  | cons gp rest ih =>
    simp [forEach, waterPixel_nohit fw gp st (h gp (List.mem_cons_self _ _)),
      ih (fun g hg => h g (List.mem_cons_of_mem _ hg))]

theorem waterBody_spec (fw : Framework α) (sim : DiffusionSimulator α) (rb : RigidBody α)
    (T : Grid α) (R C : Int) (hT : T.Shape R C) (hS : sim.T.Shape R C)
    (hlen : (sim.pixels.length : Int) = R * C)
    (hpix : ∀ gp ∈ sim.pixels, 0 ≤ gp.x ∧ gp.x < R ∧ 0 ≤ gp.y ∧ gp.y < C) :
    ∃ st, waterBody fw sim rb T = some st ∧ st.2.Shape R C ∧
      ((∀ gps, getProjectedPixels sim rb.position_x = some gps → ∀ gp ∈ gps,
        (fw.checkCollisionSAT (rb.getObject2WorldMatrix fw)
          gp.getObject2WorldMatrix).isValid = false) → st.1 = rb) := by
  by_cases hg : rb.gridHit = true
  · exact ⟨(rb, T), by simp [waterBody, hg], hT, fun _ => rfl⟩
  · have hcongr := getProjectedPixels_congr sim T rb.position_x
      (hT.1.trans hS.1.symm) (hT.2.1.trans hS.2.1.symm)
    obtain ⟨gps, egps, hmem⟩ := getProjectedPixels_spec sim R C rb.position_x hS hlen
    obtain ⟨st1, e1, h1⟩ := forEach_waterPixel_spec fw gps R C
      (fun gp h => hpix gp (hmem gp h)) (rb, T) hT
    have hrun : waterBody fw sim rb T =
        if st1.1.gridHit = true then
          some ({ st1.1 with linearVelocity_v :=
            { st1.1.linearVelocity_v with
              y := st1.1.linearVelocity_v.y
                - vec_length fw st1.1.linearVelocity_v * WATER_COLLISION_DOWNSPEED } }, st1.2)
        else some (st1.1, st1.2) := by
      simp only [waterBody, hg, hcongr, egps, e1, Option.bind_eq_bind, Option.some_bind,
        Bool.false_eq_true, if_false, Option.pure_def]
    by_cases hh : st1.1.gridHit = true
    · rw [hrun, if_pos hh]
      refine ⟨_, rfl, h1, ?_⟩
      intro hno
      have e2 := forEach_waterPixel_nohit fw gps (rb, T) (hno gps egps)
      have e3 : st1 = (rb, T) := Option.some.inj (e1.symm.trans e2)
      rw [e3] at hh
      exact absurd hh hg
    · rw [hrun, if_neg hh]
      refine ⟨_, rfl, h1, ?_⟩
      intro hno
      have e2 := forEach_waterPixel_nohit fw gps (rb, T) (hno gps egps)
      have e3 : st1 = (rb, T) := Option.some.inj (e1.symm.trans e2)
      rw [e3]

theorem waterBodies_spec (fw : Framework α) (sim : DiffusionSimulator α) (R C : Int)
    (hS : sim.T.Shape R C) (hlen : (sim.pixels.length : Int) = R * C)
    (hpix : ∀ gp ∈ sim.pixels, 0 ≤ gp.x ∧ gp.x < R ∧ 0 ≤ gp.y ∧ gp.y < C)
    (rbs : List (RigidBody α)) (T : Grid α) (hT : T.Shape R C) :
    ∃ st, waterBodies fw sim rbs T = some st ∧ st.2.Shape R C ∧
      st.1.length = rbs.length ∧
      ∀ (k : Nat) (rb : RigidBody α), rbs[k]? = some rb →
        (∀ gps, getProjectedPixels sim rb.position_x = some gps → ∀ gp ∈ gps,
          (fw.checkCollisionSAT (rb.getObject2WorldMatrix fw)
            gp.getObject2WorldMatrix).isValid = false) → st.1[k]? = some rb := by
  induction rbs generalizing T with
  | nil => exact ⟨([], T), rfl, hT, rfl, fun k rb h => by simp at h⟩
  | cons b rest ih =>
    obtain ⟨s1, e1, h1, hb⟩ := waterBody_spec fw sim b T R C hT hS hlen hpix
    obtain ⟨s2, e2, h2, hl2, hk2⟩ := ih s1.2 h1
    refine ⟨(s1.1 :: s2.1, s2.2), by simp [waterBodies, e1, e2], h2, by simp [hl2], ?_⟩
    intro k rb hk hno
    cases k with
    | zero =>
      simp only [List.getElem?_cons_zero, Option.some.injEq] at hk
      subst hk
      simp [hb hno]
    | succ m =>
      simp only [List.getElem?_cons_succ] at hk
      simpa using hk2 m rb hk hno

theorem wallLoop_spec (rbs : List (RigidBody α)) :
    ∃ st, forLoop 0 (rbs.length : Int) wallStep (rbs, ([] : List Int)) = some st ∧
      st.1.length = rbs.length ∧
      ∀ (k : Nat) (rb : RigidBody α), rbs[k]? = some rb →
        st.1[k]? = some (wallBounce rb) := by
  have key := forLoop_inv 0 (rbs.length : Int) wallStep
    (fun i (st : List (RigidBody α) × List Int) => st.1.length = rbs.length ∧
      (∀ j : Nat, (j : Int) < i → st.1[j]? = (rbs[j]?).map wallBounce) ∧
      (∀ j : Nat, i ≤ (j : Int) → st.1[j]? = rbs[j]?)) (rbs, [])
    ⟨rfl, fun j hj => by omega, fun j _ => rfl⟩
    (by
      intro i hi0 hin st ⟨h1, h2, h3⟩
      have hlt : i.toNat < rbs.length := by omega
      have e0 : st.1[i.toNat]? = some rbs[i.toNat] := by
        rw [h3 i.toNat (by omega), List.getElem?_eq_getElem hlt]
      have hstep : ∃ del, wallStep i st =
          some (st.1.set i.toNat (wallBounce rbs[i.toNat]), del) := by
        unfold wallStep
        simp only [vecAt, vecSet, hi0, if_true, e0, Option.bind_eq_bind, Option.some_bind,
          h1, hlt, and_self, Option.pure_def]
        split
        · exact ⟨_, rfl⟩
        · exact ⟨_, rfl⟩
      obtain ⟨del, e⟩ := hstep
      refine ⟨_, e, by simpa using h1, ?_, ?_⟩
      · intro j hj
        by_cases hji : i.toNat = j
        · subst hji
          rw [List.getElem?_set_self (by omega), List.getElem?_eq_getElem hlt]
          rfl
        · rw [List.getElem?_set_ne hji]
          exact h2 j (by omega)
      · intro j hj
        rw [List.getElem?_set_ne (by omega)]
        exact h3 j (by omega))
  obtain ⟨st, e, h1, h2, -⟩ := key
  refine ⟨st, e, h1, ?_⟩
  intro k rb hk
  have hlt : k < rbs.length := by
    by_contra h
    rw [List.getElem?_eq_none (by omega)] at hk
    cases hk
  rw [h2 k (by omega), hk]
  rfl

theorem eraseBodies_some (rbs : List (RigidBody α)) (del : List Int) :
    ∃ l, eraseBodies rbs del = some l := by
  obtain ⟨l, e, -⟩ := loopM_inv (fun k rbs =>
      (vecAt del ((del.length : Int) - 1 - (k : Int))).bind
        (fun d => some (rbs.eraseIdx d.toNat)))
    (fun _ _ => True) del.length rbs trivial
    (by
      intro k hk t _
      obtain ⟨d, hd⟩ := vecAt_some del ((del.length : Int) - 1 - (k : Int)) (by omega)
        (by omega)
      exact ⟨t.eraseIdx d.toNat, by simp [hd], trivial⟩)
  exact ⟨l, e⟩

theorem wallBounce_x (rb : RigidBody α) (hface : rb.position_x.x + rb.size.x / 2 > 1) :
    (wallBounce rb).linearVelocity_v.x =
      if rb.linearVelocity_v.x > 0 then -rb.linearVelocity_v.x else rb.linearVelocity_v.x := by
  have hface' : rb.position_x.x + rb.size.x * (1 / 2) > 1 := by
    rw [mul_one_div]; exact hface
  have hy : ∀ b : RigidBody α, (wallYPos b).linearVelocity_v.x = b.linearVelocity_v.x := by
    intro b; unfold wallYPos; split <;> rfl
  have hz1 : ∀ b : RigidBody α, (wallZNeg b).linearVelocity_v.x = b.linearVelocity_v.x := by
    intro b; unfold wallZNeg; split <;> rfl
  have hz2 : ∀ b : RigidBody α, (wallZPos b).linearVelocity_v.x = b.linearVelocity_v.x := by
    intro b; unfold wallZPos; split <;> rfl
  have hp : (wallXPos rb).position_x = rb.position_x ∧ (wallXPos rb).size = rb.size := by
    unfold wallXPos; split <;> exact ⟨rfl, rfl⟩
  have hx2 : (wallXNeg (wallXPos rb)).linearVelocity_v.x =
      (wallXPos rb).linearVelocity_v.x := by
    have hnot : ¬ (wallXPos rb).position_x.x + (wallXPos rb).size.x * (1 / 2) < -1 := by
      rw [hp.1, hp.2]; linarith
    unfold wallXNeg
    rw [if_neg (fun h => hnot h.1)]
  rw [wallBounce, hy, hz1, hz2, hx2]
  unfold wallXPos
  by_cases hv : rb.linearVelocity_v.x > 0
  · rw [if_pos ⟨hface', hv⟩, if_pos hv]
  · rw [if_neg (fun h => hv h.2), if_neg hv]

/-- C10: in a scene with one pixel per grid cell, a body whose +X face
(`position.x + size.x/2`) lies beyond the wall `x = 1` and for which no SAT test of the
pass (against another body, against a projected pixel) reports overlap: `handleCollisions`
returns, and the body ends with the x-component `-vx` of its linear velocity when
`vx > 0`, and with `vx` itself when `vx ≤ 0`. -/
theorem wall_reflection_x (fw : Framework α) (sim : DiffusionSimulator α) (R C : Int)
    (k : Nat) (rb : RigidBody α)
    (hT : sim.T.Shape R C) (hlen : (sim.pixels.length : Int) = R * C)
    (hpix : ∀ gp ∈ sim.pixels, 0 ≤ gp.x ∧ gp.x < R ∧ 0 ≤ gp.y ∧ gp.y < C)
    (hk : sim.rigidBodies[k]? = some rb)
    (hface : rb.position_x.x + rb.size.x / 2 > 1)
    (hbody : ∀ (j : Nat) (b : RigidBody α), j ≠ k → sim.rigidBodies[j]? = some b →
      (fw.checkCollisionSAT (rb.getObject2WorldMatrix fw)
        (b.getObject2WorldMatrix fw)).isValid = false ∧
      (fw.checkCollisionSAT (b.getObject2WorldMatrix fw)
        (rb.getObject2WorldMatrix fw)).isValid = false)
    (hgrid : ∀ gps, getProjectedPixels sim rb.position_x = some gps → ∀ gp ∈ gps,
      (fw.checkCollisionSAT (rb.getObject2WorldMatrix fw)
        gp.getObject2WorldMatrix).isValid = false) :
    ∃ rbs del T' final rb',
      handleCollisionsUpdate fw sim = some (rbs, del, T') ∧
      eraseBodies rbs del = some final ∧
      handleCollisions fw sim = some { sim with rigidBodies := final, T := T' } ∧
      rbs[k]? = some rb' ∧
      (rb.linearVelocity_v.x > 0 → rb'.linearVelocity_v.x = -rb.linearVelocity_v.x) ∧
      (rb.linearVelocity_v.x ≤ 0 → rb'.linearVelocity_v.x = rb.linearVelocity_v.x) := by
  obtain ⟨l1, e1, -, hk1⟩ := collideBodies_spec fw sim.rigidBodies k rb hk hbody
  obtain ⟨st2, e2, -, -, hk2⟩ := waterBodies_spec fw sim R C hT hlen hpix l1 sim.T hT
  obtain ⟨st3, e3, -, hk3⟩ := wallLoop_spec st2.1
  obtain ⟨final, e4⟩ := eraseBodies_some st3.1 st3.2
  have eU : handleCollisionsUpdate fw sim = some (st3.1, st3.2, st2.2) := by
    simp [handleCollisionsUpdate, e1, e2, e3]
  refine ⟨st3.1, st3.2, st2.2, final, wallBounce rb, eU, e4, ?_,
    hk3 k rb (hk2 k rb hk1 hgrid), ?_, ?_⟩
  · simp [handleCollisions, eU, e4]
  · intro hv
    rw [wallBounce_x rb hface, if_pos hv]
  · intro hv
    rw [wallBounce_x rb hface, if_neg (not_lt.mpr hv)]

theorem wall_reflection_x_witness :
    exampleScene.T.Shape 2 2 ∧
    (exampleScene.pixels.length : Int) = 2 * 2 ∧
    (∀ gp ∈ exampleScene.pixels, 0 ≤ gp.x ∧ gp.x < 2 ∧ 0 ≤ gp.y ∧ gp.y < 2) ∧
    exampleScene.rigidBodies[0]? = some (exampleBody ⟨99 / 100, 0, 0⟩ ⟨3, 0, 0⟩) ∧
    (exampleBody ⟨99 / 100, 0, 0⟩ ⟨3, 0, 0⟩).position_x.x
      + (exampleBody ⟨99 / 100, 0, 0⟩ ⟨3, 0, 0⟩).size.x / 2 > 1 ∧
    (∃ rbs del T' final rb',
      handleCollisionsUpdate noContact exampleScene = some (rbs, del, T') ∧
      eraseBodies rbs del = some final ∧
      handleCollisions noContact exampleScene = some { exampleScene with rigidBodies := final, T := T' } ∧
      rbs[0]? = some rb' ∧
      ((exampleBody ⟨99 / 100, 0, 0⟩ ⟨3, 0, 0⟩).linearVelocity_v.x > 0 → rb'.linearVelocity_v.x = -(exampleBody ⟨99 / 100, 0, 0⟩ ⟨3, 0, 0⟩).linearVelocity_v.x) ∧
      ((exampleBody ⟨99 / 100, 0, 0⟩ ⟨3, 0, 0⟩).linearVelocity_v.x ≤ 0 → rb'.linearVelocity_v.x = (exampleBody ⟨99 / 100, 0, 0⟩ ⟨3, 0, 0⟩).linearVelocity_v.x)) :=
  ⟨by decide, by decide, by simp [exampleScene, examplePixel], rfl,
    by norm_num [exampleBody],
    wall_reflection_x noContact exampleScene 2 2 0 (exampleBody ⟨99 / 100, 0, 0⟩ ⟨3, 0, 0⟩)
      (by decide) (by decide) (by simp [exampleScene, examplePixel]) rfl
      (by norm_num [exampleBody]) (fun _ _ _ _ => ⟨rfl, rfl⟩) (fun _ _ _ _ => rfl)⟩

end

/-! ## Orientation update -/

section
variable {α : Type} [LinearOrderedField α]

@[simp] theorem Quat.qadd_x (a b : Quat α) : (a + b).x = a.x + b.x := rfl
@[simp] theorem Quat.qadd_y (a b : Quat α) : (a + b).y = a.y + b.y := rfl
@[simp] theorem Quat.qadd_z (a b : Quat α) : (a + b).z = a.z + b.z := rfl
@[simp] theorem Quat.qadd_w (a b : Quat α) : (a + b).w = a.w + b.w := rfl
@[simp] theorem Quat.qsmul_x (k : α) (a : Quat α) : (k * a).x = k * a.x := rfl
@[simp] theorem Quat.qsmul_y (k : α) (a : Quat α) : (k * a).y = k * a.y := rfl
@[simp] theorem Quat.qsmul_z (k : α) (a : Quat α) : (k * a).z = k * a.z := rfl
@[simp] theorem Quat.qsmul_w (k : α) (a : Quat α) : (k * a).w = k * a.w := rfl
@[simp] theorem Quat.qdiv_x (a : Quat α) (k : α) : (a / k).x = a.x / k := rfl
@[simp] theorem Quat.qdiv_y (a : Quat α) (k : α) : (a / k).y = a.y / k := rfl
@[simp] theorem Quat.qdiv_z (a : Quat α) (k : α) : (a / k).z = a.z / k := rfl
@[simp] theorem Quat.qdiv_w (a : Quat α) (k : α) : (a / k).w = a.w / k := rfl

theorem Quat.mul_def (a b : Quat α) : a * b = Quat.mul a b := rfl

/-- The squared norm after the explicit orientation step: the cross term vanishes because
the angular-velocity quaternion has real part 0. -/
theorem normSq_orientation_step (dt : α) (w : Vec3 α) (r : Quat α) :
    (r + (dt / 2) * ((⟨w.x, w.y, w.z, 0⟩ : Quat α) * r)).normSq =
      r.normSq * (1 + (dt / 2) ^ 2 * (w.x * w.x + w.y * w.y + w.z * w.z)) := by
  simp only [Quat.normSq, Quat.mul_def, Quat.mul, Quat.qadd_x, Quat.qadd_y, Quat.qadd_z,
    Quat.qadd_w, Quat.qsmul_x, Quat.qsmul_y, Quat.qsmul_z, Quat.qsmul_w]
  ring

theorem normSq_div (q : Quat α) (n : α) : (q / n).normSq = q.normSq / (n * n) := by
  simp only [Quat.normSq, Quat.qdiv_x, Quat.qdiv_y, Quat.qdiv_z, Quat.qdiv_w]
  by_cases hn : n = 0
  · simp [hn]
  · field_simp

theorem integrateBody_orientation (fw : Framework α) (dt : α) (body : RigidBody α) :
    (integrateBody fw dt body).orientation_r =
      normalzeQuat fw (body.orientation_r
        + (dt / 2) * (body.getAngularVelocityQuat * body.orientation_r)) := rfl

theorem normalzeQuat_pos (fw : Framework α) (q : Quat α) (h : 0 < q.norm fw) :
    normalzeQuat fw q = q / q.norm fw := by
  simp [normalzeQuat, h]

/-- C11: for a body whose orientation has norm 1 (the square root being the real one), any
angular velocity and any `dt`, the quaternion `orientation + (dt/2) * (angularVelocityQuat
* orientation)` has a positive norm, so `normalzeQuat` divides by it, and the orientation
after the integration step of `simulateTimestep_RB` has norm exactly 1. -/
theorem orientation_stays_unit (fw : Framework α) (dt : α) (body : RigidBody α)
    (hsqrt : ∀ x : α, 0 ≤ x → 0 ≤ fw.sqrt x ∧ fw.sqrt x * fw.sqrt x = x)
    (hunit : body.orientation_r.norm fw = 1) :
    ∃ q : Quat α,
      q = body.orientation_r + (dt / 2) * (body.getAngularVelocityQuat * body.orientation_r) ∧
      0 < q.norm fw ∧ q ≠ ⟨0, 0, 0, 0⟩ ∧
      (integrateBody fw dt body).orientation_r = q / q.norm fw ∧
      (integrateBody fw dt body).orientation_r.norm fw = 1 := by
  have hr0 : 0 ≤ body.orientation_r.normSq := by
    unfold Quat.normSq
    nlinarith [mul_self_nonneg body.orientation_r.x, mul_self_nonneg body.orientation_r.y,
      mul_self_nonneg body.orientation_r.z, mul_self_nonneg body.orientation_r.w]
  have hr1 : body.orientation_r.normSq = 1 := by
    have h := (hsqrt _ hr0).2
    unfold Quat.norm at hunit
    rw [hunit] at h
    rw [← h]; ring
  have hs : (body.orientation_r
      + (dt / 2) * (body.getAngularVelocityQuat * body.orientation_r)).normSq =
      1 + (dt / 2) ^ 2 * (body.angularVelocity_w.x * body.angularVelocity_w.x
        + body.angularVelocity_w.y * body.angularVelocity_w.y
        + body.angularVelocity_w.z * body.angularVelocity_w.z) := by
    unfold RigidBody.getAngularVelocityQuat
    rw [normSq_orientation_step, hr1, one_mul]
  have hs1 : 1 ≤ (body.orientation_r
      + (dt / 2) * (body.getAngularVelocityQuat * body.orientation_r)).normSq := by
    rw [hs]
    nlinarith [mul_nonneg (sq_nonneg (dt / 2)) (add_nonneg (add_nonneg
      (mul_self_nonneg body.angularVelocity_w.x) (mul_self_nonneg body.angularVelocity_w.y))
      (mul_self_nonneg body.angularVelocity_w.z))]
  obtain ⟨hn0, hn2⟩ := hsqrt _ (le_trans zero_le_one hs1)
  have hnpos : 0 < fw.sqrt (body.orientation_r
      + (dt / 2) * (body.getAngularVelocityQuat * body.orientation_r)).normSq := by
    rcases eq_or_lt_of_le hn0 with h | h
    · rw [← h] at hn2
      linarith
    · exact h
  have hsqrt1 : fw.sqrt 1 = 1 := by
    obtain ⟨a, b⟩ := hsqrt 1 zero_le_one
    nlinarith
  refine ⟨_, rfl, hnpos, ?_, ?_, ?_⟩
  · intro h0
    rw [h0] at hs1
    simp [Quat.normSq] at hs1
    linarith
  · rw [integrateBody_orientation, normalzeQuat_pos fw _ hnpos]
  · rw [integrateBody_orientation, normalzeQuat_pos fw _ hnpos]
    unfold Quat.norm
    rw [normSq_div, hn2, div_self (by linarith), hsqrt1]

theorem orientation_stays_unit_witness :
    (∀ x : ℝ, 0 ≤ x → 0 ≤ (⟨fun _ _ => ⟨false, 0, 0⟩, fun _ => 1, Real.sqrt⟩ : Framework ℝ).sqrt x ∧ (⟨fun _ _ => ⟨false, 0, 0⟩, fun _ => 1, Real.sqrt⟩ : Framework ℝ).sqrt x * (⟨fun _ _ => ⟨false, 0, 0⟩, fun _ => 1, Real.sqrt⟩ : Framework ℝ).sqrt x = x) ∧
    (spinningBody (⟨3, 0, 4⟩ : Vec3 ℝ)).orientation_r.norm (⟨fun _ _ => ⟨false, 0, 0⟩, fun _ => 1, Real.sqrt⟩ : Framework ℝ) = 1 ∧
    ∃ q : Quat ℝ,
      q = (spinningBody (⟨3, 0, 4⟩ : Vec3 ℝ)).orientation_r
        + ((1 / 60 : ℝ) / 2) * ((spinningBody (⟨3, 0, 4⟩ : Vec3 ℝ)).getAngularVelocityQuat * (spinningBody (⟨3, 0, 4⟩ : Vec3 ℝ)).orientation_r) ∧
      0 < q.norm (⟨fun _ _ => ⟨false, 0, 0⟩, fun _ => 1, Real.sqrt⟩ : Framework ℝ) ∧ q ≠ ⟨0, 0, 0, 0⟩ ∧
      (integrateBody (⟨fun _ _ => ⟨false, 0, 0⟩, fun _ => 1, Real.sqrt⟩ : Framework ℝ) (1 / 60) (spinningBody (⟨3, 0, 4⟩ : Vec3 ℝ))).orientation_r = q / q.norm (⟨fun _ _ => ⟨false, 0, 0⟩, fun _ => 1, Real.sqrt⟩ : Framework ℝ) ∧
      (integrateBody (⟨fun _ _ => ⟨false, 0, 0⟩, fun _ => 1, Real.sqrt⟩ : Framework ℝ) (1 / 60) (spinningBody (⟨3, 0, 4⟩ : Vec3 ℝ))).orientation_r.norm (⟨fun _ _ => ⟨false, 0, 0⟩, fun _ => 1, Real.sqrt⟩ : Framework ℝ) = 1 :=
  ⟨fun x hx => ⟨Real.sqrt_nonneg x, Real.mul_self_sqrt hx⟩,
    by simp [Quat.norm, Quat.normSq, spinningBody, RigidBody.new, RigidBody.initInverse_I_0],
    orientation_stays_unit (⟨fun _ _ => ⟨false, 0, 0⟩, fun _ => 1, Real.sqrt⟩ : Framework ℝ) (1 / 60) (spinningBody (⟨3, 0, 4⟩ : Vec3 ℝ))
      (fun x hx => ⟨Real.sqrt_nonneg x, Real.mul_self_sqrt hx⟩)
      (by simp [Quat.norm, Quat.normSq, spinningBody, RigidBody.new,
        RigidBody.initInverse_I_0])⟩

/-! ## The inverse inertia tensor -/

theorem initFromArray_diag (a b c d : α) :
    Mat4.initFromArray [a, 0, 0, 0, 0, b, 0, 0, 0, 0, c, 0, 0, 0, 0, d] =
      Matrix.diagonal ![a, b, c, d] := by
  ext i j
  fin_cases i <;> fin_cases j <;> simp [Mat4.initFromArray, Matrix.diagonal]

theorem inverse_diag (a b c : α) (ha : a ≠ 0) (hb : b ≠ 0) (hc : c ≠ 0) :
    Mat4.inverse (Matrix.diagonal ![a, b, c, 1]) = Matrix.diagonal ![1 / a, 1 / b, 1 / c, 1] := by
  have e : Mat4.inverse (Matrix.diagonal ![a, b, c, 1]) =
      (Matrix.diagonal ![a, b, c, 1] : Matrix (Fin 4) (Fin 4) α)⁻¹ := by
    simp [Mat4.inverse, Matrix.inv_def, Ring.inverse_eq_inv']
  rw [e]
  apply Matrix.inv_eq_right_inv
  have hfun : (fun i => ![a, b, c, 1] i * ![1 / a, 1 / b, 1 / c, 1] i) = fun _ => (1 : α) := by
    funext i
    fin_cases i <;> simp [ha, hb, hc]
  rw [Matrix.diagonal_mul_diagonal, hfun, Matrix.diagonal_one]

/-- C12: for a body of mass `m` and size `(w, h, d)` whose three moments
`I11 = m/12*(h^2 + d^2)`, `I22 = m/12*(w^2 + h^2)`, `I33 = m/12*(w^2 + d^2)` are not zero,
the constructor stores `diag(1/I11, 1/I22, 1/I33, 1)` as the body-local inverse inertia
tensor; for the unit-mass cube of side 1 the three moments are 1/6. -/
theorem inverse_inertia_cached (position_x : Vec3 α) (orientation_r : Quat α)
    (size : Vec3 α) (m : α)
    (h1 : m / 12 * (size.y ^ 2 + size.z ^ 2) ≠ 0)
    (h2 : m / 12 * (size.x ^ 2 + size.y ^ 2) ≠ 0)
    (h3 : m / 12 * (size.x ^ 2 + size.z ^ 2) ≠ 0) :
    inertiaMoments size m = (m / 12 * (size.y ^ 2 + size.z ^ 2),
      m / 12 * (size.x ^ 2 + size.y ^ 2), m / 12 * (size.x ^ 2 + size.z ^ 2)) ∧
    (RigidBody.new position_x orientation_r size m).Inverse_I_0 =
      Matrix.diagonal ![1 / (m / 12 * (size.y ^ 2 + size.z ^ 2)),
        1 / (m / 12 * (size.x ^ 2 + size.y ^ 2)),
        1 / (m / 12 * (size.x ^ 2 + size.z ^ 2)), 1] ∧
    inertiaMoments (⟨1, 1, 1⟩ : Vec3 α) 1 = (1 / 6, 1 / 6, 1 / 6) := by
  refine ⟨rfl, ?_, ?_⟩
  · show Mat4.inverse (Mat4.initFromArray _) = _
    simp only [inertiaMoments]
    rw [initFromArray_diag, inverse_diag _ _ _ h1 h2 h3]
  · simp only [inertiaMoments, Prod.mk.injEq]
    norm_num

theorem inverse_inertia_cached_witness :
    (1 : ℚ) / 12 * ((1 : ℚ) ^ 2 + (1 : ℚ) ^ 2) ≠ 0 ∧
    (inertiaMoments (⟨1, 1, 1⟩ : Vec3 ℚ) 1 = ((1 : ℚ) / 12 * ((1 : ℚ) ^ 2 + (1 : ℚ) ^ 2),
      (1 : ℚ) / 12 * ((1 : ℚ) ^ 2 + (1 : ℚ) ^ 2), (1 : ℚ) / 12 * ((1 : ℚ) ^ 2 + (1 : ℚ) ^ 2)) ∧
    (RigidBody.new (⟨0, 0, 0⟩ : Vec3 ℚ) ⟨0, 0, 0, 1⟩ ⟨1, 1, 1⟩ 1).Inverse_I_0 =
      Matrix.diagonal ![1 / ((1 : ℚ) / 12 * ((1 : ℚ) ^ 2 + (1 : ℚ) ^ 2)),
        1 / ((1 : ℚ) / 12 * ((1 : ℚ) ^ 2 + (1 : ℚ) ^ 2)),
        1 / ((1 : ℚ) / 12 * ((1 : ℚ) ^ 2 + (1 : ℚ) ^ 2)), 1] ∧
    inertiaMoments (⟨1, 1, 1⟩ : Vec3 ℚ) 1 = (1 / 6, 1 / 6, 1 / 6)) :=
  ⟨by norm_num,
    inverse_inertia_cached (⟨0, 0, 0⟩ : Vec3 ℚ) ⟨0, 0, 0, 1⟩ ⟨1, 1, 1⟩ 1
      (by norm_num) (by norm_num) (by norm_num)⟩

/-! ## Integration step, force lists and restitution -/

@[simp] theorem Vec3.zero_x : (0 : Vec3 α).x = 0 := rfl
@[simp] theorem Vec3.zero_y : (0 : Vec3 α).y = 0 := rfl
@[simp] theorem Vec3.zero_z : (0 : Vec3 α).z = 0 := rfl

theorem foldl_add_eq_vecSum {β : Type} (f : β → Vec3 α) (l : List β) (a : Vec3 α) :
    l.foldl (fun out e => out + f e) a = a + vecSum (l.map f) := by
  induction l generalizing a with
  | nil => ext <;> simp [vecSum]
  | cons b rest ih =>
    rw [List.foldl_cons, ih]
    ext <;> simp [vecSum] <;> ring

/-- C13: the loop body of `simulateTimestep_RB` gives `position' = position + dt*v`,
`v' = v + dt*(sum of the pending forces)/mass` with the old `v`,
`L' = L + dt*(sum of cross(point - position', force))`, the re-normalised orientation
`q'`, and `angularVelocity' = (R(q') * I0⁻¹ * R(q')ᵀ)` applied to `L'`. -/
theorem integration_step (fw : Framework α) (dt : α) (body : RigidBody α) :
    (integrateBody fw dt body).position_x = body.position_x + dt * body.linearVelocity_v ∧
    (integrateBody fw dt body).linearVelocity_v = body.linearVelocity_v
      + (dt * vecSum (body.externalForces.map (fun f => f.force))) / body.mass_m ∧
    (integrateBody fw dt body).angularMomentum_L = body.angularMomentum_L
      + dt * vecSum (body.externalForces.map
          (fun f => cross (f.position - (integrateBody fw dt body).position_x) f.force)) ∧
    (integrateBody fw dt body).orientation_r = normalzeQuat fw (body.orientation_r
      + (dt / 2) * (body.getAngularVelocityQuat * body.orientation_r)) ∧
    (integrateBody fw dt body).angularVelocity_w =
      Mat4.transformVector
        (fw.getRotMat (integrateBody fw dt body).orientation_r * body.Inverse_I_0
          * (fw.getRotMat (integrateBody fw dt body).orientation_r).transpose)
        (integrateBody fw dt body).angularMomentum_L := by
  refine ⟨rfl, ?_, ?_, rfl, rfl⟩
  · show body.linearVelocity_v + dt * (List.foldl _ 0 body.externalForces / body.mass_m) = _
    rw [foldl_add_eq_vecSum]
    ext <;> simp <;> ring
  · show body.angularMomentum_L + List.foldl (fun out (eForce : ExternalForce α) =>
        out + eForce.convertToTorque (integrateBody fw dt body).position_x) 0
        body.externalForces * dt = _
    rw [foldl_add_eq_vecSum (fun f : ExternalForce α =>
      f.convertToTorque (integrateBody fw dt body).position_x)]
    ext <;> simp [ExternalForce.convertToTorque] <;> ring

/-- C16: if the SAT test reports no overlap, `handleOneCollision` leaves both bodies as
they are (pending forces included); if it reports overlap, both pending-force lists are
empty afterwards, whether or not an impulse is applied. -/
theorem collision_clears_forces (fw : Framework α) (A B : RigidBody α) :
    if (fw.checkCollisionSAT (A.getObject2WorldMatrix fw)
        (B.getObject2WorldMatrix fw)).isValid = true then
      (handleOneCollision fw A B).1.externalForces = [] ∧
      (handleOneCollision fw A B).2.externalForces = []
    else handleOneCollision fw A B = (A, B) := by
  rcases hinfo : fw.checkCollisionSAT (A.getObject2WorldMatrix fw)
    (B.getObject2WorldMatrix fw) with ⟨valid, c, n⟩
  cases valid with
  | false =>
    rw [if_neg (by simp)]
    exact handleOneCollision_invalid fw A B (by rw [hinfo])
  | true =>
    rw [if_pos rfl]
    by_cases hrel : dot (A.getTotalVelocityAtLocalPositiion (c - A.position_x)
        - B.getTotalVelocityAtLocalPositiion (c - B.position_x)) n > 0
    · rw [handleOneCollision_separating fw A B n c hinfo hrel]
      exact ⟨rfl, rfl⟩
    · rw [handleOneCollision_impulse_eq fw A B n c hinfo (not_lt.mp hrel)]
      exact ⟨rfl, rfl⟩

theorem restitution_identity (MA MB : Mat4 α) (a0 : MA 3 0 = 0) (a1 : MA 3 1 = 0)
    (a2 : MA 3 2 = 0) (b0 : MB 3 0 = 0) (b1 : MB 3 1 = 0) (b2 : MB 3 2 = 0)
    (vA wA xa vB wB xb n LA LB : Vec3 α) (mA mB J : α) :
    dot (((vA + (J * n) / mA) + cross (wA + MA.transformVector
          ((LA + cross xa (J * n)) - LA)) xa)
        - ((vB - (J * n) / mB) + cross (wB + MB.transformVector
          ((LB - cross xb (J * n)) - LB)) xb)) n
    = dot ((vA + cross wA xa) - (vB + cross wB xb)) n
      + J * (dot n n * (1 / mA + 1 / mB)
        + dot (cross (MA.transformVector (cross xa n)) xa
          + cross (MB.transformVector (cross xb n)) xb) n) := by
  simp only [dot, cross, Mat4.transformVector, Vec3.add_x, Vec3.add_y, Vec3.add_z,
    Vec3.sub_x, Vec3.sub_y, Vec3.sub_z, Vec3.smul_x, Vec3.smul_y, Vec3.smul_z, Vec3.div_x,
    Vec3.div_y, Vec3.div_z, a0, a1, a2, b0, b1, b2, add_zero]
  ring

/-- C20: for an overlapping pair with unit normal `n`, non-zero masses, a non-zero impulse
denominator and `v_rel·n ≤ 0`, whose world inverse inertia tensors are linear maps (no
translation row): if each angular velocity is updated by the tensor applied to the change
of angular momentum, the relative contact-point velocity along `n` after
`handleOneCollision` is `-0.7` times the one before. -/
theorem restitution_law (fw : Framework α) (A B : RigidBody α) (n c : Vec3 α)
    (hsat : fw.checkCollisionSAT (A.getObject2WorldMatrix fw) (B.getObject2WorldMatrix fw)
      = ⟨true, c, n⟩)
    (hn : dot n n = 1) (hmA : A.mass_m ≠ 0) (hmB : B.mass_m ≠ 0)
    (hden : 1 / A.mass_m + 1 / B.mass_m + dot
      (cross ((A.getInverseInertiaTensorRotated fw).transformVector
          (cross (c - A.position_x) n)) (c - A.position_x)
        + cross ((B.getInverseInertiaTensorRotated fw).transformVector
          (cross (c - B.position_x) n)) (c - B.position_x)) n ≠ 0)
    (hrel : dot (A.getTotalVelocityAtLocalPositiion (c - A.position_x)
      - B.getTotalVelocityAtLocalPositiion (c - B.position_x)) n ≤ 0)
    (hlinA : (A.getInverseInertiaTensorRotated fw) 3 0 = 0 ∧
      (A.getInverseInertiaTensorRotated fw) 3 1 = 0 ∧
      (A.getInverseInertiaTensorRotated fw) 3 2 = 0)
    (hlinB : (B.getInverseInertiaTensorRotated fw) 3 0 = 0 ∧
      (B.getInverseInertiaTensorRotated fw) 3 1 = 0 ∧
      (B.getInverseInertiaTensorRotated fw) 3 2 = 0) :
    dot
      (((handleOneCollision fw A B).1.linearVelocity_v
          + cross (A.angularVelocity_w + (A.getInverseInertiaTensorRotated fw).transformVector
              ((handleOneCollision fw A B).1.angularMomentum_L - A.angularMomentum_L))
            (c - A.position_x))
        - ((handleOneCollision fw A B).2.linearVelocity_v
          + cross (B.angularVelocity_w + (B.getInverseInertiaTensorRotated fw).transformVector
              ((handleOneCollision fw A B).2.angularMomentum_L - B.angularMomentum_L))
            (c - B.position_x))) n
    = -(7 / 10) * dot (A.getTotalVelocityAtLocalPositiion (c - A.position_x)
      - B.getTotalVelocityAtLocalPositiion (c - B.position_x)) n := by
  obtain ⟨a0, a1, a2⟩ := hlinA
  obtain ⟨b0, b1, b2⟩ := hlinB
  rw [handleOneCollision_impulse_eq fw A B n c hsat hrel]
  dsimp only
  generalize hJ : -(1 + 7 / 10) * dot (A.getTotalVelocityAtLocalPositiion (c - A.position_x)
      - B.getTotalVelocityAtLocalPositiion (c - B.position_x)) n /
    (1 / A.mass_m + 1 / B.mass_m + dot
      (cross ((A.getInverseInertiaTensorRotated fw).transformVector
          (cross (c - A.position_x) n)) (c - A.position_x)
        + cross ((B.getInverseInertiaTensorRotated fw).transformVector
          (cross (c - B.position_x) n)) (c - B.position_x)) n) = J
  rw [restitution_identity _ _ a0 a1 a2 b0 b1 b2, hn, one_mul]
  have hJD : J * (1 / A.mass_m + 1 / B.mass_m + dot
      (cross ((A.getInverseInertiaTensorRotated fw).transformVector
          (cross (c - A.position_x) n)) (c - A.position_x)
        + cross ((B.getInverseInertiaTensorRotated fw).transformVector
          (cross (c - B.position_x) n)) (c - B.position_x)) n) =
      -(1 + 7 / 10) * dot (A.getTotalVelocityAtLocalPositiion (c - A.position_x)
        - B.getTotalVelocityAtLocalPositiion (c - B.position_x)) n := by
    rw [← hJ, div_mul_cancel₀ _ hden]
  rw [hJD]
  unfold RigidBody.getTotalVelocityAtLocalPositiion
  ring

theorem restitution_law_witness :
    (exampleFramework exampleInfo).checkCollisionSAT
        (exampleA.getObject2WorldMatrix (exampleFramework exampleInfo))
        (exampleB.getObject2WorldMatrix (exampleFramework exampleInfo))
      = ⟨true, exampleInfo.collisionPointWorld, exampleInfo.normalWorld⟩ ∧
    dot exampleInfo.normalWorld exampleInfo.normalWorld = 1 ∧
    exampleA.mass_m ≠ 0 ∧ exampleB.mass_m ≠ 0 ∧
    dot (exampleA.getTotalVelocityAtLocalPositiion
        (exampleInfo.collisionPointWorld - exampleA.position_x)
      - exampleB.getTotalVelocityAtLocalPositiion
        (exampleInfo.collisionPointWorld - exampleB.position_x)) exampleInfo.normalWorld ≤ 0 ∧
    dot
      (((handleOneCollision (exampleFramework exampleInfo) exampleA exampleB).1.linearVelocity_v
          + cross (exampleA.angularVelocity_w
              + (exampleA.getInverseInertiaTensorRotated
                  (exampleFramework exampleInfo)).transformVector
                ((handleOneCollision (exampleFramework exampleInfo) exampleA
                  exampleB).1.angularMomentum_L - exampleA.angularMomentum_L))
            (exampleInfo.collisionPointWorld - exampleA.position_x))
        - ((handleOneCollision (exampleFramework exampleInfo) exampleA
              exampleB).2.linearVelocity_v
          + cross (exampleB.angularVelocity_w
              + (exampleB.getInverseInertiaTensorRotated
                  (exampleFramework exampleInfo)).transformVector
                ((handleOneCollision (exampleFramework exampleInfo) exampleA
                  exampleB).2.angularMomentum_L - exampleB.angularMomentum_L))
            (exampleInfo.collisionPointWorld - exampleB.position_x)))
      exampleInfo.normalWorld
    = -(7 / 10) * dot (exampleA.getTotalVelocityAtLocalPositiion
        (exampleInfo.collisionPointWorld - exampleA.position_x)
      - exampleB.getTotalVelocityAtLocalPositiion
        (exampleInfo.collisionPointWorld - exampleB.position_x)) exampleInfo.normalWorld :=
  ⟨rfl, by decide!, by decide!, by decide!, by decide!,
    restitution_law (exampleFramework exampleInfo) exampleA exampleB
      exampleInfo.normalWorld exampleInfo.collisionPointWorld rfl (by decide!) (by decide!)
      (by decide!) (by decide!) (by decide!) (by decide!) (by decide!)⟩

end

/-! ## Order of the phases of a timestep -/

/-- C14, as stated, fails: in the 3 x 3 example scene, where the falling body hits the
water in this timestep, `simulateTimestep` leaves 2/5 in the centre cell (the deposit, not
yet seen by the PDE step), while the phases in the order collisions, integration, PDE step
leave 999/1250 there. -/
theorem timestep_order_differs :
    (simulateTimestep (exampleFramework exampleInfo) (1 / 60) splashScene).bind
        (fun s => s.T.get 1 1) = some (2 / 5) ∧
    (phasesCollideIntegratePde (exampleFramework exampleInfo) (1 / 60) splashScene).bind
        (fun s => s.T.get 1 1) = some (999 / 1250) ∧
    simulateTimestep (exampleFramework exampleInfo) (1 / 60) splashScene ≠
      phasesCollideIntegratePde (exampleFramework exampleInfo) (1 / 60) splashScene := by
  have h1 : (simulateTimestep (exampleFramework exampleInfo) (1 / 60) splashScene).bind
      (fun s => s.T.get 1 1) = some (2 / 5) := by decide!
  have h2 : (phasesCollideIntegratePde (exampleFramework exampleInfo) (1 / 60)
      splashScene).bind (fun s => s.T.get 1 1) = some (999 / 1250) := by decide!
  refine ⟨h1, h2, ?_⟩
  intro h
  rw [h, h2] at h1
  revert h1
  decide!

section
variable {α : Type} [LinearOrderedField α] [FloorRing α]

/-- C14, amended: `simulateTimestep(dt)` yields the same state as running the phases in
the order PDE step, then collision detection and resolution, then rigid-body
integration. -/
theorem timestep_order (fw : Framework α) (dt : α) (sim : DiffusionSimulator α) :
    simulateTimestep fw dt sim = phasesPdeCollideIntegrate fw dt sim := by
  unfold simulateTimestep phasesPdeCollideIntegrate simulateTimestep_RB
  rfl

/-! ## The water phase -/

/-- With the pixel of the cell `(i, j)` stored at the index `i * C + j`,
`getProjectedPixels` does not fail and returns pixels of cells of the grid, each cell at
most once. -/
theorem getProjectedPixels_cells (sim : DiffusionSimulator α) (R C : Int) (p : Vec3 α)
    (hS : sim.T.Shape R C)
    (hpix : ∀ i j, 0 ≤ i → i < R → 0 ≤ j → j < C →
      ∃ gp, vecAt sim.pixels (index i j C) = some gp ∧ gp.x = i ∧ gp.y = j) :
    ∃ gps, getProjectedPixels sim p = some gps ∧
      (∀ gp ∈ gps, 0 ≤ gp.x ∧ gp.x < R ∧ 0 ≤ gp.y ∧ gp.y < C) ∧
      (gps.map (fun gp => (gp.x, gp.y))).Nodup := by
  unfold getProjectedPixels
  split
  · exact ⟨[], rfl, by simp, by simp⟩
  · have key := forLoop2_inv
      (max 0 (toInt (((p.x - sim.grid_minX) / (sim.grid_maxX - sim.grid_minX))
        * (sim.T.cols : α)) - CULLING_PROJECTION_RADIUS / 2))
      (min sim.T.rows (toInt (((p.x - sim.grid_minX) / (sim.grid_maxX - sim.grid_minX))
        * (sim.T.cols : α)) + CULLING_PROJECTION_RADIUS / 2))
      (max 0 (toInt (((p.z - sim.grid_minZ) / (sim.grid_maxZ - sim.grid_minZ))
        * (sim.T.rows : α)) - CULLING_PROJECTION_RADIUS / 2))
      (min sim.T.cols (toInt (((p.z - sim.grid_minZ) / (sim.grid_maxZ - sim.grid_minZ))
        * (sim.T.rows : α)) + CULLING_PROJECTION_RADIUS / 2))
      (fun i j (out : List (GridPixel α)) =>
        (vecAt sim.pixels (index i j sim.T.cols)).bind (fun gp => some (out ++ [gp])))
      (fun i (out : List (GridPixel α)) =>
        forLoop (max 0 (toInt (((p.z - sim.grid_minZ) / (sim.grid_maxZ - sim.grid_minZ))
            * (sim.T.rows : α)) - CULLING_PROJECTION_RADIUS / 2))
          (min sim.T.cols (toInt (((p.z - sim.grid_minZ) / (sim.grid_maxZ - sim.grid_minZ))
            * (sim.T.rows : α)) + CULLING_PROJECTION_RADIUS / 2))
          (fun j (out : List (GridPixel α)) =>
            (vecAt sim.pixels (index i j sim.T.cols)).bind (fun gp => some (out ++ [gp])))
          out)
      (fun D (out : List (GridPixel α)) =>
        (∀ gp ∈ out, (gp.x, gp.y) ∈ D ∧ 0 ≤ gp.x ∧ gp.x < R ∧ 0 ≤ gp.y ∧ gp.y < C) ∧
        (out.map (fun gp => (gp.x, gp.y))).Nodup) ([] : List (GridPixel α))
      ⟨by simp, by simp⟩ (fun i D t _ => rfl)
      (by
        intro i j hi0 hi1 hj0 hj1 D out hD ⟨hmem, hnd⟩
        have a1 : 0 ≤ i := le_trans (le_max_left _ _) hi0
        have a2 : i < R := by
          have := lt_of_lt_of_le hi1 (min_le_left _ _)
          rw [hS.1] at this; exact this
        have a3 : 0 ≤ j := le_trans (le_max_left _ _) hj0
        have a4 : j < C := by
          have := lt_of_lt_of_le hj1 (min_le_left _ _)
          rw [hS.2.1] at this; exact this
        obtain ⟨gp, hgp, hx, hy⟩ := hpix i j a1 a2 a3 a4
        refine ⟨out ++ [gp], by simp [hS.2.1, hgp], ?_, ?_⟩
        · intro g hg
          rcases List.mem_append.mp hg with h | h
          · obtain ⟨m1, m2⟩ := hmem g h
            exact ⟨Set.mem_insert_of_mem _ m1, m2⟩
          · rw [List.mem_singleton.mp h, hx, hy]
            exact ⟨Set.mem_insert _ _, a1, a2, a3, a4⟩
        · rw [List.map_append, List.nodup_append]
          refine ⟨hnd, by simp, ?_⟩
          intro a ha hb
          simp only [List.map_cons, List.map_nil, List.mem_singleton] at hb
          obtain ⟨g, hg, hga⟩ := List.mem_map.mp ha
          have hmemD := (hmem g hg).1
          rw [hga, hb, hx, hy] at hmemD
          exact hD hmemD)
    obtain ⟨gps, e, hmem, hnd⟩ := key
    exact ⟨gps, e, fun gp h => (hmem gp h).2, hnd⟩

theorem waterPixel_hit (fw : Framework α) (rb : RigidBody α) (g : Bool) (gp : GridPixel α)
    (T : Grid α) (R C : Int) (hT : T.Shape R C)
    (hgp : 0 ≤ gp.x ∧ gp.x < R ∧ 0 ≤ gp.y ∧ gp.y < C) (h : waterHit fw rb gp = true) :
    ∃ T', waterPixel fw gp ({ rb with gridHit := g }, T)
        = some ({ rb with gridHit := true }, T') ∧ T'.Shape R C ∧
      T'.get gp.x gp.y = some (T.val gp.x gp.y
        + rb.mass_m * vec_length fw rb.linearVelocity_v * WATER_COLLISION_FACTOR) ∧
      ∀ i j, 0 ≤ j → j < C → (i, j) ≠ (gp.x, gp.y) → T'.get i j = T.get i j := by
  obtain ⟨T', e1, e2, e3, e4⟩ := Grid.set_spec (R := R) (C := C) (i := gp.x) (j := gp.y)
    (T.val gp.x gp.y + rb.mass_m * vec_length fw rb.linearVelocity_v *
      WATER_COLLISION_FACTOR) hT hgp.1 hgp.2.1 hgp.2.2.1 hgp.2.2.2
  have h' : (fw.checkCollisionSAT (rb.getObject2WorldMatrix fw)
      gp.getObject2WorldMatrix).isValid = true := h
  refine ⟨T', ?_, e2, e3, e4⟩
  simp only [waterPixel, RigidBody.getObject2WorldMatrix, Option.bind_eq_bind,
    Option.pure_def]
  simp only [RigidBody.getObject2WorldMatrix] at h'
  rw [if_pos h', Grid.get_eq_val hT hgp.1 hgp.2.1 hgp.2.2.1 hgp.2.2.2, Option.some_bind, e1,
    Option.some_bind]

theorem waterPixel_miss (fw : Framework α) (rb : RigidBody α) (g : Bool) (gp : GridPixel α)
    (T : Grid α) (h : waterHit fw rb gp = false) :
    waterPixel fw gp ({ rb with gridHit := g }, T) = some ({ rb with gridHit := g }, T) := by
  have h' : (fw.checkCollisionSAT (rb.getObject2WorldMatrix fw)
      gp.getObject2WorldMatrix).isValid = false := h
  simp only [RigidBody.getObject2WorldMatrix] at h'
  simp only [waterPixel, RigidBody.getObject2WorldMatrix, h', Bool.false_eq_true, if_false]

/-- The loop over the projected pixels: every hit cell receives the deposit once, every
other cell keeps its value, and the body is flagged when a pixel is hit. -/
theorem forEach_water_full (fw : Framework α) (rb : RigidBody α) (R C : Int)
    (gps : List (GridPixel α))
    (hrange : ∀ gp ∈ gps, 0 ≤ gp.x ∧ gp.x < R ∧ 0 ≤ gp.y ∧ gp.y < C)
    (hnd : (gps.map (fun gp => (gp.x, gp.y))).Nodup)
    (g : Bool) (T : Grid α) (hT : T.Shape R C) :
    ∃ T', forEach gps (waterPixel fw) ({ rb with gridHit := g }, T)
        = some ({ rb with gridHit := g || gps.any (waterHit fw rb) }, T') ∧ T'.Shape R C ∧
      ∀ i j, 0 ≤ i → i < R → 0 ≤ j → j < C →
        ((∃ gp ∈ gps, gp.x = i ∧ gp.y = j ∧ waterHit fw rb gp = true) →
          T'.get i j = some (T.val i j
            + rb.mass_m * vec_length fw rb.linearVelocity_v * WATER_COLLISION_FACTOR)) ∧
        ((¬ ∃ gp ∈ gps, gp.x = i ∧ gp.y = j ∧ waterHit fw rb gp = true) →
          T'.get i j = T.get i j) := by
  induction gps generalizing g T with
  | nil =>
    refine ⟨T, by simp [forEach], hT, ?_⟩
    intro i j _ _ _ _
    exact ⟨fun ⟨gp, hgp, _⟩ => by simp at hgp, fun _ => rfl⟩
  | cons gp rest ih =>
    have hrest : ∀ g' ∈ rest, 0 ≤ g'.x ∧ g'.x < R ∧ 0 ≤ g'.y ∧ g'.y < C :=
      fun g' hg' => hrange g' (List.mem_cons_of_mem _ hg')
    rw [List.map_cons, List.nodup_cons] at hnd
    obtain ⟨hfresh, hnd'⟩ := hnd
    have hfresh' : ∀ g' ∈ rest, ¬ (g'.x = gp.x ∧ g'.y = gp.y) := by
      intro g' hg' hxy
      apply hfresh
      exact List.mem_map.mpr ⟨g', hg', by rw [hxy.1, hxy.2]⟩
    have hgpr := hrange gp (List.mem_cons_self _ _)
    by_cases hh : waterHit fw rb gp = true
    · obtain ⟨T1, e1, s1, v1, o1⟩ := waterPixel_hit fw rb g gp T R C hT hgpr hh
      obtain ⟨T', e2, s2, hcells⟩ := ih hrest hnd' true T1 s1
      refine ⟨T', ?_, s2, ?_⟩
      · rw [forEach, e1, Option.some_bind, e2]
        simp [hh]
      · intro i j hi hiR hj hjC
        obtain ⟨c1, c2⟩ := hcells i j hi hiR hj hjC
        by_cases hij : (i, j) = (gp.x, gp.y)
        · obtain ⟨ei, ej⟩ := Prod.mk.inj hij
          have hno : ¬ ∃ g' ∈ rest, g'.x = i ∧ g'.y = j ∧ waterHit fw rb g' = true := by
            rintro ⟨g', hg', hx, hy, -⟩
            exact hfresh' g' hg' ⟨by rw [hx, ei], by rw [hy, ej]⟩
          refine ⟨fun _ => ?_, fun hn => ?_⟩
          · rw [c2 hno, ei, ej]; exact v1
          · exact absurd ⟨gp, List.mem_cons_self _ _, ei.symm, ej.symm, hh⟩ hn
        · have hT1 : T1.get i j = T.get i j := o1 i j hj hjC hij
          have hval : T1.val i j = T.val i j := by simp [Grid.val, hT1]
          refine ⟨fun hex => ?_, fun hn => ?_⟩
          · obtain ⟨g', hg', hx, hy, hv⟩ := hex
            rcases List.mem_cons.mp hg' with h | h
            · exfalso; apply hij; rw [← hx, ← hy, h]
            · rw [c1 ⟨g', h, hx, hy, hv⟩, hval]
          · rw [c2 (fun ⟨g', hg', hr⟩ => hn ⟨g', List.mem_cons_of_mem _ hg', hr⟩), hT1]
    · have hh' : waterHit fw rb gp = false := by simpa using hh
      obtain ⟨T', e2, s2, hcells⟩ := ih hrest hnd' g T hT
      refine ⟨T', ?_, s2, ?_⟩
      · rw [forEach, waterPixel_miss fw rb g gp T hh', Option.some_bind, e2]
        simp [hh']
      · intro i j hi hiR hj hjC
        obtain ⟨c1, c2⟩ := hcells i j hi hiR hj hjC
        refine ⟨fun hex => ?_, fun hn => ?_⟩
        · obtain ⟨g', hg', hx, hy, hv⟩ := hex
          rcases List.mem_cons.mp hg' with h | h
          · rw [h, hh'] at hv; cases hv
          · exact c1 ⟨g', h, hx, hy, hv⟩
        · exact c2 (fun ⟨g', hg', hr⟩ => hn ⟨g', List.mem_cons_of_mem _ hg', hr⟩)

/-- C17: for an active body not yet flagged grid-hit, in a scene whose pixel of the cell
`(i, j)` is stored at the index `i * C + j`, the water phase returns; every grid cell of
its culling window for which SAT reports overlap has its value increased by
`0.4 * mass * |linearVelocity|`, every other cell keeps its value; if a cell is hit the
body is flagged grid-hit and the y-component of its velocity is decreased once by
`0.5 * |linearVelocity|`, nothing else changing; if no cell is hit, body and grid are
unchanged. -/
theorem water_phase_deposit (fw : Framework α) (sim : DiffusionSimulator α)
    (rb : RigidBody α) (T : Grid α) (R C : Int)
    (hT : T.Shape R C) (hS : sim.T.Shape R C)
    (hpix : ∀ i j, 0 ≤ i → i < R → 0 ≤ j → j < C →
      ∃ gp, vecAt sim.pixels (index i j C) = some gp ∧ gp.x = i ∧ gp.y = j)
    (hflag : rb.gridHit = false) :
    ∃ gps rb' T', getProjectedPixels sim rb.position_x = some gps ∧
      waterBody fw sim rb T = some (rb', T') ∧
      (∀ i j, 0 ≤ i → i < R → 0 ≤ j → j < C →
        ((∃ gp ∈ gps, gp.x = i ∧ gp.y = j ∧ waterHit fw rb gp = true) →
          T'.get i j = some (T.val i j
            + 4 / 10 * rb.mass_m * vec_length fw rb.linearVelocity_v)) ∧
        ((¬ ∃ gp ∈ gps, gp.x = i ∧ gp.y = j ∧ waterHit fw rb gp = true) →
          T'.get i j = some (T.val i j))) ∧
      ((∃ gp ∈ gps, waterHit fw rb gp = true) →
        rb' = { rb with
          gridHit := true
          linearVelocity_v := { rb.linearVelocity_v with
            y := rb.linearVelocity_v.y - 1 / 2 * vec_length fw rb.linearVelocity_v } }) ∧
      ((¬ ∃ gp ∈ gps, waterHit fw rb gp = true) → rb' = rb ∧ T' = T) := by
  obtain ⟨gps, egps, hrange, hnd⟩ := getProjectedPixels_cells sim R C rb.position_x hS hpix
  have hcongr := getProjectedPixels_congr sim T rb.position_x
    (hT.1.trans hS.1.symm) (hT.2.1.trans hS.2.1.symm)
  obtain ⟨T', e1, s1, hcells⟩ := forEach_water_full fw rb R C gps hrange hnd false T hT
  have hrb : ({ rb with gridHit := false } : RigidBody α) = rb := by
    rw [← hflag]
  rw [hrb] at e1
  have hg : ¬ rb.gridHit = true := by simp [hflag]
  have hrun : waterBody fw sim rb T =
      if (gps.any (waterHit fw rb)) = true then
        some ({ rb with
          gridHit := true
          linearVelocity_v := { rb.linearVelocity_v with
            y := rb.linearVelocity_v.y
              - vec_length fw rb.linearVelocity_v * WATER_COLLISION_DOWNSPEED } }, T')
      else some (rb, T') := by
    simp only [waterBody, hg, hcongr, egps, e1, Option.bind_eq_bind, Option.some_bind,
      Bool.false_eq_true, if_false, Option.pure_def, Bool.false_or]
    by_cases hany : gps.any (waterHit fw rb) = true
    · simp only [hany, if_true]
    · have hany' : gps.any (waterHit fw rb) = false := by simpa using hany
      simp only [hany', Bool.false_eq_true, if_false]
      rw [← hflag]
  have hanyiff : gps.any (waterHit fw rb) = true ↔ ∃ gp ∈ gps, waterHit fw rb gp = true := by
    simp [List.any_eq_true]
  have hcells' : ∀ i j, 0 ≤ i → i < R → 0 ≤ j → j < C →
      ((∃ gp ∈ gps, gp.x = i ∧ gp.y = j ∧ waterHit fw rb gp = true) →
        T'.get i j = some (T.val i j
          + 4 / 10 * rb.mass_m * vec_length fw rb.linearVelocity_v)) ∧
      ((¬ ∃ gp ∈ gps, gp.x = i ∧ gp.y = j ∧ waterHit fw rb gp = true) →
        T'.get i j = some (T.val i j)) := by
    intro i j hi hiR hj hjC
    obtain ⟨c1, c2⟩ := hcells i j hi hiR hj hjC
    refine ⟨fun h => ?_, fun h => ?_⟩
    · rw [c1 h]
      congr 1
      simp only [WATER_COLLISION_FACTOR]
      ring_nf
    · rw [c2 h]
      exact Grid.get_eq_val hT hi hiR hj hjC
  by_cases hany : gps.any (waterHit fw rb) = true
  · rw [if_pos hany] at hrun
    refine ⟨gps, _, T', egps, hrun, hcells', fun _ => ?_, fun hn => ?_⟩
    · congr 2
      simp only [WATER_COLLISION_DOWNSPEED]
      ring_nf
    · exact absurd (hanyiff.mp hany) hn
  · rw [if_neg hany] at hrun
    refine ⟨gps, rb, T', egps, hrun, hcells', fun hex => ?_, fun _ => ⟨rfl, ?_⟩⟩
    · exact absurd (hanyiff.mpr hex) hany
    · have hmiss : ∀ gp ∈ gps, (fw.checkCollisionSAT (rb.getObject2WorldMatrix fw)
          gp.getObject2WorldMatrix).isValid = false := by
        intro gp hgp
        by_contra hv
        exact hany (hanyiff.mpr ⟨gp, hgp, by simpa [waterHit] using hv⟩)
      have e2 := forEach_waterPixel_nohit fw gps (rb, T) hmiss
      rw [e2] at e1
      exact (congrArg Prod.snd (Option.some.inj e1)).symm

theorem water_phase_deposit_witness :
    splashScene.T.Shape 3 3 ∧
    (∀ i j : Int, 0 ≤ i → i < 3 → 0 ≤ j → j < 3 →
      ∃ gp, vecAt splashScene.pixels (index i j 3) = some gp ∧ gp.x = i ∧ gp.y = j) ∧
    (exampleBody ⟨0, 0, 0⟩ ⟨0, -1, 0⟩).gridHit = false ∧
    (∃ gps rb' T', getProjectedPixels splashScene (exampleBody ⟨0, 0, 0⟩ ⟨0, -1, 0⟩).position_x = some gps ∧
      waterBody (exampleFramework exampleInfo) splashScene (exampleBody ⟨0, 0, 0⟩ ⟨0, -1, 0⟩) splashScene.T = some (rb', T') ∧
      (∀ i j, 0 ≤ i → i < 3 → 0 ≤ j → j < 3 →
        ((∃ gp ∈ gps, gp.x = i ∧ gp.y = j ∧ waterHit (exampleFramework exampleInfo) (exampleBody ⟨0, 0, 0⟩ ⟨0, -1, 0⟩) gp = true) →
          T'.get i j = some (splashScene.T.val i j
            + 4 / 10 * (exampleBody ⟨0, 0, 0⟩ ⟨0, -1, 0⟩).mass_m * vec_length (exampleFramework exampleInfo) (exampleBody ⟨0, 0, 0⟩ ⟨0, -1, 0⟩).linearVelocity_v)) ∧
        ((¬ ∃ gp ∈ gps, gp.x = i ∧ gp.y = j ∧ waterHit (exampleFramework exampleInfo) (exampleBody ⟨0, 0, 0⟩ ⟨0, -1, 0⟩) gp = true) →
          T'.get i j = some (splashScene.T.val i j))) ∧
      ((∃ gp ∈ gps, waterHit (exampleFramework exampleInfo) (exampleBody ⟨0, 0, 0⟩ ⟨0, -1, 0⟩) gp = true) →
        rb' = { (exampleBody ⟨0, 0, 0⟩ ⟨0, -1, 0⟩) with
          gridHit := true
          linearVelocity_v := { (exampleBody ⟨0, 0, 0⟩ ⟨0, -1, 0⟩).linearVelocity_v with
            y := (exampleBody ⟨0, 0, 0⟩ ⟨0, -1, 0⟩).linearVelocity_v.y - 1 / 2 * vec_length (exampleFramework exampleInfo) (exampleBody ⟨0, 0, 0⟩ ⟨0, -1, 0⟩).linearVelocity_v } }) ∧
      ((¬ ∃ gp ∈ gps, waterHit (exampleFramework exampleInfo) (exampleBody ⟨0, 0, 0⟩ ⟨0, -1, 0⟩) gp = true) → rb' = (exampleBody ⟨0, 0, 0⟩ ⟨0, -1, 0⟩) ∧ T' = splashScene.T)) :=
  ⟨by decide,
    by
      intro i j h1 h2 h3 h4
      interval_cases i <;> interval_cases j <;> exact ⟨_, rfl, rfl, rfl⟩,
    rfl,
    water_phase_deposit (exampleFramework exampleInfo) splashScene
      (exampleBody ⟨0, 0, 0⟩ ⟨0, -1, 0⟩) splashScene.T 3 3 (by decide) (by decide)
      (by
        intro i j h1 h2 h3 h4
        interval_cases i <;> interval_cases j <;> exact ⟨_, rfl, rfl, rfl⟩)
      rfl⟩

/-! ## Removal of submerged bodies -/

theorem loopM_congr {σ : Type} (f g : Nat → σ → Option σ) (n : Nat) (s : σ)
    (h : ∀ k, k < n → ∀ t, f k t = g k t) : loopM f n s = loopM g n s := by
  induction n with
  | zero => rfl
  | succ m ih =>
    rw [loopM, loopM, ih (fun k hk => h k (Nat.lt_succ_of_lt hk))]
    cases loopM g m s with
    | none => rfl
    | some t => exact h m (Nat.lt_succ_self m) t

theorem eraseBodies_cons (l : List (RigidBody α)) (d : Int) (rest : List Int) :
    eraseBodies l (d :: rest) =
      (eraseBodies l rest).bind (fun acc => some (acc.eraseIdx d.toNat)) := by
  unfold eraseBodies
  rw [List.length_cons, loopM]
  have hlast : vecAt (d :: rest) 0 = some d := by simp [vecAt]
  rw [loopM_congr _ (fun k rbs =>
      (vecAt rest ((rest.length : Int) - 1 - (k : Int))).bind
        (fun d => pure (rbs.eraseIdx d.toNat))) rest.length l]
  · cases loopM _ rest.length l with
    | none => rfl
    | some t => simp [hlast]
  · intro k hk t
    have e : vecAt (d :: rest) (((rest.length + 1 : Nat) : Int) - 1 - (k : Int)) =
        vecAt rest ((rest.length : Int) - 1 - (k : Int)) := by
      have h1 : (0 : Int) ≤ ((rest.length + 1 : Nat) : Int) - 1 - (k : Int) := by
        push_cast; omega
      have h2 : (0 : Int) ≤ (rest.length : Int) - 1 - (k : Int) := by omega
      have h3 : (((rest.length + 1 : Nat) : Int) - 1 - (k : Int)).toNat =
          ((rest.length : Int) - 1 - (k : Int)).toNat + 1 := by
        push_cast; omega
      simp only [vecAt, h1, h2, if_true, h3, List.getElem?_cons_succ]
    simp only [e, Option.bind_eq_bind]

theorem eraseBodies_foldr (l : List (RigidBody α)) (del : List Int) :
    eraseBodies l del = some (del.foldr (fun d acc => acc.eraseIdx d.toNat) l) := by
  induction del with
  | nil => rfl
  | cons d rest ih => rw [eraseBodies_cons, ih]; rfl

theorem foldr_erase_marked (l pre : List (RigidBody α)) :
    (markedIndices l (pre.length : Int)).foldr (fun d acc => acc.eraseIdx d.toNat)
        (pre ++ l) = pre ++ l.filter (fun rb => !markedForRemoval rb) := by
  induction l generalizing pre with
  | nil => simp [markedIndices]
  | cons rb rest ih =>
    have hpre : ((pre ++ [rb]).length : Int) = (pre.length : Int) + 1 := by simp
    have hih := ih (pre ++ [rb])
    rw [hpre, List.append_assoc, List.singleton_append] at hih
    rw [markedIndices, List.foldr_append, hih]
    by_cases hm : markedForRemoval rb = true
    · simp only [hm, if_true, List.foldr_cons, List.foldr_nil, Int.toNat_ofNat,
        Bool.not_true, List.filter_cons_of_neg, Bool.false_eq_true, not_false_eq_true]
      rw [List.append_assoc, List.eraseIdx_append_of_length_le (le_refl _), Nat.sub_self]
      simp
    · have hm' : markedForRemoval rb = false := by simpa using hm
      simp [hm']

theorem eraseBodies_marked (l : List (RigidBody α)) :
    eraseBodies l (markedIndices l 0) = some (l.filter (fun rb => !markedForRemoval rb)) := by
  rw [eraseBodies_foldr]
  have h := foldr_erase_marked l []
  simp only [List.length_nil, Nat.cast_zero, List.nil_append] at h
  rw [h]

theorem markedIndices_append (l : List (RigidBody α)) (x : RigidBody α) (offset : Int) :
    markedIndices (l ++ [x]) offset =
      markedIndices l offset ++
        (if markedForRemoval x then [offset + (l.length : Int)] else []) := by
  induction l generalizing offset with
  | nil => simp [markedIndices]
  | cons b rest ih =>
    rw [List.cons_append, markedIndices, markedIndices, ih, List.append_assoc]
    have e : offset + 1 + (rest.length : Int) = offset + ((b :: rest).length : Int) := by
      rw [List.length_cons]; push_cast; ring
    rw [e]

/-- The third loop of `handleCollisions`: every body gets the five wall tests, and the
indices of the bodies to remove are collected in increasing order. -/
theorem wallLoop_full (rbs : List (RigidBody α)) :
    forLoop 0 (rbs.length : Int) wallStep (rbs, ([] : List Int)) =
      some (rbs.map wallBounce, markedIndices (rbs.map wallBounce) 0) := by
  have key := forLoop_inv 0 (rbs.length : Int) wallStep
    (fun i (st : List (RigidBody α) × List Int) => st.1.length = rbs.length ∧
      (∀ j : Nat, (j : Int) < i → st.1[j]? = (rbs[j]?).map wallBounce) ∧
      (∀ j : Nat, i ≤ (j : Int) → st.1[j]? = rbs[j]?) ∧
      st.2 = markedIndices ((rbs.map wallBounce).take i.toNat) 0) (rbs, [])
    ⟨rfl, fun j hj => by omega, fun j _ => rfl, by simp [markedIndices]⟩
    (by
      intro i hi0 hin st ⟨h1, h2, h3, h4⟩
      have hlt : i.toNat < rbs.length := by omega
      have e0 : st.1[i.toNat]? = some rbs[i.toNat] := by
        rw [h3 i.toNat (by omega), List.getElem?_eq_getElem hlt]
      have htake : (rbs.map wallBounce).take (i + 1).toNat =
          (rbs.map wallBounce).take i.toNat ++ [wallBounce rbs[i.toNat]] := by
        have e : (i + 1).toNat = i.toNat + 1 := by omega
        rw [e, List.take_succ, List.getElem?_map, List.getElem?_eq_getElem hlt]
        rfl
      have hlen : (((rbs.map wallBounce).take i.toNat).length : Int) = i := by
        rw [List.length_take, List.length_map, Nat.min_eq_left (le_of_lt hlt)]
        omega
      have hdel : markedIndices ((rbs.map wallBounce).take (i + 1).toNat) 0 =
          st.2 ++ (if markedForRemoval (wallBounce rbs[i.toNat]) then [i] else []) := by
        rw [htake, markedIndices_append, hlen, zero_add, ← h4]
      refine ⟨(st.1.set i.toNat (wallBounce rbs[i.toNat]),
        st.2 ++ (if markedForRemoval (wallBounce rbs[i.toNat]) then [i] else [])),
        ?_, by simpa using h1, ?_, ?_, hdel.symm⟩
      · unfold wallStep
        simp only [vecAt, vecSet, hi0, if_true, e0, Option.bind_eq_bind, Option.some_bind,
          h1, hlt, and_self, Option.pure_def]
        by_cases hm : (wallBounce rbs[i.toNat]).gridHit = true ∧
            (wallBounce rbs[i.toNat]).position_x.y + (wallBounce rbs[i.toNat]).size.y * (1 / 2)
              < WATER_ZERO_HEIGHT
        · have hm' : markedForRemoval (wallBounce rbs[i.toNat]) = true := by
            simpa [markedForRemoval] using hm
          rw [if_pos hm, hm']
          rfl
        · have hm' : markedForRemoval (wallBounce rbs[i.toNat]) = false := by
            simpa [markedForRemoval] using hm
          rw [if_neg hm, hm']
          simp
      · intro j hj
        by_cases hji : i.toNat = j
        · subst hji
          rw [List.getElem?_set_self (by omega), List.getElem?_eq_getElem hlt]
          rfl
        · rw [List.getElem?_set_ne hji]
          exact h2 j (by omega)
      · intro j hj
        rw [List.getElem?_set_ne (by omega)]
        exact h3 j (by omega))
  obtain ⟨st, e, h1, h2, -, h4⟩ := key
  rw [e]
  have hst1 : st.1 = rbs.map wallBounce := by
    apply List.ext_getElem?
    intro j
    rw [List.getElem?_map]
    by_cases hj : j < rbs.length
    · exact h2 j (by omega)
    · rw [List.getElem?_eq_none (by omega), List.getElem?_eq_none (by omega)]
      rfl
  have hst2 : st.2 = markedIndices (rbs.map wallBounce) 0 := by
    rw [h4]
    congr 1
    apply List.take_of_length_le
    simp
  rw [← hst1] at hst2
  rw [← hst1, ← hst2]

theorem handleOneCollisionAt_length (fw : Framework α) (l : List (RigidBody α))
    (i j : Nat) : (handleOneCollisionAt fw l i j).length = l.length := by
  unfold handleOneCollisionAt
  split
  · split <;> simp
  · rfl

theorem collideBodies_total (fw : Framework α) (rbs : List (RigidBody α)) :
    ∃ l, collideBodies fw rbs = some l ∧ l.length = rbs.length := by
  refine forLoop_preserve _ _ _ (fun l => l.length = rbs.length) rbs rfl ?_
  intro i _ _ l hl
  refine forLoop_preserve _ _ _ (fun l => l.length = rbs.length) l hl ?_
  intro j _ _ t ht
  exact ⟨_, rfl, (handleOneCollisionAt_length fw t i.toNat j.toNat).trans ht⟩

/-- C15, as stated, fails: a body flagged grid-hit with centre at `y = -1/2` and side 1/10
has its lower extent `-0.55` below the threshold `-0.5`, yet `handleCollisions` keeps
it. -/
theorem lower_extent_body_kept :
    ∃ rb : RigidBody ℚ, rb.gridHit = true ∧ rb.position_x.y - rb.size.y / 2 < -(1 / 2) ∧
      (handleCollisions noContact { exampleScene with rigidBodies := [rb] }).map
        (fun s => s.rigidBodies.length) = some 1 :=
  ⟨{ exampleBody ⟨0, -(1 / 2), 0⟩ ⟨0, -1, 0⟩ with gridHit := true }, rfl, by decide!,
    by decide!⟩

/-- C15, amended: in a scene with one pixel per grid cell `handleCollisions` returns, and
the active list afterwards is the list of the bodies as the pass leaves them, in their
order, without those that are flagged grid-hit and whose upper extent
`position.y + size.y/2` is below the threshold `-0.5` (erasing the collected indices in
descending order equals filtering the list). -/
theorem removal_is_filter (fw : Framework α) (sim : DiffusionSimulator α) (R C : Int)
    (hT : sim.T.Shape R C) (hlen : (sim.pixels.length : Int) = R * C)
    (hpix : ∀ gp ∈ sim.pixels, 0 ≤ gp.x ∧ gp.x < R ∧ 0 ≤ gp.y ∧ gp.y < C) :
    ∃ rbs del T', handleCollisionsUpdate fw sim = some (rbs, del, T') ∧
      rbs.length = sim.rigidBodies.length ∧
      eraseBodies rbs del = some (rbs.filter (fun rb =>
        !decide (rb.gridHit = true ∧ rb.position_x.y + rb.size.y / 2 < -(1 / 2)))) ∧
      handleCollisions fw sim = some { sim with
        rigidBodies := rbs.filter (fun rb =>
          !decide (rb.gridHit = true ∧ rb.position_x.y + rb.size.y / 2 < -(1 / 2)))
        T := T' } := by
  obtain ⟨l1, e1, hl1⟩ := collideBodies_total fw sim.rigidBodies
  obtain ⟨st2, e2, -, hl2, -⟩ := waterBodies_spec fw sim R C hT hlen hpix l1 sim.T hT
  have e3 := wallLoop_full st2.1
  have eU : handleCollisionsUpdate fw sim =
      some (st2.1.map wallBounce, markedIndices (st2.1.map wallBounce) 0, st2.2) := by
    simp [handleCollisionsUpdate, e1, e2, e3]
  have hfilter : (fun rb : RigidBody α => !markedForRemoval rb) = (fun rb =>
      !decide (rb.gridHit = true ∧ rb.position_x.y + rb.size.y / 2 < -(1 / 2))) := by
    funext rb
    simp only [markedForRemoval, WATER_ZERO_HEIGHT, mul_one_div]
  have e4 := eraseBodies_marked (st2.1.map wallBounce)
  rw [hfilter] at e4
  refine ⟨_, _, _, eU, by simp [hl2, hl1], e4, ?_⟩
  simp [handleCollisions, eU, e4]

theorem removal_is_filter_witness :
    exampleScene.T.Shape 2 2 ∧ (exampleScene.pixels.length : Int) = 2 * 2 ∧
    (∀ gp ∈ exampleScene.pixels, 0 ≤ gp.x ∧ gp.x < 2 ∧ 0 ≤ gp.y ∧ gp.y < 2) ∧
    (∃ rbs del T', handleCollisionsUpdate noContact exampleScene = some (rbs, del, T') ∧
      rbs.length = exampleScene.rigidBodies.length ∧
      eraseBodies rbs del = some (rbs.filter (fun rb =>
        !decide (rb.gridHit = true ∧ rb.position_x.y + rb.size.y / 2 < -(1 / 2)))) ∧
      handleCollisions noContact exampleScene = some { exampleScene with
        rigidBodies := rbs.filter (fun rb =>
          !decide (rb.gridHit = true ∧ rb.position_x.y + rb.size.y / 2 < -(1 / 2)))
        T := T' }) :=
  ⟨by decide, by decide, by simp [exampleScene, examplePixel],
    removal_is_filter noContact exampleScene 2 2 (by decide) (by decide)
      (by simp [exampleScene, examplePixel])⟩

/-! ## The grid-hit flag -/

theorem handleOneCollision_gridHit (fw : Framework α) (A B : RigidBody α) :
    (handleOneCollision fw A B).1.gridHit = A.gridHit ∧
    (handleOneCollision fw A B).2.gridHit = B.gridHit := by
  rcases hinfo : fw.checkCollisionSAT (A.getObject2WorldMatrix fw)
    (B.getObject2WorldMatrix fw) with ⟨valid, c, n⟩
  cases valid with
  | false =>
    rw [handleOneCollision_invalid fw A B (by rw [hinfo])]
    exact ⟨rfl, rfl⟩
  | true =>
    by_cases hrel : dot (A.getTotalVelocityAtLocalPositiion (c - A.position_x)
        - B.getTotalVelocityAtLocalPositiion (c - B.position_x)) n > 0
    · rw [handleOneCollision_separating fw A B n c hinfo hrel]
      exact ⟨rfl, rfl⟩
    · rw [handleOneCollision_impulse_eq fw A B n c hinfo (not_lt.mp hrel)]
      exact ⟨rfl, rfl⟩

theorem handleOneCollisionAt_gridHit (fw : Framework α) (l : List (RigidBody α))
    (i j k : Nat) :
    ((handleOneCollisionAt fw l i j)[k]?).map (fun b => b.gridHit) =
      (l[k]?).map (fun b => b.gridHit) := by
  unfold handleOneCollisionAt
  rcases hA : l[i]? with _ | A
  · rfl
  rcases hB : l[j]? with _ | B
  · rfl
  by_cases hij : i = j
  · simp [hij]
  simp only [hij, if_false]
  obtain ⟨g1, g2⟩ := handleOneCollision_gridHit fw A B
  have hi : i < l.length := by
    by_contra h
    rw [List.getElem?_eq_none (by omega)] at hA
    cases hA
  have hj : j < l.length := by
    by_contra h
    rw [List.getElem?_eq_none (by omega)] at hB
    cases hB
  by_cases hkj : j = k
  · subst hkj
    rw [List.getElem?_set_self (by simpa using hj), hB]
    simp [g2]
  · rw [List.getElem?_set_ne hkj]
    by_cases hki : i = k
    · subst hki
      rw [List.getElem?_set_self hi, hA]
      simp [g1]
    · rw [List.getElem?_set_ne hki]

theorem collideBodies_gridHit (fw : Framework α) (rbs : List (RigidBody α)) :
    ∃ l, collideBodies fw rbs = some l ∧
      ∀ k : Nat, (l[k]?).map (fun b => b.gridHit) = (rbs[k]?).map (fun b => b.gridHit) := by
  refine forLoop_preserve _ _ _ (fun l : List (RigidBody α) =>
    ∀ k : Nat, (l[k]?).map (fun b => b.gridHit) = (rbs[k]?).map (fun b => b.gridHit))
    rbs (fun _ => rfl) ?_
  intro i _ _ l hl
  refine forLoop_preserve _ _ _ (fun l : List (RigidBody α) =>
    ∀ k : Nat, (l[k]?).map (fun b => b.gridHit) = (rbs[k]?).map (fun b => b.gridHit))
    l hl ?_
  intro j _ _ t ht
  exact ⟨_, rfl, fun k => (handleOneCollisionAt_gridHit fw t i.toNat j.toNat k).trans (ht k)⟩

theorem waterBody_flagged (fw : Framework α) (sim : DiffusionSimulator α)
    (rb : RigidBody α) (T : Grid α) (h : rb.gridHit = true) :
    waterBody fw sim rb T = some (rb, T) := by
  simp [waterBody, h]

theorem waterBodies_flagged (fw : Framework α) (sim : DiffusionSimulator α)
    (rbs : List (RigidBody α)) (T : Grid α) (h : ∀ rb ∈ rbs, rb.gridHit = true) :
    waterBodies fw sim rbs T = some (rbs, T) := by
  induction rbs with
  | nil => rfl
  | cons b rest ih =>
    rw [waterBodies, waterBody_flagged fw sim b T (h b (List.mem_cons_self _ _)),
      Option.some_bind, ih (fun rb hrb => h rb (List.mem_cons_of_mem _ hrb))]
    rfl

theorem waterBodies_keep_flagged (fw : Framework α) (sim : DiffusionSimulator α) (R C : Int)
    (hS : sim.T.Shape R C) (hlen : (sim.pixels.length : Int) = R * C)
    (hpix : ∀ gp ∈ sim.pixels, 0 ≤ gp.x ∧ gp.x < R ∧ 0 ≤ gp.y ∧ gp.y < C)
    (rbs : List (RigidBody α)) (T : Grid α) (hT : T.Shape R C) :
    ∃ st, waterBodies fw sim rbs T = some st ∧ st.2.Shape R C ∧
      ∀ (k : Nat) (rb : RigidBody α), rbs[k]? = some rb → rb.gridHit = true →
        st.1[k]? = some rb := by
  induction rbs generalizing T with
  | nil => exact ⟨([], T), rfl, hT, fun k rb h => by simp at h⟩
  | cons b rest ih =>
    obtain ⟨s1, e1, h1, -⟩ := waterBody_spec fw sim b T R C hT hS hlen hpix
    obtain ⟨s2, e2, h2, hk2⟩ := ih s1.2 h1
    refine ⟨(s1.1 :: s2.1, s2.2), by simp [waterBodies, e1, e2], h2, ?_⟩
    intro k rb hk hflag
    cases k with
    | zero =>
      simp only [List.getElem?_cons_zero, Option.some.injEq] at hk
      subst hk
      have e3 := waterBody_flagged fw sim b T hflag
      rw [e3] at e1
      have : s1 = (b, T) := (Option.some.inj e1).symm
      simp [this]
    | succ m =>
      simp only [List.getElem?_cons_succ] at hk
      simpa using hk2 m rb hk hflag

theorem wallBounce_gridHit (rb : RigidBody α) : (wallBounce rb).gridHit = rb.gridHit := by
  have h1 : ∀ b : RigidBody α, (wallXPos b).gridHit = b.gridHit := by
    intro b; unfold wallXPos; split <;> rfl
  have h2 : ∀ b : RigidBody α, (wallXNeg b).gridHit = b.gridHit := by
    intro b; unfold wallXNeg; split <;> rfl
  have h3 : ∀ b : RigidBody α, (wallZPos b).gridHit = b.gridHit := by
    intro b; unfold wallZPos; split <;> rfl
  have h4 : ∀ b : RigidBody α, (wallZNeg b).gridHit = b.gridHit := by
    intro b; unfold wallZNeg; split <;> rfl
  have h5 : ∀ b : RigidBody α, (wallYPos b).gridHit = b.gridHit := by
    intro b; unfold wallYPos; split <;> rfl
  rw [wallBounce, h5, h4, h3, h2, h1]

/-- C18: a body that is flagged grid-hit is skipped by the water phase (no deposit, no
downward damping); if every active body is flagged, `handleCollisions` returns with the
grid as it was; and in a scene with one pixel per grid cell a body that is flagged before
the pass is still flagged after it and after the integration step. -/
theorem flagged_body_skips_water (fw : Framework α) (sim : DiffusionSimulator α) (dt : α) :
    (∀ (rb : RigidBody α) (T : Grid α), rb.gridHit = true →
      waterBody fw sim rb T = some (rb, T)) ∧
    ((∀ rb ∈ sim.rigidBodies, rb.gridHit = true) →
      ∃ sim', handleCollisions fw sim = some sim' ∧ sim'.T = sim.T) ∧
    (∀ R C : Int, sim.T.Shape R C → (sim.pixels.length : Int) = R * C →
      (∀ gp ∈ sim.pixels, 0 ≤ gp.x ∧ gp.x < R ∧ 0 ≤ gp.y ∧ gp.y < C) →
      ∃ rbs del T', handleCollisionsUpdate fw sim = some (rbs, del, T') ∧
        ∀ (k : Nat) (rb : RigidBody α), sim.rigidBodies[k]? = some rb → rb.gridHit = true →
          ∃ rb', rbs[k]? = some rb' ∧ rb'.gridHit = true ∧
            (integrateBody fw dt rb').gridHit = true) := by
  refine ⟨fun rb T h => waterBody_flagged fw sim rb T h, ?_, ?_⟩
  · intro hall
    obtain ⟨l1, e1, hg1⟩ := collideBodies_gridHit fw sim.rigidBodies
    have hall1 : ∀ rb ∈ l1, rb.gridHit = true := by
      intro rb hrb
      obtain ⟨k, hk⟩ := List.mem_iff_getElem?.mp hrb
      have h := hg1 k
      rw [hk] at h
      rcases h0 : sim.rigidBodies[k]? with _ | b0
      · rw [h0] at h; cases h
      · rw [h0] at h
        have hb0 := hall b0 (List.getElem?_mem h0)
        simp only [Option.map_some', Option.some.injEq] at h
        rw [h, hb0]
    have e2 := waterBodies_flagged fw sim l1 sim.T hall1
    have e3 := wallLoop_full l1
    obtain ⟨final, e4⟩ := eraseBodies_some (l1.map wallBounce)
      (markedIndices (l1.map wallBounce) 0)
    exact ⟨{ sim with rigidBodies := final, T := sim.T },
      by simp [handleCollisions, handleCollisionsUpdate, e1, e2, e3, e4], rfl⟩
  · intro R C hT hlen hpix
    obtain ⟨l1, e1, hg1⟩ := collideBodies_gridHit fw sim.rigidBodies
    obtain ⟨st2, e2, -, hk2⟩ := waterBodies_keep_flagged fw sim R C hT hlen hpix l1 sim.T hT
    have e3 := wallLoop_full st2.1
    refine ⟨st2.1.map wallBounce, markedIndices (st2.1.map wallBounce) 0, st2.2,
      by simp [handleCollisionsUpdate, e1, e2, e3], ?_⟩
    intro k rb hk hflag
    have h := hg1 k
    rw [hk] at h
    rcases h1 : l1[k]? with _ | b1
    · rw [h1] at h; cases h
    · rw [h1] at h
      simp only [Option.map_some', Option.some.injEq] at h
      have hb1 : b1.gridHit = true := by rw [h, hflag]
      refine ⟨wallBounce b1, ?_, ?_, ?_⟩
      · rw [List.getElem?_map, hk2 k b1 h1 hb1]
        rfl
      · rw [wallBounce_gridHit, hb1]
      · show (wallBounce b1).gridHit = true
        rw [wallBounce_gridHit, hb1]

end

theorem flagged_body_skips_water_witness :
    (∀ rb ∈ flaggedScene.rigidBodies, rb.gridHit = true) ∧
    ∃ sim', handleCollisions (exampleFramework exampleInfo) flaggedScene = some sim' ∧
      sim'.T = flaggedScene.T :=
  ⟨by decide,
    (flagged_body_skips_water (exampleFramework exampleInfo) flaggedScene (1 / 60)).2.1
      (by decide)⟩

/-! ## The walls at -1 -/

/-- C19 at a failing input: a body with centre at `x = -1` and side 1/10 has its -X face at
`-1.05` beyond the wall `x = -1` and moves with `vx = -1`, and a body placed likewise on
the z-axis; no SAT test reports overlap. `handleCollisions` leaves both velocity components
at `-1`: the tests at -1 use `position + size/2`. -/
theorem left_wall_not_reflected :
    (exampleBody ⟨-1, 0, 0⟩ ⟨-1, 0, 0⟩).position_x.x
      - (exampleBody ⟨-1, 0, 0⟩ ⟨-1, 0, 0⟩).size.x / 2 < -1 ∧
    (exampleBody ⟨0, 0, -1⟩ ⟨0, 0, -1⟩).position_x.z
      - (exampleBody ⟨0, 0, -1⟩ ⟨0, 0, -1⟩).size.z / 2 < -1 ∧
    (handleCollisions noContact { exampleScene with
        rigidBodies := [exampleBody ⟨-1, 0, 0⟩ ⟨-1, 0, 0⟩,
          exampleBody ⟨0, 0, -1⟩ ⟨0, 0, -1⟩] }).map
      (fun s => s.rigidBodies.map (fun b => (b.linearVelocity_v.x, b.linearVelocity_v.z)))
      = some [(-1, 0), (0, -1)] := by
  refine ⟨by decide!, by decide!, by decide!⟩

/-! ## The projection onto the grid -/

theorem vecAt_append_lt {β : Type} (l : List β) (x : β) (k : Int) (h : k < l.length) :
    vecAt (l ++ [x]) k = vecAt l k := by
  unfold vecAt
  split
  · have hk : k.toNat < l.length := by omega
    rw [List.getElem?_append_left hk]
  · rfl

theorem vecAt_append_length {β : Type} (l : List β) (x : β) (k : Int)
    (h : k = (l.length : Int)) : vecAt (l ++ [x]) k = some x := by
  subst h
  simp [vecAt]

section
variable {α : Type} [LinearOrderedField α]

/-- The constructor of a pixel of a cell of the grid does not fail, stores the cell and
places the pixel at `(x / 20 - 1, ., y / 20 - 1)`. -/
theorem GridPixel.new_spec (grid : Grid α) (R C i j : Int) (hS : grid.Shape R C)
    (hi : 0 ≤ i) (hiR : i < R) (hj : 0 ≤ j) (hjC : j < C) :
    ∃ gp, GridPixel.new grid i j = some gp ∧ gp.x = i ∧ gp.y = j ∧
      gp.pos.x = (i : α) / 20 - 1 ∧ gp.pos.z = (j : α) / 20 - 1 := by
  simp only [GridPixel.new, GridPixel.update, Grid.get_eq_val hS hi hiR hj hjC,
    Option.bind_eq_bind, Option.some_bind, Option.pure_def]
  refine ⟨_, rfl, rfl, rfl, ?_, ?_⟩
  · norm_num [GRID_DIM, GRID_SIZE]; ring
  · norm_num [GRID_DIM, GRID_SIZE]; ring

theorem Grid.getValueInterval_some (g : Grid α) (h : 0 < g.matrix.length) :
    ∃ mm, g.getValueInterval = some mm := by
  unfold Grid.getValueInterval
  rw [List.getElem?_eq_getElem h]
  exact ⟨_, rfl⟩

/-- The function `initPixelsFromGrid` on a grid of `R x C` cells, `R, C > 0`, does not fail and
returns `R * C` pixels, the pixel of the cell `(i, j)` at the index `i * C + j`. -/
theorem initPixelsFromGrid_layout (grid : Grid α) (R C : Int) (hS : grid.Shape R C)
    (hR : 0 < R) (hC : 0 < C) :
    ∃ pixels, GridPixel.initPixelsFromGrid grid = some pixels ∧
      (pixels.length : Int) = R * C ∧
      ∀ i j : Int, 0 ≤ i → i < R → 0 ≤ j → j < C →
        ∃ gp, vecAt pixels (index i j C) = some gp ∧ gp.x = i ∧ gp.y = j ∧
          gp.pos.x = (i : α) / 20 - 1 ∧ gp.pos.z = (j : α) / 20 - 1 := by
  have hlen : 0 < grid.matrix.length := by
    have h1 : 0 < R * C := mul_pos hR hC
    have h2 := hS.2.2.2.2
    omega
  obtain ⟨mm, hmm⟩ := Grid.getValueInterval_some grid hlen
  simp only [GridPixel.initPixelsFromGrid, hmm, Option.bind_eq_bind, Option.some_bind,
    hS.1, hS.2.1]
  have key := forLoop_inv 0 R
    (fun i (pixels : List (GridPixel α)) =>
      forLoop 0 C (fun j (pixels : List (GridPixel α)) =>
        (GridPixel.new grid i j).bind (fun gp => pure (pixels ++ [gp]))) pixels)
    (fun i (pixels : List (GridPixel α)) => (pixels.length : Int) = i * C ∧
      ∀ a b : Int, 0 ≤ a → a < i → 0 ≤ b → b < C →
        ∃ gp, vecAt pixels (index a b C) = some gp ∧ gp.x = a ∧ gp.y = b ∧
          gp.pos.x = (a : α) / 20 - 1 ∧ gp.pos.z = (b : α) / 20 - 1) []
    ⟨by simp, by intro a b h1 h2; omega⟩
    (by
      intro i hi0 hi1 pixels ⟨hl, hcells⟩
      have hin := forLoop_inv 0 C
        (fun j (pixels : List (GridPixel α)) =>
          (GridPixel.new grid i j).bind (fun gp => pure (pixels ++ [gp])))
        (fun j (pixels : List (GridPixel α)) => (pixels.length : Int) = i * C + j ∧
          ∀ a b : Int, 0 ≤ a → 0 ≤ b → b < C → (a < i ∨ (a = i ∧ b < j)) →
            ∃ gp, vecAt pixels (index a b C) = some gp ∧ gp.x = a ∧ gp.y = b ∧
              gp.pos.x = (a : α) / 20 - 1 ∧ gp.pos.z = (b : α) / 20 - 1) pixels
        ⟨by omega, by
          intro a b h1 h2 h3 h4
          rcases h4 with h4 | h4
          · exact hcells a b h1 h4 h2 h3
          · omega⟩
        (by
          intro j hj0 hj1 out ⟨hl', hcells'⟩
          obtain ⟨gp, e, ex, ey, epx, epz⟩ := GridPixel.new_spec grid R C i j hS hi0 hi1 hj0 hj1
          refine ⟨out ++ [gp], by simp [e], ?_, ?_⟩
          · rw [List.length_append]; simp only [List.length_singleton]; push_cast; omega
          · intro a b h1 h2 h3 h4
            by_cases hEq : a = i ∧ b = j
            · obtain ⟨ea, eb⟩ := hEq
              subst ea eb
              exact ⟨gp, vecAt_append_length out gp _ (by unfold index; omega),
                ex, ey, epx, epz⟩
            · have hlt : index a b C < (out.length : Int) := by
                rcases h4 with h4 | h4
                · have hb := (index_bounds (R := i) h1 h4 h2 h3).2
                  omega
                · unfold index; obtain ⟨ea, eb⟩ := h4; subst ea; omega
              rw [vecAt_append_lt out gp _ hlt]
              refine hcells' a b h1 h2 h3 ?_
              rcases h4 with h4 | h4
              · exact Or.inl h4
              · exact Or.inr ⟨h4.1, by omega⟩)
      obtain ⟨out, e, hl', hcells'⟩ := hin
      refine ⟨out, e, ?_, ?_⟩
      · have e0 : (0 : Int) + (((C - 0).toNat : Nat) : Int) = C := by omega
        rw [e0] at hl'
        rw [hl']; ring
      · intro a b h1 h2 h3 h4
        have e0 : (0 : Int) + (((C - 0).toNat : Nat) : Int) = C := by omega
        rw [e0] at hcells'
        refine hcells' a b h1 h3 h4 ?_
        by_cases h : a < i
        · exact Or.inl h
        · exact Or.inr ⟨by omega, h4⟩)
  obtain ⟨pixels, e, hl, hcells⟩ := key
  have e0 : (0 : Int) + (((R - 0).toNat : Nat) : Int) = R := by omega
  rw [e0] at hl hcells
  exact ⟨pixels, e, hl, hcells⟩

end

section
variable {α : Type} [LinearOrderedField α]

/-- The setup of a grid of `dim x dim` cells, `dim > 0`, does not fail: it leaves a grid of
that shape with `dim * dim` pixels, the pixel of the cell `(i, j)` at the index
`i * dim + j`, and the intervals from `-1` to `(dim - 1) / 20 - 1`. -/
theorem initSetup_PDE_spec (dim : Int) (sim : DiffusionSimulator α) (hdim : 0 < dim) :
    ∃ sim', initSetup_PDE dim sim = some sim' ∧ sim'.T.Shape dim dim ∧
      (sim'.pixels.length : Int) = dim * dim ∧
      (∀ i j : Int, 0 ≤ i → i < dim → 0 ≤ j → j < dim →
        ∃ gp, vecAt sim'.pixels (index i j dim) = some gp ∧ gp.x = i ∧ gp.y = j) ∧
      sim'.grid_minX = -1 ∧ sim'.grid_maxX = ((dim : α) - 1) / 20 - 1 ∧
      sim'.grid_minZ = -1 ∧ sim'.grid_maxZ = ((dim : α) - 1) / 20 - 1 := by
  obtain ⟨g, eg, hg, -⟩ := Grid.mk2_spec (α := α) hdim.le hdim.le
  obtain ⟨T, eT, hT, -, -⟩ := Grid.fill_spec g dim dim 0 dim 0 dim
    (fun i j (T : Grid α) => T.set i j 0)
    (fun i (T : Grid α) => forLoop 0 T.cols (fun j (T : Grid α) => T.set i j 0) T)
    (fun _ _ => 0) hg le_rfl le_rfl le_rfl le_rfl
    (fun i g hs => by simp only [hs.2.1]) (fun i j _ _ _ _ g _ => rfl)
  obtain ⟨pixels, ep, hl, hcells⟩ := initPixelsFromGrid_layout T dim dim hT hdim hdim
  obtain ⟨first, e1, -, -, fx, fz⟩ := hcells 0 0 le_rfl hdim le_rfl hdim
  obtain ⟨last, e2, -, -, lx, lz⟩ := hcells (dim - 1) (dim - 1) (by omega) (by omega)
    (by omega) (by omega)
  have i1 : index 0 0 dim = 0 := by simp [index]
  have i2 : index (dim - 1) (dim - 1) dim = (pixels.length : Int) - 1 := by
    rw [hl]; unfold index; ring
  rw [i1] at e1
  rw [i2] at e2
  refine ⟨{ sim with
      T := T
      pixels := pixels
      grid_minX := first.pos.x
      grid_maxX := last.pos.x
      grid_minZ := first.pos.z
      grid_maxZ := last.pos.z
      T_t_minus_one := g }, ?_, hT, hl, ?_, ?_, ?_, ?_, ?_⟩
  · simp only [initSetup_PDE, initGridIntervals, Option.bind_eq_bind, eg, Option.some_bind,
      hg.1, eT, ep, e1, e2, Option.pure_def]
  · intro i j h1 h2 h3 h4
    obtain ⟨gp, e, ex, ey, -, -⟩ := hcells i j h1 h2 h3 h4
    exact ⟨gp, e, ex, ey⟩
  · show first.pos.x = -1
    rw [fx]; simp
  · show last.pos.x = ((dim : α) - 1) / 20 - 1
    rw [lx]; push_cast; ring
  · show first.pos.z = -1
    rw [fz]; simp
  · show last.pos.z = ((dim : α) - 1) / 20 - 1
    rw [lz]; push_cast; ring

/-- The two loops of `getProjectedPixels`, for any values of `index_row`, `index_col` and
`delta`: with the pixel of the cell `(i, j)` at the index `i * C + j` no lookup fails, and
the output holds pixels of cells of the clamped window, each found at the index of its
cell, no cell twice. -/
theorem projectedWindow_spec (pixels : List (GridPixel α)) (R C index_row index_col delta : Int)
    (hpix : ∀ i j : Int, 0 ≤ i → i < R → 0 ≤ j → j < C →
      ∃ gp, vecAt pixels (index i j C) = some gp ∧ gp.x = i ∧ gp.y = j) :
    ∃ gps, forLoop (max 0 (index_row - delta)) (min R (index_row + delta))
        (fun i (out : List (GridPixel α)) =>
          forLoop (max 0 (index_col - delta)) (min C (index_col + delta))
            (fun j (out : List (GridPixel α)) =>
              (vecAt pixels (index i j C)).bind (fun gp => some (out ++ [gp]))) out) []
        = some gps ∧
      (∀ gp ∈ gps, (max 0 (index_row - delta) ≤ gp.x ∧ gp.x < min R (index_row + delta) ∧
        max 0 (index_col - delta) ≤ gp.y ∧ gp.y < min C (index_col + delta)) ∧
        vecAt pixels (index gp.x gp.y C) = some gp) ∧
      (gps.map (fun gp => (gp.x, gp.y))).Nodup := by
  have key := forLoop2_inv
    (max 0 (index_row - delta)) (min R (index_row + delta))
    (max 0 (index_col - delta)) (min C (index_col + delta))
    (fun i j (out : List (GridPixel α)) =>
      (vecAt pixels (index i j C)).bind (fun gp => some (out ++ [gp])))
    (fun i (out : List (GridPixel α)) =>
      forLoop (max 0 (index_col - delta)) (min C (index_col + delta))
        (fun j (out : List (GridPixel α)) =>
          (vecAt pixels (index i j C)).bind (fun gp => some (out ++ [gp]))) out)
    (fun D (out : List (GridPixel α)) =>
      (∀ gp ∈ out, (gp.x, gp.y) ∈ D ∧
        (max 0 (index_row - delta) ≤ gp.x ∧ gp.x < min R (index_row + delta) ∧
          max 0 (index_col - delta) ≤ gp.y ∧ gp.y < min C (index_col + delta)) ∧
        vecAt pixels (index gp.x gp.y C) = some gp) ∧
      (out.map (fun gp => (gp.x, gp.y))).Nodup) ([] : List (GridPixel α))
    ⟨by simp, by simp⟩ (fun i D t _ => rfl)
    (by
      intro i j hi0 hi1 hj0 hj1 D out hD ⟨hmem, hnd⟩
      have a1 : 0 ≤ i := le_trans (le_max_left _ _) hi0
      have a2 : i < R := lt_of_lt_of_le hi1 (min_le_left _ _)
      have a3 : 0 ≤ j := le_trans (le_max_left _ _) hj0
      have a4 : j < C := lt_of_lt_of_le hj1 (min_le_left _ _)
      obtain ⟨gp, hgp, hx, hy⟩ := hpix i j a1 a2 a3 a4
      refine ⟨out ++ [gp], by simp [hgp], ?_, ?_⟩
      · intro g hg
        rcases List.mem_append.mp hg with h | h
        · obtain ⟨m1, m2⟩ := hmem g h
          exact ⟨Set.mem_insert_of_mem _ m1, m2⟩
        · rw [List.mem_singleton.mp h, hx, hy]
          exact ⟨Set.mem_insert _ _, ⟨hi0, hi1, hj0, hj1⟩, hgp⟩
      · rw [List.map_append, List.nodup_append]
        refine ⟨hnd, by simp, ?_⟩
        intro a ha hb
        simp only [List.map_cons, List.map_nil, List.mem_singleton] at hb
        obtain ⟨g, hg, hga⟩ := List.mem_map.mp ha
        have hmemD := (hmem g hg).1
        rw [hga, hb, hx, hy] at hmemD
        exact hD hmemD)
  obtain ⟨gps, e, hmem, hnd⟩ := key
  exact ⟨gps, e, fun gp h => (hmem gp h).2, hnd⟩

/-- At most `(r1 - r0) * (c1 - c0)` pixels of pairwise different cells lie in the window
`[r0, r1) x [c0, c1)`. -/
theorem window_length_le (gps : List (GridPixel α)) (r0 r1 c0 c1 : Int)
    (hmem : ∀ gp ∈ gps, r0 ≤ gp.x ∧ gp.x < r1 ∧ c0 ≤ gp.y ∧ gp.y < c1)
    (hnd : (gps.map (fun gp => (gp.x, gp.y))).Nodup) :
    gps.length ≤ (r1 - r0).toNat * (c1 - c0).toNat := by
  have h1 : (gps.map (fun gp => (gp.x, gp.y))).toFinset.card = gps.length := by
    rw [List.toFinset_card_of_nodup hnd, List.length_map]
  have h2 : (gps.map (fun gp => (gp.x, gp.y))).toFinset ⊆
      Finset.Ico r0 r1 ×ˢ Finset.Ico c0 c1 := by
    intro p hp
    rw [List.mem_toFinset] at hp
    obtain ⟨gp, hgp, rfl⟩ := List.mem_map.mp hp
    obtain ⟨b1, b2, b3, b4⟩ := hmem gp hgp
    simp only [Finset.mem_product, Finset.mem_Ico]
    exact ⟨⟨b1, b2⟩, b3, b4⟩
  have h3 := Finset.card_le_card h2
  rw [h1, Finset.card_product, Int.card_Ico, Int.card_Ico] at h3
  exact h3

end

section
variable {α : Type} [LinearOrderedField α] [FloorRing α]

theorem updatePixelList_cells (grid : Grid α) (l l' : List (GridPixel α))
    (h : updatePixelList grid l = some l') :
    l'.map (fun gp => (gp.x, gp.y)) = l.map (fun gp => (gp.x, gp.y)) := by
  induction l generalizing l' with
  | nil =>
    simp only [updatePixelList, Option.some.injEq] at h
    rw [← h]
  | cons gp rest ih =>
    simp only [updatePixelList] at h
    cases hu : gp.update grid with
    | none => rw [hu] at h; exact absurd h (by simp)
    | some gp' =>
      cases hr : updatePixelList grid rest with
      | none => rw [hu, hr] at h; exact absurd h (by simp)
      | some rest' =>
        rw [hu, hr] at h
        simp only [Option.some_bind, Option.map_some', Option.some.injEq] at h
        have hc : gp'.x = gp.x ∧ gp'.y = gp.y := by
          simp only [GridPixel.update, Option.bind_eq_bind, Option.pure_def] at hu
          cases hg : grid.get gp.x gp.y with
          | none => rw [hg] at hu; exact absurd hu (by simp)
          | some v =>
            rw [hg] at hu
            simp only [Option.some_bind, Option.some.injEq] at hu
            rw [← hu]
            exact ⟨rfl, rfl⟩
        rw [← h, List.map_cons, List.map_cons, ih rest' hr, hc.1, hc.2]

/-- The method `updatePixels` keeps the grid, the number of pixels and the cell of the pixel
at every index. -/
theorem updatePixels_layout (sim sim' : DiffusionSimulator α) (R C : Int)
    (h : updatePixels sim = some sim')
    (hpix : ∀ i j : Int, 0 ≤ i → i < R → 0 ≤ j → j < C →
      ∃ gp, vecAt sim.pixels (index i j C) = some gp ∧ gp.x = i ∧ gp.y = j) :
    sim'.T = sim.T ∧ sim'.pixels.length = sim.pixels.length ∧
    ∀ i j : Int, 0 ≤ i → i < R → 0 ≤ j → j < C →
      ∃ gp, vecAt sim'.pixels (index i j C) = some gp ∧ gp.x = i ∧ gp.y = j := by
  unfold updatePixels at h
  cases hl : updatePixelList sim.T sim.pixels with
  | none => rw [hl] at h; exact absurd h (by simp)
  | some ps =>
    rw [hl] at h
    simp only [Option.map_some', Option.some.injEq] at h
    have hc := updatePixelList_cells sim.T sim.pixels ps hl
    have hlen : ps.length = sim.pixels.length := by
      have := congrArg List.length hc
      simpa using this
    rw [← h]
    refine ⟨rfl, hlen, ?_⟩
    intro i j h1 h2 h3 h4
    obtain ⟨gp, e, ex, ey⟩ := hpix i j h1 h2 h3 h4
    have hk : 0 ≤ index i j C := by
      by_contra hneg
      simp [vecAt, hneg] at e
    have e' : sim.pixels[(index i j C).toNat]? = some gp := by
      simpa [vecAt, hk] using e
    have hm : (ps.map (fun gp => (gp.x, gp.y)))[(index i j C).toNat]? = some (i, j) := by
      rw [hc, List.getElem?_map, e', Option.map_some', ex, ey]
    rw [List.getElem?_map] at hm
    cases hp : ps[(index i j C).toNat]? with
    | none => rw [hp] at hm; exact absurd hm (by simp)
    | some gp' =>
      rw [hp] at hm
      simp only [Option.map_some', Option.some.injEq, Prod.mk.injEq] at hm
      exact ⟨gp', by simp [vecAt, hk, hp], hm.1, hm.2⟩

/-- C21: on a grid of `R x C` cells with `R * C` pixels, the pixel of the cell `(i, j)` at the
index `i * C + j`, and with `grid_minX < grid_maxX`, `grid_minZ < grid_maxZ`,
`getProjectedPixels` does not fail at any position. Every lookup pushes its pixel onto the
output, and every pixel of the output is the pixel of a cell `(i, j)` with `0 <= i < R` and
`0 <= j < C`, found at the index `i * C + j`. The output has at most 36 pixels, all in one
window of 6 x 6 cells, no cell twice. Reals are exact and `int` is unbounded here; the
loops are safe for any `index_row` and `index_col` (`projectedWindow_spec`). -/
theorem projected_pixels_in_bounds (sim : DiffusionSimulator α) (R C : Int)
    (position : Vec3 α) (hS : sim.T.Shape R C)
    (hlen : (sim.pixels.length : Int) = R * C)
    (hpix : ∀ i j : Int, 0 ≤ i → i < R → 0 ≤ j → j < C →
      ∃ gp, vecAt sim.pixels (index i j C) = some gp ∧ gp.x = i ∧ gp.y = j)
    (hX : sim.grid_minX < sim.grid_maxX) (hZ : sim.grid_minZ < sim.grid_maxZ) :
    ∃ gps, getProjectedPixels sim position = some gps ∧
      (∀ gp ∈ gps, 0 ≤ gp.x ∧ gp.x < R ∧ 0 ≤ gp.y ∧ gp.y < C ∧
        vecAt sim.pixels (index gp.x gp.y C) = some gp) ∧
      gps.length ≤ 36 ∧
      (∃ r0 c0 : Int, ∀ gp ∈ gps,
        r0 ≤ gp.x ∧ gp.x < r0 + 6 ∧ c0 ≤ gp.y ∧ gp.y < c0 + 6) ∧
      (gps.map (fun gp => (gp.x, gp.y))).Nodup := by
  unfold getProjectedPixels
  split
  · exact ⟨[], rfl, by simp, by simp, ⟨0, 0, by simp⟩, by simp⟩
  · have hd : (CULLING_PROJECTION_RADIUS / 2 : Int) = 3 := by decide
    obtain ⟨gps, e, hmem, hnd⟩ := projectedWindow_spec sim.pixels R C
      (toInt (((position.x - sim.grid_minX) / (sim.grid_maxX - sim.grid_minX))
        * (sim.T.cols : α)))
      (toInt (((position.z - sim.grid_minZ) / (sim.grid_maxZ - sim.grid_minZ))
        * (sim.T.rows : α))) (CULLING_PROJECTION_RADIUS / 2) hpix
    refine ⟨gps, ?_, ?_, ?_, ?_, hnd⟩
    · rw [hS.1, hS.2.1]
      rw [hS.1, hS.2.1] at e
      exact e
    · intro gp hgp
      obtain ⟨⟨b1, b2, b3, b4⟩, hat⟩ := hmem gp hgp
      exact ⟨le_trans (le_max_left _ _) b1, lt_of_lt_of_le b2 (min_le_left _ _),
        le_trans (le_max_left _ _) b3, lt_of_lt_of_le b4 (min_le_left _ _), hat⟩
    · have hle := window_length_le gps _ _ _ _ (fun gp hgp => (hmem gp hgp).1) hnd
      rw [hd] at hle
      refine le_trans hle ?_
      have w1 : (min R (toInt (((position.x - sim.grid_minX)
          / (sim.grid_maxX - sim.grid_minX)) * (sim.T.cols : α)) + 3)
          - max 0 (toInt (((position.x - sim.grid_minX)
          / (sim.grid_maxX - sim.grid_minX)) * (sim.T.cols : α)) - 3)).toNat ≤ 6 := by
        have m1 := min_le_right R (toInt (((position.x - sim.grid_minX)
          / (sim.grid_maxX - sim.grid_minX)) * (sim.T.cols : α)) + 3)
        have m2 := le_max_right 0 (toInt (((position.x - sim.grid_minX)
          / (sim.grid_maxX - sim.grid_minX)) * (sim.T.cols : α)) - 3)
        omega
      have w2 : (min C (toInt (((position.z - sim.grid_minZ)
          / (sim.grid_maxZ - sim.grid_minZ)) * (sim.T.rows : α)) + 3)
          - max 0 (toInt (((position.z - sim.grid_minZ)
          / (sim.grid_maxZ - sim.grid_minZ)) * (sim.T.rows : α)) - 3)).toNat ≤ 6 := by
        have m1 := min_le_right C (toInt (((position.z - sim.grid_minZ)
          / (sim.grid_maxZ - sim.grid_minZ)) * (sim.T.rows : α)) + 3)
        have m2 := le_max_right 0 (toInt (((position.z - sim.grid_minZ)
          / (sim.grid_maxZ - sim.grid_minZ)) * (sim.T.rows : α)) - 3)
        omega
      exact Nat.mul_le_mul w1 w2
    · refine ⟨toInt (((position.x - sim.grid_minX) / (sim.grid_maxX - sim.grid_minX))
          * (sim.T.cols : α)) - 3,
        toInt (((position.z - sim.grid_minZ) / (sim.grid_maxZ - sim.grid_minZ))
          * (sim.T.rows : α)) - 3, ?_⟩
      intro gp hgp
      obtain ⟨⟨b1, b2, b3, b4⟩, -⟩ := hmem gp hgp
      rw [hd] at b1 b2 b3 b4
      have m1 := lt_of_lt_of_le b2 (min_le_right _ _)
      have m2 := le_trans (le_max_right _ _) b1
      have m3 := lt_of_lt_of_le b4 (min_le_right _ _)
      have m4 := le_trans (le_max_right _ _) b3
      exact ⟨m2, by omega, m4, by omega⟩

end

/-- The scene after the setup of the grid of 40 x 40 cells has one pixel per cell, in
row-major order, and the intervals from `-1` to `19 / 20`. -/
theorem setupScene_spec :
    setupScene.T.Shape 40 40 ∧ (setupScene.pixels.length : Int) = 40 * 40 ∧
    (∀ i j : Int, 0 ≤ i → i < 40 → 0 ≤ j → j < 40 →
      ∃ gp, vecAt setupScene.pixels (index i j 40) = some gp ∧ gp.x = i ∧ gp.y = j) ∧
    setupScene.grid_minX = -1 ∧ setupScene.grid_maxX = 19 / 20 ∧
    setupScene.grid_minZ = -1 ∧ setupScene.grid_maxZ = 19 / 20 := by
  obtain ⟨s, e, h1, h2, h3, h4, h5, h6, h7⟩ :=
    initSetup_PDE_spec (α := ℚ) 40 splashScene (by decide)
  have es : setupScene = s := by
    unfold setupScene
    have hdim : GRID_DIM = 40 := rfl
    rw [hdim, e]
    rfl
  rw [es]
  refine ⟨h1, h2, h3, h4, ?_, h6, ?_⟩
  · rw [h5]; norm_num
  · rw [h7]; norm_num

theorem projected_pixels_in_bounds_witness :
    setupScene.T.Shape 40 40 ∧ (setupScene.pixels.length : Int) = 40 * 40 ∧
    (∀ i j : Int, 0 ≤ i → i < 40 → 0 ≤ j → j < 40 →
      ∃ gp, vecAt setupScene.pixels (index i j 40) = some gp ∧ gp.x = i ∧ gp.y = j) ∧
    setupScene.grid_minX < setupScene.grid_maxX ∧
    setupScene.grid_minZ < setupScene.grid_maxZ ∧
    ∃ gps, getProjectedPixels setupScene ⟨0, 0, 0⟩ = some gps ∧
      (∀ gp ∈ gps, 0 ≤ gp.x ∧ gp.x < 40 ∧ 0 ≤ gp.y ∧ gp.y < 40 ∧
        vecAt setupScene.pixels (index gp.x gp.y 40) = some gp) ∧
      gps.length ≤ 36 ∧
      (∃ r0 c0 : Int, ∀ gp ∈ gps,
        r0 ≤ gp.x ∧ gp.x < r0 + 6 ∧ c0 ≤ gp.y ∧ gp.y < c0 + 6) ∧
      (gps.map (fun gp => (gp.x, gp.y))).Nodup :=
  have hX : setupScene.grid_minX < setupScene.grid_maxX := by
    rw [setupScene_spec.2.2.2.1, setupScene_spec.2.2.2.2.1]; norm_num
  have hZ : setupScene.grid_minZ < setupScene.grid_maxZ := by
    rw [setupScene_spec.2.2.2.2.2.1, setupScene_spec.2.2.2.2.2.2]; norm_num
  ⟨setupScene_spec.1, setupScene_spec.2.1, setupScene_spec.2.2.1, hX, hZ,
    projected_pixels_in_bounds setupScene 40 40 ⟨0, 0, 0⟩ setupScene_spec.1
      setupScene_spec.2.1 setupScene_spec.2.2.1 hX hZ⟩

/-- The bound of 36 pixels is attained: after the setup of a grid of 8 x 8 cells, the
position `(-4/5, 0, -4/5)` projects onto the 6 x 6 cells of the rows and columns 1 to 6. A
position with `z = 5`, beyond `grid_maxZ`, passes the guard and projects onto no cell. -/
theorem projected_window_full :
    ((initSetup_PDE 8 splashScene).bind
        (fun s => getProjectedPixels s ⟨-4 / 5, 0, -4 / 5⟩)).map List.length = some 36 ∧
    ((initSetup_PDE 8 splashScene).bind
        (fun s => getProjectedPixels s ⟨-4 / 5, 0, 5⟩)).map List.length = some 0 := by
  refine ⟨by decide!, by decide!⟩

end DiffusionSim
